import Mathlib

/-!
# Verification of the SurrealSocket connection core

A shallow embedding of `src/library/SurrealSocket.ts`: a persistent,
auto-reconnecting WebSocket RPC client.  The class state (a pending-request
map `queue`, a subscription-listener map `liveQueue`, an early-arrival buffer
`unprocessedLiveResponses`, a connection `status`, the current transport and
the `ready`/`closed` promises) is modelled as a Lean structure; each event
listener and method body of the class becomes a pure function from state to
state plus a list of observable events (callback invocations, promise
settlements, transport writes, scheduled timers and status hooks).  On top of
the per-handler functions, a system-level step function models the
asynchronous structure of the class (suspended `await`s of `send`, `kill` and
`close`, the per-`open()` settling flag, the reconnect timer), so that
temporal properties (registration happens only after readiness, a promise is
never settled, ...) can be stated over executions.

JavaScript dynamic values reaching the handlers are modelled by `JSValue`,
with the semantics of the `in` operator, member access, truthiness and
string coercion on the JSON-value universe (prototype-inherited properties
are not modelled; the keys the code tests for - `id`, `result`, `action` -
are not inherited properties of plain objects or arrays).
-/

namespace SurrealSocket

/-! ## JavaScript values -/

/-- A JavaScript value as it can appear in a handler: `undefined`, or a value
from the JSON universe produced by `JSON.parse` (numbers restricted to the
integers; no claim here exercises float behaviour). -/
inductive JSValue where
  | undefined
  | null
  | bool (b : Bool)
  | num (n : Int)
  | str (s : String)
  | arr (elems : List JSValue)
  | obj (fields : List (String × JSValue))

/-- `typeof v === "object"` : true exactly for `null`, arrays and objects. -/
def jsTypeofIsObject : JSValue → Bool
  | .null => true
  | .arr _ => true
  | .obj _ => true
  | _ => false

/-- Is the value the JS `null`? (used for `v !== null` checks). -/
def jsIsNull : JSValue → Bool
  | .null => true
  | _ => false

/-- JS truthiness of a value. -/
def jsTruthy : JSValue → Bool
  | .undefined => false
  | .null => false
  | .bool b => b
  | .num n => !(n == 0)
  | .str s => !(s == "")
  | .arr _ => true
  | .obj _ => true

mutual

/-- JS `ToString` coercion on our value universe (objects print as
`[object Object]`, arrays join their elements with commas). -/
def jsToString : JSValue → String
  | .undefined => "undefined"
  | .null => "null"
  | .bool true => "true"
  | .bool false => "false"
  | .num n => toString n
  | .str s => s
  | .arr elems => jsArrToString elems
  | .obj _ => "[object Object]"

/-- `Array.prototype.toString`: elements joined by `","`, with `null` and
`undefined` elements printing as the empty string. -/
def jsArrToString : List JSValue → String
  | [] => ""
  | x :: xs =>
    let hd := match x with
      | .undefined => ""
      | .null => ""
      | v => jsToString v
    match xs with
    | [] => hd
    | _ => hd ++ "," ++ jsArrToString xs

end

/-- The JS `in` operator `key in v`: own properties of objects, index keys and
`length` of arrays; throws a `TypeError` on primitives. -/
def jsIn (key : String) : JSValue → Except String Bool
  | .obj fields => .ok (fields.any (fun f => f.1 == key))
  | .arr elems =>
      .ok (key == "length" || (List.range elems.length).any (fun i => toString i == key))
  | _ => .error "TypeError: cannot use in operator on a primitive"

/-- Member access `v.key` / `v[key]`: `undefined` for a missing property or on
a non-null primitive, throws on `null`/`undefined`. -/
def getField : JSValue → String → Except String JSValue
  | .undefined, _ => .error "TypeError: cannot read properties of undefined"
  | .null, _ => .error "TypeError: cannot read properties of null"
  | .obj fields, key =>
      .ok (match fields.find? (fun f => f.1 == key) with
        | some f => f.2
        | none => .undefined)
  | .arr elems, key =>
      .ok (if key == "length" then .num elems.length
        else match (List.range elems.length).find? (fun i => toString i == key) with
          | some i => elems.getD i .undefined
          | none => .undefined)
  | _, _ => .ok .undefined

/-- Object rest-destructuring `\x7b key, ...rest \x7d = v`: the own enumerable
properties of `v` except `key` (array indices for an array; an empty object
for a primitive). -/
def jsOmitField : JSValue → String → JSValue
  | .obj fields, key => .obj (fields.filter (fun f => !(f.1 == key)))
  | .arr elems, _ => .obj (elems.enum.map (fun p => (toString p.1, p.2)))
  | _, _ => .obj []

/-! ## String-keyed records

A JS `Record<string, T>` is modelled by an insertion-ordered association
list: assignment to a fresh key appends, assignment to an existing key
updates in place, `delete` removes the entry.  (A live JS object has at most
one entry per key.) -/

/-- `record[k]`, reading an own property. -/
def rlookup {α : Type} (m : List (String × α)) (k : String) : Option α :=
  (m.find? (fun p => p.1 == k)).map (fun p => p.2)

/-- `record[k] = v`: updates the (unique) entry for `k` in place, or appends a
fresh entry at the end. -/
def rset {α : Type} : List (String × α) → String → α → List (String × α)
  | [], k, v => [(k, v)]
  | a :: t, k, v => if a.1 == k then (k, v) :: t else a :: rset t k v

/-- `delete record[k]`. -/
def rdel {α : Type} (m : List (String × α)) (k : String) : List (String × α) :=
  m.filter (fun p => !(p.1 == k))

/-! ## The socket state and its observable events

Fields mirror the class fields of `SurrealSocket`.  Listener callbacks and
promises are named by numeric identifiers; invoking a callback or settling a
promise is an observable `Event` rather than a Lean function call. -/

inductive WebsocketStatus where
  | OPEN
  | CLOSED
  | RECONNECTING
  deriving Repr, DecidableEq

/-- The mutable fields of a `SurrealSocket` instance.  `queue` maps a request
identifier to the promise its single-shot continuation resolves; `liveQueue`
maps a subscription identifier to its ordered callback list;
`unprocessedLiveResponses` is the early-arrival buffer.  `ws` is the current
transport handle (`none` = `undefined`), `resolveClosed` the resolver of the
current `closed` promise, `ready` the current `ready` promise. -/
structure SocketState where
  status : WebsocketStatus
  queue : List (String × Nat)
  liveQueue : List (String × List Nat)
  unprocessedLiveResponses : List (String × List JSValue)
  ws : Option Nat
  resolveClosed : Option Nat
  ready : Option Nat

/-- Observable effects of running a handler. -/
inductive Event where
  | invokeCb (cb : Nat) (data : JSValue)
  | resolveP (p : Nat) (value : JSValue)
  | rejectP (p : Nat)
  | wsSendFrame (wsId : Nat) (frame : JSValue)
  | wsCloseCall (wsId : Nat) (code : Nat) (reason : Option String)
  | scheduleOpen (delayMs : Nat)
  | hookConnect
  | hookClose
  | hookError
  | uncaughtError (msg : String)

/-- Field state of a freshly constructed `SurrealSocket`. -/
def initialSocket : SocketState :=
  { status := .CLOSED, queue := [], liveQueue := [], unprocessedLiveResponses := [],
    ws := none, resolveClosed := none, ready := none }

/-- The terminal event delivered to live listeners when the transport closes. -/
def socketClosedMessage : JSValue :=
  .obj [("action", .str "CLOSE"), ("detail", .str "SOCKET_CLOSED")]

/-- The terminal event delivered to live listeners by `kill`. -/
def queryKilledMessage : JSValue :=
  .obj [("action", .str "CLOSE"), ("detail", .str "QUERY_KILLED")]

/-- `socketClosureReason`: registry of known closure codes (`1000` only). -/
def socketClosureReason (code : Nat) : Option String :=
  if code == 1000 then some "CLOSE_NORMAL" else none

/-! ## The handlers, translated from `SurrealSocket.ts` -/

/-- The `close` event listener installed by `open()` (lines 78-104): resolve
the pending `closed` promise, deliver one `CLOSE`/`SOCKET_CLOSED` event to
every registered live callback, clear all three maps, and - when the closure
was not caller-initiated - flip to `RECONNECTING`, schedule `open()` after
2500 ms and fire the close hook. -/
def closeListener (s : SocketState) : SocketState × List Event :=
  let resolveEvents : List Event :=
    match s.resolveClosed with
    | some p => [.resolveP p .undefined]
    | none => []
  let terminalEvents : List Event :=
    (s.liveQueue.map (fun q => q.2.map (fun cb => Event.invokeCb cb socketClosedMessage))).flatten
  let cleared : SocketState :=
    { s with queue := [], liveQueue := [], unprocessedLiveResponses := [] }
  if s.status ≠ .CLOSED then
    ({ cleared with status := .RECONNECTING },
      resolveEvents ++ terminalEvents ++ [.scheduleOpen 2500, .hookClose])
  else
    (cleared, resolveEvents ++ terminalEvents)

/-- `SurrealSocket.isLiveNotification` (lines 195-207), with JS short-circuit
evaluation of the `&&` chain; throws on a primitive frame because `in` is
applied to it. -/
def isLiveNotification (message : JSValue) : Except String Bool :=
  match jsIn "id" message with
  | .error e => .error e
  | .ok true => .ok false
  | .ok false =>
    match jsIn "result" message with
    | .error e => .error e
    | .ok false => .ok false
    | .ok true =>
      match getField message "result" with
      | .error e => .error e
      | .ok result =>
        if jsTypeofIsObject result && !(jsIsNull result) then
          match jsIn "action" result with
          | .error e => .error e
          | .ok false => .ok false
          | .ok true =>
            match jsIn "id" result with
            | .error e => .error e
            | .ok false => .ok false
            | .ok true => jsIn "result" result
        else .ok false

/-- `SurrealSocket.handleLiveBatch` (lines 168-181).  The argument is the
frame's `result` value; the parameter destructuring
`(id: queryUuid, ...message)` extracts the subscription identifier (coerced
to a record key) and the payload (the object minus its `id` field). -/
def handleLiveBatch (s : SocketState) (result : JSValue) :
    Except String (SocketState × List Event) :=
  match getField result "id" with
  | .error e => .error e
  | .ok idv =>
    let queryUuid := jsToString idv
    let message := jsOmitField result "id"
    match rlookup s.liveQueue queryUuid with
    | some cbs => .ok (s, cbs.map (fun cb => Event.invokeCb cb message))
    | none =>
      let buf := (rlookup s.unprocessedLiveResponses queryUuid).getD []
      let buffers := rset s.unprocessedLiveResponses queryUuid (buf ++ [message])
      .ok ({ s with unprocessedLiveResponses := buffers }, [])

/-- The `message` event listener installed by `open()` (lines 106-116),
applied to the JSON-parsed frame: a live notification is dispatched to
`handleLiveBatch`; otherwise a frame whose (truthy) `id` is a key of the
pending-request map consumes that continuation; all other frames fall
through. -/
def messageListener (s : SocketState) (res : JSValue) :
    Except String (SocketState × List Event) :=
  match isLiveNotification res with
  | .error e => .error e
  | .ok true =>
    match getField res "result" with
    | .error e => .error e
    | .ok result => handleLiveBatch s result
  | .ok false =>
    match getField res "id" with
    | .error e => .error e
    | .ok idv =>
      if jsTruthy idv then
        match rlookup s.queue (jsToString idv) with
        | some p => .ok ({ s with queue := rdel s.queue (jsToString idv) },
            [.resolveP p res])
        | none => .ok (s, [])
      else .ok (s, [])

/-- `SurrealSocket.listenLive` (lines 136-148): append the callback to the
listener list (created if absent), deliver every buffered notification for
the identifier to the new callback in order, then delete the buffer entry. -/
def listenLive (s : SocketState) (queryUuid : String) (callback : Nat) :
    SocketState × List Event :=
  let lq0 := if (rlookup s.liveQueue queryUuid).isSome then s.liveQueue
             else rset s.liveQueue queryUuid []
  let lq := rset lq0 queryUuid ((rlookup lq0 queryUuid).getD [] ++ [callback])
  let buffered := (rlookup s.unprocessedLiveResponses queryUuid).getD []
  ({ s with liveQueue := lq,
            unprocessedLiveResponses := rdel s.unprocessedLiveResponses queryUuid },
   buffered.map (fun data => Event.invokeCb callback data))

/-- Synchronous part of `SurrealSocket.kill` (lines 150-160), up to the call
of `send`: deliver `CLOSE`/`QUERY_KILLED` to every listener of the
identifier and remove its listener list. -/
def killPhase1 (s : SocketState) (queryUuid : String) : SocketState × List Event :=
  match rlookup s.liveQueue queryUuid with
  | some cbs =>
    ({ s with liveQueue := rdel s.liveQueue queryUuid },
     cbs.map (fun cb => Event.invokeCb cb queryKilledMessage))
  | none => (s, [])

/-- Continuation of `SurrealSocket.kill` (lines 163-165), run after the kill
reply has been awaited: discard the early-arrival buffer entry. -/
def killPhase2 (s : SocketState) (queryUuid : String) : SocketState :=
  if (rlookup s.unprocessedLiveResponses queryUuid).isSome then
    { s with unprocessedLiveResponses := rdel s.unprocessedLiveResponses queryUuid }
  else s

/-- Modelled from the spec: the incrementing-identifier generator
`getIncrementalID` (a collaborator imported by `SurrealSocket.ts` whose
source is not part of this repository snapshot): each call increments a
process-wide counter and returns it in string form, so generated identifiers
are process-unique. -/
def getIncrementalID (counter : Nat) : String × Nat :=
  (Nat.repr (counter + 1), counter + 1)

/-- Body of `SurrealSocket.send` after `await this.ready` (lines 129-133):
register the single-shot continuation under the generated identifier, then
write the serialized `(id, method, params)` frame to the current transport
(a no-op when no transport exists). -/
def sendBody (s : SocketState) (method : String) (params : List JSValue)
    (id : String) (p : Nat) : SocketState × List Event :=
  let frame : JSValue :=
    .obj [("id", .str id), ("method", .str method), ("params", .arr params)]
  ({ s with queue := rset s.queue id p },
   match s.ws with
   | some w => [.wsSendFrame w frame]
   | none => [])

/-- Synchronous part of `SurrealSocket.close` (lines 183-188): set status to
`CLOSED`, install a fresh `closed` promise and its resolver, instruct the
transport (if any) to close with the registered reason text, fire the close
hook.  The final `await this.closed` is represented at the system level by
waiting on `closedP`. -/
def closeSync (s : SocketState) (reason : Nat) (closedP : Nat) :
    SocketState × List Event :=
  ({ s with status := .CLOSED, resolveClosed := some closedP },
   (match s.ws with
    | some w => [.wsCloseCall w reason (socketClosureReason reason)]
    | none => []) ++ [.hookClose])

/-- Synchronous body of `SurrealSocket.open` (lines 50-120): call
`this.close(1000)` without awaiting it, construct a fresh transport and a
fresh `ready` promise. -/
def openSync (s : SocketState) (closedP readyP wsId : Nat) :
    SocketState × List Event :=
  let cs := closeSync s 1000 closedP
  ({ cs.1 with ws := some wsId, ready := some readyP }, cs.2)

/-- The `open` event listener installed by `open()` (lines 58-66); `resolved`
is the per-`open()` settling flag.  Returns the new flag value: the
connect hook fires unconditionally, the ready promise resolves at most
once. -/
def openListener (s : SocketState) (resolved : Bool) (readyP : Nat) :
    SocketState × List Event × Bool :=
  ({ s with status := .OPEN },
   (if !resolved then [Event.resolveP readyP .undefined] else []) ++ [.hookConnect],
   true)

/-- The `error` event listener installed by `open()` (lines 68-75): always
flips status to `CLOSED`; rejects the ready promise and fires the error hook
only when the flag was not yet set. -/
def errorListener (s : SocketState) (resolved : Bool) (readyP : Nat) :
    SocketState × List Event × Bool :=
  ({ s with status := .CLOSED },
   if !resolved then [Event.rejectP readyP, .hookError] else [],
   true)

/-! ## System level: asynchronous structure

`Sys` closes the model over the asynchronous parts of the class: one
`Attempt` per `open()` call (its transport handle, ready promise and
`resolved` flag), suspended task continuations (`send` bodies waiting on
`await this.ready`, `kill` cleanups waiting on the kill reply), the set of
settled promises, the identifiers actually written to the transport, and the
pending reconnect timers.  `step` is the (partial, deterministic per label)
transition function; the choice of label models the scheduler, the remote
endpoint and the caller. -/

/-- One `open()` call: its transport, its ready promise, its settling flag. -/
structure Attempt where
  wsId : Nat
  readyP : Nat
  resolved : Bool
  deriving Repr, DecidableEq

/-- A suspended continuation. -/
inductive STask where
  /-- a `send(method, params)` call suspended on `await this.ready`;
  `waitOn` is the ready promise captured at call time (`none` when
  `this.ready` was still `undefined`, in which case the await completes
  immediately).  `killFor = some q` marks the `send` issued by `kill(q)`,
  whose continuation must run when the reply promise settles. -/
  | sendT (method : String) (params : List JSValue) (waitOn : Option Nat)
      (killFor : Option String)
  /-- the continuation of `kill(q)` suspended on `await this.send(...)`:
  runs once the reply promise `p` has resolved. -/
  | killCleanupT (p : Nat) (queryUuid : String)

/-- The whole system: socket fields plus asynchronous bookkeeping.
`trace` is the append-only log of observable events. -/
structure Sys where
  sock : SocketState
  attempts : List Attempt
  tasks : List STask
  settledOk : List Nat
  settledErr : List Nat
  sentIds : List String
  pendingTimers : Nat
  idCounter : Nat
  nextP : Nat
  nextWs : Nat
  trace : List Event

/-- The system state at construction time. -/
def initialSys : Sys :=
  { sock := initialSocket, attempts := [], tasks := [], settledOk := [],
    settledErr := [], sentIds := [], pendingTimers := 0, idCounter := 0,
    nextP := 0, nextWs := 0, trace := [] }

/-- The request identifier a frame written to the transport carries. -/
def frameId : JSValue → Option String
  | .obj (("id", .str id) :: _) => some id
  | _ => none

/-- Effect of one emitted event on the asynchronous bookkeeping: promise
settlement is recorded at most once per promise, `setTimeout(open, _)` adds a
pending timer, a transport write records the frame's identifier. -/
def applyEvent (σ : Sys) (e : Event) : Sys :=
  match e with
  | .resolveP p _ =>
    if p ∈ σ.settledOk ∨ p ∈ σ.settledErr then σ
    else { σ with settledOk := p :: σ.settledOk }
  | .rejectP p =>
    if p ∈ σ.settledOk ∨ p ∈ σ.settledErr then σ
    else { σ with settledErr := p :: σ.settledErr }
  | .scheduleOpen _ => { σ with pendingTimers := σ.pendingTimers + 1 }
  | .wsSendFrame _ frame =>
    match frameId frame with
    | some id => { σ with sentIds := id :: σ.sentIds }
    | none => σ
  | _ => σ

def applyEvents (σ : Sys) (evs : List Event) : Sys :=
  evs.foldl applyEvent σ

/-- Install a new socket state and log the events of one handler run. -/
def record (σ : Sys) (s' : SocketState) (evs : List Event) : Sys :=
  { applyEvents σ evs with sock := s', trace := σ.trace ++ evs }

/-- A call of `open()` (also performed by the reconnect timer): fresh
`closed` promise, fresh ready promise, fresh transport with a fresh
settling flag. -/
def openCall (σ : Sys) : Sys :=
  let closedP := σ.nextP
  let readyP := σ.nextP + 1
  let wsId := σ.nextWs
  let os := openSync σ.sock closedP readyP wsId
  let σ1 := record σ os.1 os.2
  { σ1 with attempts := σ1.attempts ++ [⟨wsId, readyP, false⟩],
            nextP := σ.nextP + 2, nextWs := σ.nextWs + 1 }

def removeTask (σ : Sys) (i : Nat) : Sys :=
  { σ with tasks := σ.tasks.eraseIdx i }

/-- Resume the body of a `send` whose awaited ready promise has resolved (or
was absent): generate the identifier, create the reply promise, register the
continuation and write the frame; a `send` spawned by `kill` additionally
leaves the kill continuation waiting on the reply promise. -/
def runSend (σ : Sys) (method : String) (params : List JSValue)
    (killFor : Option String) : Sys :=
  let gen := getIncrementalID σ.idCounter
  let replyP := σ.nextP
  let sb := sendBody σ.sock method params gen.1 replyP
  let σ1 := record σ sb.1 sb.2
  let σ2 := { σ1 with idCounter := gen.2, nextP := σ.nextP + 1 }
  match killFor with
  | some q => { σ2 with tasks := σ2.tasks ++ [.killCleanupT replyP q] }
  | none => σ2

/-- A transition label: caller API calls, transport events addressed to an
existing transport, resuming a suspended task, and the reconnect timer. -/
inductive Label where
  | uOpen
  | uClose (reason : Nat)
  | uSend (method : String) (params : List JSValue)
  | uListenLive (queryUuid : String) (cb : Nat)
  | uKill (queryUuid : String)
  | wsOpenEv (wsId : Nat)
  | wsErrorEv (wsId : Nat)
  | wsCloseEv (wsId : Nat)
  | wsMessageEv (wsId : Nat) (res : JSValue)
  | runTask (i : Nat)
  | timerFire

/-- The transition function.  `none` means the label is not enabled in the
given state. -/
def step (σ : Sys) (l : Label) : Option Sys :=
  match l with
  | .uOpen => some (openCall σ)
  | .uClose reason =>
    let cs := closeSync σ.sock reason σ.nextP
    some { record σ cs.1 cs.2 with nextP := σ.nextP + 1 }
  | .uSend method params =>
    some { σ with tasks := σ.tasks ++ [.sendT method params σ.sock.ready none] }
  | .uListenLive q cb =>
    let ls := listenLive σ.sock q cb
    some (record σ ls.1 ls.2)
  | .uKill q =>
    let ks := killPhase1 σ.sock q
    let σ1 := record σ ks.1 ks.2
    some { σ1 with tasks := σ1.tasks ++ [.sendT "kill" [.str q] σ.sock.ready (some q)] }
  | .wsOpenEv w =>
    match σ.attempts.find? (fun a => a.wsId == w) with
    | none => none
    | some a =>
      let ol := openListener σ.sock a.resolved a.readyP
      let σ1 := record σ ol.1 ol.2.1
      let atts := σ1.attempts.map
        (fun b => if b.wsId == w then { b with resolved := ol.2.2 } else b)
      some { σ1 with attempts := atts }
  | .wsErrorEv w =>
    match σ.attempts.find? (fun a => a.wsId == w) with
    | none => none
    | some a =>
      let el := errorListener σ.sock a.resolved a.readyP
      let σ1 := record σ el.1 el.2.1
      let atts := σ1.attempts.map
        (fun b => if b.wsId == w then { b with resolved := el.2.2 } else b)
      some { σ1 with attempts := atts }
  | .wsCloseEv w =>
    if (σ.attempts.find? (fun a => a.wsId == w)).isSome then
      let cl := closeListener σ.sock
      some (record σ cl.1 cl.2)
    else none
  | .wsMessageEv w res =>
    if (σ.attempts.find? (fun a => a.wsId == w)).isSome then
      match messageListener σ.sock res with
      | .ok r => some (record σ r.1 r.2)
      | .error msg => some (record σ σ.sock [.uncaughtError msg])
    else none
  | .runTask i =>
    match σ.tasks[i]? with
    | none => none
    | some (.sendT method params waitOn killFor) =>
      match waitOn with
      | some r =>
        if r ∈ σ.settledOk then some (runSend (removeTask σ i) method params killFor)
        else if r ∈ σ.settledErr then some (removeTask σ i)
        else none
      | none => some (runSend (removeTask σ i) method params killFor)
    | some (.killCleanupT p q) =>
      if p ∈ σ.settledOk then
        let σ1 := removeTask σ i
        some { σ1 with sock := killPhase2 σ1.sock q }
      else none
  | .timerFire =>
    if σ.pendingTimers > 0 then
      some { openCall σ with pendingTimers := σ.pendingTimers - 1 }
    else none

/-- Run a list of labels from a state. -/
def run (σ : Sys) : List Label → Option Sys
  | [] => some σ
  | l :: ls =>
    match step σ l with
    | some σ' => run σ' ls
    | none => none

/-- The promise `p` is never resolved in any extension of `σ`. -/
def neverResolves (σ : Sys) (p : Nat) : Prop :=
  ∀ ls σ', run σ ls = some σ' → p ∉ σ'.settledOk

/-- The key under which a frame would be matched against the pending-request
map (`none` for notifications, throwing frames, or frames without a truthy
top-level `id`). -/
def replyKey (res : JSValue) : Option String :=
  match isLiveNotification res with
  | .error _ => none
  | .ok true => none
  | .ok false =>
    match getField res "id" with
    | .error _ => none
    | .ok idv => if jsTruthy idv then some (jsToString idv) else none

/-- Environment assumption for inbound traffic: the remote side addresses
direct replies only to identifiers that were actually written to the
transport. -/
def echoOk (σ : Sys) (l : Label) : Bool :=
  match l with
  | .wsMessageEv _ res =>
    match replyKey res with
    | some k => σ.sentIds.contains k
    | none => true
  | _ => true

/-- Run under the echo assumption. -/
def echoRun (σ : Sys) : List Label → Option Sys
  | [] => some σ
  | l :: ls =>
    if echoOk σ l then
      match step σ l with
      | some σ' => echoRun σ' ls
      | none => none
    else none

/-- The promise `p` is never resolved in any extension of `σ` in which the
remote side only replies to identifiers actually written to the transport. -/
def neverResolvesEcho (σ : Sys) (p : Nat) : Prop :=
  ∀ ls σ', echoRun σ ls = some σ' → p ∉ σ'.settledOk

/-- Bound on a referenced promise identifier. -/
def pBound (n : Nat) : Option Nat → Bool
  | some p => p < n
  | none => true

/-- `k` is the string form of a previously generated identifier. -/
def idInRange (counter : Nat) (k : String) : Bool :=
  (List.range counter).any (fun j => Nat.repr (j + 1) == k)

/-- Well-formedness of the asynchronous bookkeeping: every promise referenced
anywhere was allocated below `nextP`, and every request identifier in the
pending map or on the wire came from the generator. -/
def wf (σ : Sys) : Bool :=
  σ.sock.queue.all (fun kv => idInRange σ.idCounter kv.1 && decide (kv.2 < σ.nextP)) &&
  σ.sentIds.all (fun k => idInRange σ.idCounter k) &&
  σ.attempts.all (fun a => decide (a.readyP < σ.nextP)) &&
  pBound σ.nextP σ.sock.resolveClosed &&
  pBound σ.nextP σ.sock.ready &&
  σ.tasks.all (fun t =>
    match t with
    | .sendT _ _ w _ => pBound σ.nextP w
    | .killCleanupT p _ => decide (p < σ.nextP)) &&
  σ.settledOk.all (fun p => decide (p < σ.nextP)) &&
  σ.settledErr.all (fun p => decide (p < σ.nextP))
/-! ## Auxiliary definitions used by statements -/

/-- Is an event an invocation of a live-listener callback? -/
def isInvoke : Event → Bool
  | .invokeCb _ _ => true
  | _ => false

/-- Own-property read on an object's field list (the value `getField`
returns on an object). -/
def objField (fields : List (String × JSValue)) (key : String) : JSValue :=
  match fields.find? (fun f => f.1 == key) with
  | some f => f.2
  | none => .undefined

/-- The push-notification condition as the specification words it: the frame
has no `id` field at the top level, and has a `result` field whose value is a
non-null object that itself has `action`, `id` and `result` fields. -/
def pushNotificationSpec : JSValue → Bool
  | .obj fields =>
    !(fields.any (fun f => f.1 == "id")) &&
    (match fields.find? (fun f => f.1 == "result") with
     | some f =>
       (match f.2 with
        | .obj inner =>
          inner.any (fun g => g.1 == "action") && inner.any (fun g => g.1 == "id") &&
          inner.any (fun g => g.1 == "result")
        | _ => false)
     | none => false)
  | _ => false

/-- The socket state after buffering one early-arrival payload under `key`
(the listener-less branch of `handleLiveBatch`). -/
def bufferAppend (s : SocketState) (key : String) (payload : JSValue) : SocketState :=
  let buf := (rlookup s.unprocessedLiveResponses key).getD []
  let buffers := rset s.unprocessedLiveResponses key (buf ++ [payload])
  { s with unprocessedLiveResponses := buffers }

/-- A concrete live-notification result object, for instantiating theorems. -/
def exFields : List (String × JSValue) :=
  [("id", .str "uuid-1"), ("action", .str "CREATE"), ("result", .num 1)]

/-- Isolation of the `closed` promise installed by a `close()` call made when
no transport has ever existed: no reachable transition can resolve it. -/
def closedIsolated (σ : Sys) (p : Nat) : Prop :=
  p ∉ σ.settledOk ∧ p ∉ σ.settledErr ∧ p < σ.nextP
  ∧ (σ.sock.resolveClosed = some p → σ.attempts = [])
  ∧ (∀ a ∈ σ.attempts, a.readyP ≠ p)
  ∧ (∀ kv ∈ σ.sock.queue, kv.2 ≠ p)

/-- Isolation of the reply promise of a `send` whose frame was never written
to any transport: under the echo assumption nothing can resolve it. -/
def sendIsolated (σ : Sys) (ourId : String) (p : Nat) : Prop :=
  p ∉ σ.settledOk ∧ p ∉ σ.settledErr ∧ p < σ.nextP
  ∧ (∀ cp, σ.sock.resolveClosed = some cp → cp ≠ p)
  ∧ (∀ a ∈ σ.attempts, a.readyP ≠ p)
  ∧ (∀ kv ∈ σ.sock.queue, kv.2 = p → kv.1 = ourId)
  ∧ ourId ∉ σ.sentIds
  ∧ (∀ m, m > σ.idCounter → Nat.repr m ≠ ourId)

/-- The system state after calling `close(1000)` on a never-opened socket. -/
def sysAfterBareClose : Sys := (step initialSys (.uClose 1000)).getD initialSys

/-- A system state with one runnable send task whose awaited ready promise has
resolved. -/
def sysReadySend : Sys :=
  { initialSys with
    tasks := [.sendT "ping" [] (some 5) none]
    settledOk := [5]
    nextP := 6 }

/-- `sysReadySend` after running its send task. -/
def sysReadySendRun : Sys := (step sysReadySend (.runTask 0)).getD initialSys

/-- A system state with one live listener registered under `"q1"`. -/
def sysOneListener : Sys :=
  { initialSys with sock := { initialSocket with liveQueue := [("q1", [3])] } }

/-- `sysOneListener` after the caller kills `"q1"`. -/
def sysOneListenerKilled : Sys := (step sysOneListener (.uKill "q1")).getD initialSys

/-- The fresh system after a `send` call. -/
def sysEarlySend : Sys := (step initialSys (.uSend "ping" [])).getD initialSys

/-- `sysEarlySend` after its send body has run (with no transport). -/
def sysEarlySendRun : Sys := (step sysEarlySend (.runTask 0)).getD initialSys

/-- Promise bound of a suspended task. -/
def taskBound (n : Nat) : STask → Prop
  | .sendT _ _ (some r) _ => r < n
  | .sendT _ _ none _ => True
  | .killCleanupT p _ => p < n

/-- `wf` in propositional form. -/
def WfP (σ : Sys) : Prop :=
  (∀ kv ∈ σ.sock.queue, (∃ j, j < σ.idCounter ∧ Nat.repr (j + 1) = kv.1) ∧ kv.2 < σ.nextP)
  ∧ (∀ k ∈ σ.sentIds, ∃ j, j < σ.idCounter ∧ Nat.repr (j + 1) = k)
  ∧ (∀ a ∈ σ.attempts, a.readyP < σ.nextP)
  ∧ (∀ p, σ.sock.resolveClosed = some p → p < σ.nextP)
  ∧ (∀ p, σ.sock.ready = some p → p < σ.nextP)
  ∧ (∀ t ∈ σ.tasks, taskBound σ.nextP t)
  ∧ (∀ p ∈ σ.settledOk, p < σ.nextP)
  ∧ (∀ p ∈ σ.settledErr, p < σ.nextP)

/-! ## General lemmas -/

/-! ## Injectivity of the decimal representation of naturals

The request-identifier generator returns successive counter values as decimal
strings; distinctness of the generated identifiers reduces to injectivity of
`Nat.repr`, proved here by relating `Nat.toDigits` to `Nat.digits`. -/

theorem digitChar_inj_below_ten :
    ∀ a < 10, ∀ b < 10, Nat.digitChar a = Nat.digitChar b → a = b := by decide

theorem map_digitChar_inj :
    ∀ l1 l2 : List Nat, (∀ x ∈ l1, x < 10) → (∀ x ∈ l2, x < 10) →
      l1.map Nat.digitChar = l2.map Nat.digitChar → l1 = l2 := by
  intro l1
  induction l1 with
  | nil =>
    intro l2 _ _ h
    cases l2 with
    | nil => rfl
    | cons b t => simp at h
  | cons a t ih =>
    intro l2 h1 h2 h
    cases l2 with
    | nil => simp at h
    | cons b t2 =>
      simp only [List.map_cons, List.cons.injEq] at h
      have ha : a < 10 := h1 a (List.mem_cons_self a t)
      have hb : b < 10 := h2 b (List.mem_cons_self b t2)
      have hab : a = b := digitChar_inj_below_ten a ha b hb h.1
      have ht : t = t2 := ih t2 (fun x hx => h1 x (List.mem_cons_of_mem a hx))
        (fun x hx => h2 x (List.mem_cons_of_mem b hx)) h.2
      rw [hab, ht]

theorem toDigitsCore_digits (f : Nat) :
    ∀ n acc, 0 < n → n < f →
      Nat.toDigitsCore 10 f n acc = ((Nat.digits 10 n).map Nat.digitChar).reverse ++ acc := by
  induction f with
  | zero => intro n acc _ hf; omega
  | succ f ih =>
    intro n acc hn hf
    have hd : Nat.digits 10 n = n % 10 :: Nat.digits 10 (n / 10) :=
      Nat.digits_def' (by norm_num) hn
    by_cases hdiv : n / 10 = 0
    · have hlt : n < 10 := (Nat.div_eq_zero_iff (by norm_num)).mp hdiv
      have hmod : n % 10 = n := Nat.mod_eq_of_lt hlt
      simp only [Nat.toDigitsCore, hdiv, if_true, hd, hdiv, Nat.digits_zero,
        hmod, List.map_cons, List.map_nil, List.reverse_cons, List.reverse_nil,
        List.nil_append, List.cons_append, List.nil_append]
    · have hpos : 0 < n / 10 := Nat.pos_of_ne_zero hdiv
      have hlt : n / 10 < f := by
        have h1 : n / 10 < n := Nat.div_lt_self hn (by norm_num)
        omega
      have := ih (n / 10) (Nat.digitChar (n % 10) :: acc) hpos hlt
      simp only [Nat.toDigitsCore, hdiv, if_false]
      rw [this, hd]
      simp [List.append_assoc]

theorem toDigits_eq_digits (n : Nat) (hn : 0 < n) :
    Nat.toDigits 10 n = ((Nat.digits 10 n).map Nat.digitChar).reverse := by
  have := toDigitsCore_digits (n + 1) n [] hn (Nat.lt_succ_self n)
  simpa [Nat.toDigits] using this

theorem natRepr_injective : Function.Injective Nat.repr := by
  intro m n h
  have hdata : Nat.toDigits 10 m = Nat.toDigits 10 n := by
    have : (Nat.toDigits 10 m).asString = (Nat.toDigits 10 n).asString := h
    have h2 := congrArg String.data this
    simpa [List.asString] using h2
  rcases Nat.eq_zero_or_pos m with hm | hm
  · rcases Nat.eq_zero_or_pos n with hn | hn
    · rw [hm, hn]
    · exfalso
      rw [hm, toDigits_eq_digits n hn] at hdata
      have hz : Nat.toDigits 10 0 = ['0'] := rfl
      rw [hz] at hdata
      have hrev : (Nat.digits 10 n).map Nat.digitChar = ['0'] := by
        have := congrArg List.reverse hdata
        simpa using this.symm
      have : Nat.digits 10 n = [0] := by
        apply map_digitChar_inj (Nat.digits 10 n) [0]
          (fun x hx => Nat.digits_lt_base (by norm_num) hx)
          (by intro x hx; simp at hx; omega)
        simpa using hrev
      have := Nat.ofDigits_digits 10 n
      rw [this.symm, ‹Nat.digits 10 n = [0]›] at hn
      simp [Nat.ofDigits] at hn
  · rcases Nat.eq_zero_or_pos n with hn | hn
    · exfalso
      rw [hn, toDigits_eq_digits m hm] at hdata
      have hz : Nat.toDigits 10 0 = ['0'] := rfl
      rw [hz] at hdata
      have hrev : (Nat.digits 10 m).map Nat.digitChar = ['0'] := by
        have := congrArg List.reverse hdata
        simpa using this
      have : Nat.digits 10 m = [0] := by
        apply map_digitChar_inj (Nat.digits 10 m) [0]
          (fun x hx => Nat.digits_lt_base (by norm_num) hx)
          (by intro x hx; simp at hx; omega)
        simpa using hrev
      have := Nat.ofDigits_digits 10 m
      rw [this.symm, ‹Nat.digits 10 m = [0]›] at hm
      simp [Nat.ofDigits] at hm
    · rw [toDigits_eq_digits m hm, toDigits_eq_digits n hn] at hdata
      have hmap : (Nat.digits 10 m).map Nat.digitChar = (Nat.digits 10 n).map Nat.digitChar :=
        List.reverse_injective hdata
      have hdig : Nat.digits 10 m = Nat.digits 10 n :=
        map_digitChar_inj _ _ (fun x hx => Nat.digits_lt_base (by norm_num) hx)
          (fun x hx => Nat.digits_lt_base (by norm_num) hx) hmap
      calc m = Nat.ofDigits 10 (Nat.digits 10 m) := (Nat.ofDigits_digits 10 m).symm
        _ = Nat.ofDigits 10 (Nat.digits 10 n) := by rw [hdig]
        _ = n := Nat.ofDigits_digits 10 n

theorem natRepr_ne_of_ne {m n : Nat} (h : m ≠ n) : Nat.repr m ≠ Nat.repr n :=
  fun he => h (natRepr_injective he)

theorem rlookup_nil {α : Type} (k : String) : rlookup ([] : List (String × α)) k = none := rfl

theorem rlookup_cons {α : Type} (a : String × α) (t : List (String × α)) (k : String) :
    rlookup (a :: t) k = if a.1 == k then some a.2 else rlookup t k := by
  by_cases h : a.1 = k
  · simp [rlookup, List.find?_cons, h]
  · simp [rlookup, List.find?_cons, show (a.1 == k) = false by simp [h]]

theorem rlookup_rset_self {α : Type} (m : List (String × α)) (k : String) (v : α) :
    rlookup (rset m k v) k = some v := by
  induction m with
  | nil => simp [rset, rlookup_cons]
  | cons a t ih =>
    by_cases h : a.1 = k
    · simp [rset, h, rlookup_cons]
    · simp [rset, h, rlookup_cons, ih]

theorem rlookup_rset_ne {α : Type} (m : List (String × α)) (k k' : String) (v : α)
    (h : k' ≠ k) : rlookup (rset m k v) k' = rlookup m k' := by
  have hk : k ≠ k' := Ne.symm h
  induction m with
  | nil => simp [rset, rlookup_cons, rlookup_nil, hk]
  | cons a t ih =>
    by_cases ha : a.1 = k
    · simp [rset, ha, rlookup_cons, hk]
    · simp [rset, ha, rlookup_cons, ih]

theorem rlookup_rdel_self {α : Type} (m : List (String × α)) (k : String) :
    rlookup (rdel m k) k = none := by
  induction m with
  | nil => rfl
  | cons a t ih =>
    by_cases ha : a.1 = k
    · simpa [rdel, List.filter_cons, ha] using ih
    · simpa [rdel, List.filter_cons, ha, rlookup_cons] using ih

theorem rlookup_rdel_ne {α : Type} (m : List (String × α)) (k k' : String) (h : k' ≠ k) :
    rlookup (rdel m k) k' = rlookup m k' := by
  have hk : k ≠ k' := Ne.symm h
  induction m with
  | nil => rfl
  | cons a t ih =>
    by_cases ha : a.1 = k
    · simpa [rdel, List.filter_cons, ha, rlookup_cons, hk] using ih
    · by_cases hak : a.1 = k'
      · simp [rdel, List.filter_cons, ha, rlookup_cons, hak, h]
      · simpa [rdel, List.filter_cons, ha, rlookup_cons, hak] using ih

/-- Every entry surviving `rdel` was an entry of the original record. -/
theorem mem_rdel {α : Type} {m : List (String × α)} {k : String} {x : String × α}
    (h : x ∈ rdel m k) : x ∈ m := List.mem_of_mem_filter h

/-- Every entry of `rset m k v` is an old entry or the new binding. -/
theorem mem_rset {α : Type} {m : List (String × α)} {k : String} {v : α} {x : String × α}
    (hx : x ∈ rset m k v) : x ∈ m ∨ x = (k, v) := by
  induction m with
  | nil => simpa [rset] using hx
  | cons a t ih =>
    by_cases ha : a.1 = k
    · simp only [rset, ha, beq_self_eq_true, if_true, List.mem_cons] at hx
      cases hx with
      | inl h1 => right; exact h1
      | inr h1 => left; exact List.mem_cons_of_mem a h1
    · simp only [rset, show (a.1 == k) = false by simp [ha], if_false] at hx
      cases hx with
      | head => left; exact List.mem_cons_self _ _
      | tail _ h1 =>
        cases ih h1 with
        | inl h2 => left; exact List.mem_cons_of_mem a h2
        | inr h2 => right; exact h2


theorem getField_objVal (fs : List (String × JSValue)) (k : String) :
    getField (.obj fs) k = .ok (objField fs k) := rfl

theorem mem_invokeFlatten {lq : List (String × List Nat)} {msg : JSValue} {e : Event}
    (he : e ∈ (lq.map (fun q => q.2.map (fun cb => Event.invokeCb cb msg))).flatten) :
    ∃ cb, e = Event.invokeCb cb msg := by
  rw [List.mem_flatten] at he
  obtain ⟨l, hl, hel⟩ := he
  rw [List.mem_map] at hl
  obtain ⟨q, hq, rfl⟩ := hl
  rw [List.mem_map] at hel
  obtain ⟨cb, hcb, he⟩ := hel
  exact ⟨cb, he.symm⟩

theorem filter_isInvoke_invokes (cbs : List Nat) (msg : JSValue) :
    (cbs.map (fun cb => Event.invokeCb cb msg)).filter isInvoke
      = cbs.map (fun cb => Event.invokeCb cb msg) := by
  rw [List.filter_eq_self]
  intro e he
  rw [List.mem_map] at he
  obtain ⟨cb, _, rfl⟩ := he
  rfl

theorem scheduleOpen_not_mem_flatten (lq : List (String × List Nat)) (msg : JSValue)
    (d : Nat) :
    Event.scheduleOpen d ∉
      (lq.map (fun q => q.2.map (fun cb => Event.invokeCb cb msg))).flatten := by
  intro h
  obtain ⟨cb, he⟩ := mem_invokeFlatten h
  exact Event.noConfusion he

/-! ## C1: transport closure notifies every listener and clears all maps -/

/-- C1: for every transport-close event, the handler delivers exactly one
terminal event (action `CLOSE`, detail `SOCKET_CLOSED`) to every callback
registered in every subscription listener list (one event per registration,
in registration order), and immediately afterwards the pending-request map,
the subscription-listener map and the early-arrival buffer are all empty. -/
theorem closeEvent_notifies_every_listener_and_clears_maps (s : SocketState) :
    (closeListener s).2.filter isInvoke
      = (s.liveQueue.map
          (fun q => q.2.map (fun cb => Event.invokeCb cb socketClosedMessage))).flatten
    ∧ (closeListener s).1.queue = []
    ∧ (closeListener s).1.liveQueue = []
    ∧ (closeListener s).1.unprocessedLiveResponses = [] := by
  have hfil : (List.filter isInvoke ∘ fun q : String × List Nat =>
      List.map (fun cb => Event.invokeCb cb socketClosedMessage) q.2)
      = (fun q : String × List Nat =>
          List.map (fun cb => Event.invokeCb cb socketClosedMessage) q.2) := by
    funext q
    simpa using filter_isInvoke_invokes q.2 socketClosedMessage
  unfold closeListener
  by_cases h : s.status = .CLOSED
  · cases hrc : s.resolveClosed <;>
      simp [h, hrc, isInvoke, List.filter_append, hfil]
  · cases hrc : s.resolveClosed <;>
      simp [h, hrc, isInvoke, List.filter_append, hfil]

/-! ## C2: reconnection policy of the close handler -/

/-- C2: for every transport-close event, if the state at that moment is not
`CLOSED`, the handler sets the state to `RECONNECTING`, schedules a call of
`open()` after a fixed 2500 ms delay and invokes the close hook; if the
state is already `CLOSED` (caller-initiated closure, e.g. after
`close(1000)`, which sets the state to `CLOSED` synchronously), no
reconnection is scheduled and the state stays `CLOSED`. -/
theorem closeEvent_reconnect_policy (s t : SocketState) (p : Nat) :
    (s.status ≠ .CLOSED →
      (closeListener s).1.status = .RECONNECTING
      ∧ Event.scheduleOpen 2500 ∈ (closeListener s).2
      ∧ Event.hookClose ∈ (closeListener s).2)
    ∧ (s.status = .CLOSED →
      (closeListener s).1.status = .CLOSED
      ∧ ∀ d, Event.scheduleOpen d ∉ (closeListener s).2)
    ∧ ((closeSync t 1000 p).1.status = .CLOSED
      ∧ ∀ d, Event.scheduleOpen d ∉ (closeListener (closeSync t 1000 p).1).2) := by
  refine ⟨?_, ?_, ?_, ?_⟩
  · intro h
    unfold closeListener
    cases hrc : s.resolveClosed <;> simp [h, hrc]
  · intro h
    constructor
    · unfold closeListener
      cases hrc : s.resolveClosed <;> simp [h, hrc]
    · intro d hd
      unfold closeListener at hd
      simp only [h, ne_eq, not_true_eq_false, if_false] at hd
      cases hrc : s.resolveClosed <;> rw [hrc] at hd <;>
        simp only [List.nil_append, List.cons_append, List.mem_cons,
          List.mem_append, List.not_mem_nil] at hd
      · exact scheduleOpen_not_mem_flatten _ _ d hd
      · rcases hd with hd | hd
        · exact Event.noConfusion hd
        · exact scheduleOpen_not_mem_flatten _ _ d hd
  · rfl
  · intro d hd
    unfold closeListener at hd
    have hst : (closeSync t 1000 p).1.status = .CLOSED := rfl
    rw [hst] at hd
    simp only [ne_eq, not_true_eq_false, if_false] at hd
    have hrc : (closeSync t 1000 p).1.resolveClosed = some p := rfl
    rw [hrc] at hd
    simp only [List.cons_append, List.mem_cons, List.nil_append] at hd
    rcases hd with hd | hd
    · exact Event.noConfusion hd
    · exact scheduleOpen_not_mem_flatten _ _ d hd

/-- Witness for C2: applied to a socket in `OPEN` state, and to a
caller-closed socket. -/
theorem closeEvent_reconnect_policy_witness :
    ((closeListener { initialSocket with status := .OPEN }).1.status = .RECONNECTING
      ∧ Event.scheduleOpen 2500 ∈ (closeListener { initialSocket with status := .OPEN }).2
      ∧ Event.hookClose ∈ (closeListener { initialSocket with status := .OPEN }).2)
    ∧ ((closeListener initialSocket).1.status = .CLOSED
      ∧ ∀ d, Event.scheduleOpen d ∉ (closeListener initialSocket).2) :=
  ⟨(closeEvent_reconnect_policy { initialSocket with status := .OPEN } initialSocket 0).1
      (by decide),
   (closeEvent_reconnect_policy initialSocket initialSocket 0).2.1 rfl⟩

/-! ## C10: transport errors after the open() future has settled -/

/-- C10: once the settling flag of an `open()` attempt is set, a subsequent
transport error event still sets the connection state to `CLOSED` but
invokes no error hook and settles no promise; the error hook (and the
rejection of the ready promise) can only fire while the flag is still
unset. -/
theorem errorEvent_after_settled (s : SocketState) (r : Nat) :
    errorListener s true r = ({ s with status := .CLOSED }, [], true)
    ∧ (∀ b, Event.hookError ∈ (errorListener s b r).2.1 → b = false)
    ∧ (∀ b p, Event.rejectP p ∈ (errorListener s b r).2.1 → b = false ∧ p = r)
    ∧ (∀ b p v, Event.resolveP p v ∉ (errorListener s b r).2.1) := by
  refine ⟨rfl, ?_, ?_, ?_⟩
  · intro b hb
    cases b
    · rfl
    · simp [errorListener] at hb
  · intro b p hp
    cases b
    · simp only [errorListener, Bool.not_false, if_true, List.mem_cons,
        List.mem_singleton] at hp
      rcases hp with hp | hp
      · cases hp
        exact ⟨rfl, rfl⟩
      · rcases hp with hp | hp
        · exact Event.noConfusion hp
        · simp at hp
    · simp [errorListener] at hp
  · intro b p v hp
    cases b
    · simp only [errorListener, Bool.not_false, if_true, List.mem_cons,
        List.mem_singleton] at hp
      rcases hp with hp | hp
      · exact Event.noConfusion hp
      · rcases hp with hp | hp
        · exact Event.noConfusion hp
        · simp at hp
    · simp [errorListener] at hp

/-! ## C5: notifications without listeners are buffered and replayed -/

/-- C5: a push notification for a subscription identifier with no registered
listener list is appended to that identifier's early-arrival buffer (created
if absent) rather than dropped, and the first listener registered for the
identifier afterwards receives all buffered payloads in arrival order. -/
theorem early_notification_buffered_then_replayed (s : SocketState)
    (fs : List (String × JSValue)) (cb : Nat)
    (hNoListener : rlookup s.liveQueue (jsToString (objField fs "id")) = none) :
    handleLiveBatch s (.obj fs)
      = .ok (bufferAppend s (jsToString (objField fs "id")) (jsOmitField (.obj fs) "id"), [])
    ∧ (listenLive
        (bufferAppend s (jsToString (objField fs "id")) (jsOmitField (.obj fs) "id"))
        (jsToString (objField fs "id")) cb).2
      = (((rlookup s.unprocessedLiveResponses (jsToString (objField fs "id"))).getD [])
          ++ [jsOmitField (.obj fs) "id"]).map (fun d => Event.invokeCb cb d) := by
  constructor
  · unfold handleLiveBatch
    rw [getField_objVal]
    simp only [hNoListener, bufferAppend]
  · unfold listenLive bufferAppend
    simp [rlookup_rset_self]

/-- Witness for C5, at a concrete notification and the fresh socket. -/
theorem early_notification_buffered_then_replayed_witness :
    handleLiveBatch initialSocket (.obj exFields)
      = .ok (bufferAppend initialSocket (jsToString (objField exFields "id"))
          (jsOmitField (.obj exFields) "id"), []) :=
  (early_notification_buffered_then_replayed initialSocket exFields 7 rfl).1

/-! ## C6: the buffer is drained and deleted by the first registration -/

/-- C6: `listenLive` delivers the buffered notifications to the new callback
in order and deletes the buffer entry before the registration completes, so
a second listener registered afterwards receives none of them. -/
theorem buffer_drained_once (s : SocketState) (q : String) (cb cb2 : Nat) :
    rlookup (listenLive s q cb).1.unprocessedLiveResponses q = none
    ∧ (listenLive s q cb).2
      = ((rlookup s.unprocessedLiveResponses q).getD []).map (fun d => Event.invokeCb cb d)
    ∧ (listenLive (listenLive s q cb).1 q cb2).2 = [] := by
  refine ⟨?_, rfl, ?_⟩
  · simp [listenLive, rlookup_rdel_self]
  · simp [listenLive, rlookup_rdel_self]

/-! ## Decimal strings never collide with the protocol's key names -/

theorem natRepr_chars_are_digitChars (i : Nat) :
    ∀ c ∈ (Nat.repr i).data, ∃ d, d < 10 ∧ c = Nat.digitChar d := by
  intro c hc
  rcases Nat.eq_zero_or_pos i with h0 | hpos
  · subst h0
    simp only [show (Nat.repr 0).data = ['0'] from rfl, List.mem_singleton] at hc
    exact ⟨0, by norm_num, hc⟩
  · have hdat : (Nat.repr i).data = Nat.toDigits 10 i := rfl
    rw [hdat, toDigits_eq_digits i hpos] at hc
    rw [List.mem_reverse, List.mem_map] at hc
    obtain ⟨d, hd, rfl⟩ := hc
    exact ⟨d, Nat.digits_lt_base (by norm_num) hd, rfl⟩

theorem toString_nat_ne_of_nondigit (s : String) (c : Char) (hc : c ∈ s.data)
    (hnd : ∀ d < 10, Nat.digitChar d ≠ c) (i : Nat) : toString i ≠ s := by
  intro he
  have he2 : Nat.repr i = s := he
  obtain ⟨d, hd, hdc⟩ := natRepr_chars_are_digitChars i c (by rw [he2]; exact hc)
  exact hnd d hd hdc.symm

theorem range_any_toString_eq_false (n : Nat) (s : String) (c : Char) (hc : c ∈ s.data)
    (hnd : ∀ d < 10, Nat.digitChar d ≠ c) :
    ((List.range n).any (fun i => toString i == s)) = false := by
  rw [List.any_eq_false]
  intro i _
  simp [toString_nat_ne_of_nondigit s c hc hnd i]

theorem jsIn_arr_id (xs : List JSValue) : jsIn "id" (.arr xs) = .ok false := by
  show Except.ok (("id" == "length")
    || (List.range xs.length).any (fun i => toString i == "id")) = Except.ok false
  rw [range_any_toString_eq_false xs.length "id" 'i' (by decide) (by decide)]
  rfl

theorem jsIn_arr_result (xs : List JSValue) : jsIn "result" (.arr xs) = .ok false := by
  show Except.ok (("result" == "length")
    || (List.range xs.length).any (fun i => toString i == "result")) = Except.ok false
  rw [range_any_toString_eq_false xs.length "result" 'r' (by decide) (by decide)]
  rfl

theorem jsIn_arr_action (xs : List JSValue) : jsIn "action" (.arr xs) = .ok false := by
  show Except.ok (("action" == "length")
    || (List.range xs.length).any (fun i => toString i == "action")) = Except.ok false
  rw [range_any_toString_eq_false xs.length "action" 'a' (by decide) (by decide)]
  rfl

/-! ## C4: classification of inbound frames -/

theorem getField_ok_of_record (res : JSValue) (hobj : jsTypeofIsObject res = true)
    (hnn : jsIsNull res = false) (k : String) : ∃ v, getField res k = .ok v := by
  cases res with
  | null => simp [jsIsNull] at hnn
  | obj fs => exact ⟨objField fs k, rfl⟩
  | arr xs => exact ⟨_, rfl⟩
  | undefined => simp [jsTypeofIsObject] at hobj
  | bool b => simp [jsTypeofIsObject] at hobj
  | num n => simp [jsTypeofIsObject] at hobj
  | str t => simp [jsTypeofIsObject] at hobj

/-- A frame with a reply key is matched against the pending-request map:
the matching continuation (if any) is resolved with the whole frame and its
entry removed; otherwise nothing happens. -/
theorem messageListener_reply (s : SocketState) (res : JSValue) (k : String)
    (hk : replyKey res = some k) :
    messageListener s res
      = (match rlookup s.queue k with
        | some p => .ok ({ s with queue := rdel s.queue k }, [Event.resolveP p res])
        | none => .ok (s, [])) := by
  unfold replyKey at hk
  cases hlv : isLiveNotification res with
  | error e => simp only [hlv] at hk; exact Option.noConfusion hk
  | ok b =>
    cases b with
    | true => simp only [hlv] at hk; exact Option.noConfusion hk
    | false =>
      simp only [hlv] at hk
      cases hid : getField res "id" with
      | error e => simp only [hid] at hk; exact Option.noConfusion hk
      | ok idv =>
        simp only [hid] at hk
        cases ht : jsTruthy idv with
        | false =>
          simp only [ht, Bool.false_eq_true, if_false] at hk
          exact Option.noConfusion hk
        | true =>
          simp only [ht, if_true] at hk
          injection hk with hk2
          subst hk2
          simp only [messageListener, hlv, hid, ht, if_true]

/-- A frame that is neither a notification nor carries a truthy `id` is
dropped without touching any state, provided field access cannot throw. -/
theorem messageListener_no_key (s : SocketState) (res : JSValue)
    (hlv : isLiveNotification res = .ok false) (hk : replyKey res = none)
    (idv : JSValue) (hid : getField res "id" = .ok idv) :
    messageListener s res = .ok (s, []) := by
  unfold replyKey at hk
  simp only [hlv, hid] at hk
  cases ht : jsTruthy idv with
  | true => simp only [ht, if_true] at hk; exact Option.noConfusion hk
  | false => simp only [messageListener, hlv, hid, ht, if_false, Bool.false_eq_true]

/-- C4 (amended): an inbound frame that is a JS object (including arrays) is
treated as a push notification iff it has no top-level `id` field and has a
`result` field holding a non-null object with `action`, `id` and `result`
fields; otherwise, a (truthy) top-level `id` matching a registered pending
request makes the continuation run with the full frame and removes the
entry, and every other such frame is silently dropped with no state change.
(A frame that is not an object - `null`, a number, a string, a boolean -
instead raises a `TypeError` in the handler: see the counterexample.) -/
theorem inbound_frame_classification (s : SocketState) (res : JSValue)
    (hobj : jsTypeofIsObject res = true) (hnn : jsIsNull res = false) :
    isLiveNotification res = .ok (pushNotificationSpec res)
    ∧ (∀ k p, replyKey res = some k → rlookup s.queue k = some p →
        messageListener s res = .ok ({ s with queue := rdel s.queue k }, [.resolveP p res]))
    ∧ (∀ k, replyKey res = some k → rlookup s.queue k = none →
        messageListener s res = .ok (s, []))
    ∧ (pushNotificationSpec res = false → replyKey res = none →
        messageListener s res = .ok (s, [])) := by
  have hclass : isLiveNotification res = .ok (pushNotificationSpec res) := by
    cases res with
    | null => simp [jsIsNull] at hnn
    | undefined => simp [jsTypeofIsObject] at hobj
    | bool b => simp [jsTypeofIsObject] at hobj
    | num n => simp [jsTypeofIsObject] at hobj
    | str t => simp [jsTypeofIsObject] at hobj
    | arr xs =>
      simp only [isLiveNotification, jsIn_arr_id, jsIn_arr_result]
      rfl
    | obj fs =>
      cases hid : fs.any (fun f => f.1 == "id") with
      | true =>
        simp only [isLiveNotification, jsIn, hid, pushNotificationSpec, Bool.not_true,
          Bool.false_and]
      | false =>
        cases hr : fs.find? (fun f => f.1 == "result") with
        | none =>
          have hany : fs.any (fun f => f.1 == "result") = false := by
            rw [List.any_eq_false]
            intro x hx
            simpa using List.find?_eq_none.mp hr x hx
          simp only [isLiveNotification, jsIn, hid, hany, pushNotificationSpec, hr,
            Bool.not_false, Bool.true_and]
        | some f =>
          have hany : fs.any (fun f2 => f2.1 == "result") = true := by
            rw [List.any_eq_true]
            exact ⟨f, List.mem_of_find?_eq_some hr,
              @List.find?_some _ (fun f2 => f2.1 == "result") f fs hr⟩
          have hgf : getField (.obj fs) "result" = .ok f.2 := by
            simp [getField, hr]
          cases hf2 : f.2 with
          | null =>
            simp only [isLiveNotification, jsIn, hid, hany, hgf, hf2, jsTypeofIsObject,
              jsIsNull, Bool.not_true, Bool.and_false, pushNotificationSpec, hr,
              Bool.not_false, Bool.true_and, if_false, Bool.false_eq_true]
          | undefined =>
            simp only [isLiveNotification, jsIn, hid, hany, hgf, hf2, jsTypeofIsObject,
              jsIsNull, pushNotificationSpec, hr, Bool.not_false, Bool.true_and,
              Bool.false_and, if_false, Bool.false_eq_true]
          | bool b2 =>
            simp only [isLiveNotification, jsIn, hid, hany, hgf, hf2, jsTypeofIsObject,
              jsIsNull, pushNotificationSpec, hr, Bool.not_false, Bool.true_and,
              Bool.false_and, if_false, Bool.false_eq_true]
          | num n2 =>
            simp only [isLiveNotification, jsIn, hid, hany, hgf, hf2, jsTypeofIsObject,
              jsIsNull, pushNotificationSpec, hr, Bool.not_false, Bool.true_and,
              Bool.false_and, if_false, Bool.false_eq_true]
          | str t2 =>
            simp only [isLiveNotification, jsIn, hid, hany, hgf, hf2, jsTypeofIsObject,
              jsIsNull, pushNotificationSpec, hr, Bool.not_false, Bool.true_and,
              Bool.false_and, if_false, Bool.false_eq_true]
          | arr ys =>
            simp only [isLiveNotification, jsIn, hid, hany, hgf, hf2, jsTypeofIsObject,
              jsIsNull, pushNotificationSpec, hr, Bool.not_false,
              Bool.true_and, Bool.and_true, if_true]
            rw [range_any_toString_eq_false ys.length "action" 'a' (by decide) (by decide)]
            rfl
          | obj inner =>
            simp only [isLiveNotification, jsIn, hid, hany, hgf, hf2, jsTypeofIsObject,
              jsIsNull, pushNotificationSpec, hr, Bool.not_false, Bool.true_and,
              Bool.and_true, if_true]
            cases hA : inner.any (fun g => g.1 == "action") with
            | false => simp [hA]
            | true =>
              cases hI : inner.any (fun g => g.1 == "id") with
              | false => simp [hA, hI]
              | true => simp [hA, hI]
  refine ⟨hclass, ?_, ?_, ?_⟩
  · intro k p hk hq
    rw [messageListener_reply s res k hk, hq]
  · intro k hk hq
    rw [messageListener_reply s res k hk, hq]
  · intro hspec hk
    have hlv : isLiveNotification res = .ok false := by rw [hclass, hspec]
    obtain ⟨idv, hid⟩ := getField_ok_of_record res hobj hnn "id"
    exact messageListener_no_key s res hlv hk idv hid

/-- Witness for C4: a direct-reply-shaped frame with an unmatched identifier
is dropped with no state change. -/
theorem inbound_frame_classification_witness :
    messageListener initialSocket (.obj exFields) = .ok (initialSocket, []) :=
  (inbound_frame_classification initialSocket (.obj exFields) rfl rfl).2.2.1
    "uuid-1" rfl rfl

/-- Counterexample to C4 as frozen: the frame `null` (valid JSON, not a
notification, no identifier) is not silently dropped - the handler throws a
`TypeError` because the JS `in` operator is applied to a primitive. -/
theorem inbound_null_frame_not_dropped :
    messageListener initialSocket JSValue.null ≠ .ok (initialSocket, []) := by
  intro h
  rw [show messageListener initialSocket JSValue.null
      = .error "TypeError: cannot use in operator on a primitive" from rfl] at h
  exact Except.noConfusion h

/-! ## System-level infrastructure lemmas -/

theorem rlookup_mem {α : Type} {m : List (String × α)} {k : String} {v : α}
    (h : rlookup m k = some v) : (k, v) ∈ m := by
  unfold rlookup at h
  cases hf : m.find? (fun p => p.1 == k) with
  | none => rw [hf] at h; exact Option.noConfusion h
  | some f =>
    rw [hf] at h
    injection h with h2
    have hmem := List.mem_of_find?_eq_some hf
    have hk : (f.1 == k) = true := @List.find?_some _ (fun p => p.1 == k) f m hf
    have hf2 : f = (k, v) := by
      cases f with
      | mk a b =>
        simp only at h2
        simp only [beq_iff_eq] at hk
        rw [Prod.mk.injEq]
        exact ⟨hk, h2⟩
    rwa [hf2] at hmem

theorem idInRange_iff (c : Nat) (k : String) :
    idInRange c k = true ↔ ∃ j, j < c ∧ Nat.repr (j + 1) = k := by
  unfold idInRange
  rw [List.any_eq_true]
  constructor
  · rintro ⟨j, hj, he⟩
    exact ⟨j, List.mem_range.mp hj, by simpa using he⟩
  · rintro ⟨j, hj, he⟩
    exact ⟨j, List.mem_range.mpr hj, by simpa using he⟩

theorem wf_iff (σ : Sys) : wf σ = true ↔ WfP σ := by
  unfold wf WfP
  simp only [Bool.and_eq_true, List.all_eq_true, decide_eq_true_eq, idInRange_iff]
  constructor
  · rintro ⟨⟨⟨⟨⟨⟨⟨h1, h2⟩, h3⟩, h4⟩, h5⟩, h6⟩, h7⟩, h8⟩
    refine ⟨h1, h2, h3, ?_, ?_, ?_, h7, h8⟩
    · intro p hp
      rw [hp] at h4
      simpa [pBound] using h4
    · intro p hp
      rw [hp] at h5
      simpa [pBound] using h5
    · intro t ht
      have h9 := h6 t ht
      cases t with
      | sendT m ps w kf =>
        cases w with
        | none => trivial
        | some r => simpa [pBound, taskBound] using h9
      | killCleanupT p q => simpa [taskBound] using h9
  · rintro ⟨h1, h2, h3, h4, h5, h6, h7, h8⟩
    refine ⟨⟨⟨⟨⟨⟨⟨h1, h2⟩, h3⟩, ?_⟩, ?_⟩, ?_⟩, h7⟩, h8⟩
    · cases hrc : σ.sock.resolveClosed with
      | none => simp [pBound]
      | some p => simpa [pBound] using h4 p hrc
    · cases hrd : σ.sock.ready with
      | none => simp [pBound]
      | some p => simpa [pBound] using h5 p hrd
    · intro t ht
      have h9 := h6 t ht
      cases t with
      | sendT m ps w kf =>
        cases w with
        | none => simp [pBound]
        | some r => simpa [pBound, taskBound] using h9
      | killCleanupT p q => simpa [taskBound] using h9

theorem applyEvents_cons (σ : Sys) (e : Event) (t : List Event) :
    applyEvents σ (e :: t) = applyEvents (applyEvent σ e) t := rfl

theorem applyEvent_sock (σ : Sys) (e : Event) : (applyEvent σ e).sock = σ.sock := by
  cases e with
  | resolveP p v =>
    by_cases h : p ∈ σ.settledOk ∨ p ∈ σ.settledErr <;> simp [applyEvent, h]
  | rejectP p =>
    by_cases h : p ∈ σ.settledOk ∨ p ∈ σ.settledErr <;> simp [applyEvent, h]
  | wsSendFrame w f =>
    cases hf : frameId f <;> simp [applyEvent, hf]
  | scheduleOpen d => rfl
  | invokeCb cb d => rfl
  | wsCloseCall w c r => rfl
  | hookConnect => rfl
  | hookClose => rfl
  | hookError => rfl
  | uncaughtError m => rfl

theorem applyEvent_tasks (σ : Sys) (e : Event) : (applyEvent σ e).tasks = σ.tasks := by
  cases e with
  | resolveP p v =>
    by_cases h : p ∈ σ.settledOk ∨ p ∈ σ.settledErr <;> simp [applyEvent, h]
  | rejectP p =>
    by_cases h : p ∈ σ.settledOk ∨ p ∈ σ.settledErr <;> simp [applyEvent, h]
  | wsSendFrame w f =>
    cases hf : frameId f <;> simp [applyEvent, hf]
  | scheduleOpen d => rfl
  | invokeCb cb d => rfl
  | wsCloseCall w c r => rfl
  | hookConnect => rfl
  | hookClose => rfl
  | hookError => rfl
  | uncaughtError m => rfl

theorem applyEvent_attempts (σ : Sys) (e : Event) : (applyEvent σ e).attempts = σ.attempts := by
  cases e with
  | resolveP p v =>
    by_cases h : p ∈ σ.settledOk ∨ p ∈ σ.settledErr <;> simp [applyEvent, h]
  | rejectP p =>
    by_cases h : p ∈ σ.settledOk ∨ p ∈ σ.settledErr <;> simp [applyEvent, h]
  | wsSendFrame w f =>
    cases hf : frameId f <;> simp [applyEvent, hf]
  | scheduleOpen d => rfl
  | invokeCb cb d => rfl
  | wsCloseCall w c r => rfl
  | hookConnect => rfl
  | hookClose => rfl
  | hookError => rfl
  | uncaughtError m => rfl

theorem applyEvent_idCounter (σ : Sys) (e : Event) :
    (applyEvent σ e).idCounter = σ.idCounter := by
  cases e with
  | resolveP p v =>
    by_cases h : p ∈ σ.settledOk ∨ p ∈ σ.settledErr <;> simp [applyEvent, h]
  | rejectP p =>
    by_cases h : p ∈ σ.settledOk ∨ p ∈ σ.settledErr <;> simp [applyEvent, h]
  | wsSendFrame w f =>
    cases hf : frameId f <;> simp [applyEvent, hf]
  | scheduleOpen d => rfl
  | invokeCb cb d => rfl
  | wsCloseCall w c r => rfl
  | hookConnect => rfl
  | hookClose => rfl
  | hookError => rfl
  | uncaughtError m => rfl

theorem applyEvent_nextP (σ : Sys) (e : Event) : (applyEvent σ e).nextP = σ.nextP := by
  cases e with
  | resolveP p v =>
    by_cases h : p ∈ σ.settledOk ∨ p ∈ σ.settledErr <;> simp [applyEvent, h]
  | rejectP p =>
    by_cases h : p ∈ σ.settledOk ∨ p ∈ σ.settledErr <;> simp [applyEvent, h]
  | wsSendFrame w f =>
    cases hf : frameId f <;> simp [applyEvent, hf]
  | scheduleOpen d => rfl
  | invokeCb cb d => rfl
  | wsCloseCall w c r => rfl
  | hookConnect => rfl
  | hookClose => rfl
  | hookError => rfl
  | uncaughtError m => rfl

theorem applyEvent_trace (σ : Sys) (e : Event) : (applyEvent σ e).trace = σ.trace := by
  cases e with
  | resolveP p v =>
    by_cases h : p ∈ σ.settledOk ∨ p ∈ σ.settledErr <;> simp [applyEvent, h]
  | rejectP p =>
    by_cases h : p ∈ σ.settledOk ∨ p ∈ σ.settledErr <;> simp [applyEvent, h]
  | wsSendFrame w f =>
    cases hf : frameId f <;> simp [applyEvent, hf]
  | scheduleOpen d => rfl
  | invokeCb cb d => rfl
  | wsCloseCall w c r => rfl
  | hookConnect => rfl
  | hookClose => rfl
  | hookError => rfl
  | uncaughtError m => rfl

theorem applyEvents_sock (σ : Sys) (evs : List Event) :
    (applyEvents σ evs).sock = σ.sock := by
  induction evs generalizing σ with
  | nil => rfl
  | cons e t ih => rw [applyEvents_cons, ih, applyEvent_sock]

theorem applyEvents_tasks (σ : Sys) (evs : List Event) :
    (applyEvents σ evs).tasks = σ.tasks := by
  induction evs generalizing σ with
  | nil => rfl
  | cons e t ih => rw [applyEvents_cons, ih, applyEvent_tasks]

theorem applyEvents_attempts (σ : Sys) (evs : List Event) :
    (applyEvents σ evs).attempts = σ.attempts := by
  induction evs generalizing σ with
  | nil => rfl
  | cons e t ih => rw [applyEvents_cons, ih, applyEvent_attempts]

theorem applyEvents_idCounter (σ : Sys) (evs : List Event) :
    (applyEvents σ evs).idCounter = σ.idCounter := by
  induction evs generalizing σ with
  | nil => rfl
  | cons e t ih => rw [applyEvents_cons, ih, applyEvent_idCounter]

theorem applyEvents_nextP (σ : Sys) (evs : List Event) :
    (applyEvents σ evs).nextP = σ.nextP := by
  induction evs generalizing σ with
  | nil => rfl
  | cons e t ih => rw [applyEvents_cons, ih, applyEvent_nextP]

theorem applyEvents_trace (σ : Sys) (evs : List Event) :
    (applyEvents σ evs).trace = σ.trace := by
  induction evs generalizing σ with
  | nil => rfl
  | cons e t ih => rw [applyEvents_cons, ih, applyEvent_trace]

theorem applyEvent_settledOk_sub (σ : Sys) (e : Event) (p : Nat)
    (hp : p ∈ (applyEvent σ e).settledOk) :
    p ∈ σ.settledOk ∨ ∃ v, e = Event.resolveP p v := by
  cases e with
  | resolveP q v =>
    by_cases h : q ∈ σ.settledOk ∨ q ∈ σ.settledErr
    · simp only [applyEvent, h, if_true] at hp
      exact .inl hp
    · simp only [applyEvent, h, if_false] at hp
      rcases List.mem_cons.mp hp with hq | hq
      · exact .inr ⟨v, by rw [hq]⟩
      · exact .inl hq
  | rejectP q =>
    by_cases h : q ∈ σ.settledOk ∨ q ∈ σ.settledErr <;>
      simp only [applyEvent, h, if_true, if_false] at hp <;> exact .inl hp
  | wsSendFrame w f =>
    cases hf : frameId f <;> simp only [applyEvent, hf] at hp <;> exact .inl hp
  | scheduleOpen d => exact .inl hp
  | invokeCb cb d => exact .inl hp
  | wsCloseCall w c r => exact .inl hp
  | hookConnect => exact .inl hp
  | hookClose => exact .inl hp
  | hookError => exact .inl hp
  | uncaughtError m => exact .inl hp

theorem applyEvent_settledErr_sub (σ : Sys) (e : Event) (p : Nat)
    (hp : p ∈ (applyEvent σ e).settledErr) :
    p ∈ σ.settledErr ∨ e = Event.rejectP p := by
  cases e with
  | rejectP q =>
    by_cases h : q ∈ σ.settledOk ∨ q ∈ σ.settledErr
    · simp only [applyEvent, h, if_true] at hp
      exact .inl hp
    · simp only [applyEvent, h, if_false] at hp
      rcases List.mem_cons.mp hp with hq | hq
      · exact .inr (by rw [hq])
      · exact .inl hq
  | resolveP q v =>
    by_cases h : q ∈ σ.settledOk ∨ q ∈ σ.settledErr <;>
      simp only [applyEvent, h, if_true, if_false] at hp <;> exact .inl hp
  | wsSendFrame w f =>
    cases hf : frameId f <;> simp only [applyEvent, hf] at hp <;> exact .inl hp
  | scheduleOpen d => exact .inl hp
  | invokeCb cb d => exact .inl hp
  | wsCloseCall w c r => exact .inl hp
  | hookConnect => exact .inl hp
  | hookClose => exact .inl hp
  | hookError => exact .inl hp
  | uncaughtError m => exact .inl hp

theorem applyEvent_sentIds_sub (σ : Sys) (e : Event) (k : String)
    (hk : k ∈ (applyEvent σ e).sentIds) :
    k ∈ σ.sentIds ∨ ∃ w f, e = Event.wsSendFrame w f ∧ frameId f = some k := by
  cases e with
  | wsSendFrame w f =>
    cases hf : frameId f with
    | none => simp only [applyEvent, hf] at hk; exact .inl hk
    | some id2 =>
      simp only [applyEvent, hf] at hk
      rcases List.mem_cons.mp hk with hq | hq
      · exact .inr ⟨w, f, rfl, by rw [hf, hq]⟩
      · exact .inl hq
  | resolveP q v =>
    by_cases h : q ∈ σ.settledOk ∨ q ∈ σ.settledErr <;>
      simp only [applyEvent, h, if_true, if_false] at hk <;> exact .inl hk
  | rejectP q =>
    by_cases h : q ∈ σ.settledOk ∨ q ∈ σ.settledErr <;>
      simp only [applyEvent, h, if_true, if_false] at hk <;> exact .inl hk
  | scheduleOpen d => exact .inl hk
  | invokeCb cb d => exact .inl hk
  | wsCloseCall w c r => exact .inl hk
  | hookConnect => exact .inl hk
  | hookClose => exact .inl hk
  | hookError => exact .inl hk
  | uncaughtError m => exact .inl hk

theorem applyEvents_settledOk_sub (σ : Sys) (evs : List Event) (p : Nat)
    (hp : p ∈ (applyEvents σ evs).settledOk) :
    p ∈ σ.settledOk ∨ ∃ v, Event.resolveP p v ∈ evs := by
  induction evs generalizing σ with
  | nil => exact .inl hp
  | cons e t ih =>
    rw [applyEvents_cons] at hp
    rcases ih (applyEvent σ e) hp with h | ⟨v, hv⟩
    · rcases applyEvent_settledOk_sub σ e p h with h2 | ⟨v, hv⟩
      · exact .inl h2
      · exact .inr ⟨v, by rw [hv]; exact List.mem_cons_self _ _⟩
    · exact .inr ⟨v, List.mem_cons_of_mem e hv⟩

theorem applyEvents_settledErr_sub (σ : Sys) (evs : List Event) (p : Nat)
    (hp : p ∈ (applyEvents σ evs).settledErr) :
    p ∈ σ.settledErr ∨ Event.rejectP p ∈ evs := by
  induction evs generalizing σ with
  | nil => exact .inl hp
  | cons e t ih =>
    rw [applyEvents_cons] at hp
    rcases ih (applyEvent σ e) hp with h | hv
    · rcases applyEvent_settledErr_sub σ e p h with h2 | hv
      · exact .inl h2
      · exact .inr (by rw [← hv]; exact List.mem_cons_self _ _)
    · exact .inr (List.mem_cons_of_mem e hv)

theorem applyEvents_sentIds_sub (σ : Sys) (evs : List Event) (k : String)
    (hk : k ∈ (applyEvents σ evs).sentIds) :
    k ∈ σ.sentIds ∨ ∃ w f, Event.wsSendFrame w f ∈ evs ∧ frameId f = some k := by
  induction evs generalizing σ with
  | nil => exact .inl hk
  | cons e t ih =>
    rw [applyEvents_cons] at hk
    rcases ih (applyEvent σ e) hk with h | ⟨w, f, hwf, hf⟩
    · rcases applyEvent_sentIds_sub σ e k h with h2 | ⟨w, f, hwf, hf⟩
      · exact .inl h2
      · exact .inr ⟨w, f, by rw [hwf]; exact List.mem_cons_self _ _, hf⟩
    · exact .inr ⟨w, f, List.mem_cons_of_mem e hwf, hf⟩

theorem record_sock (σ : Sys) (s' : SocketState) (evs : List Event) :
    (record σ s' evs).sock = s' := rfl

theorem record_trace (σ : Sys) (s' : SocketState) (evs : List Event) :
    (record σ s' evs).trace = σ.trace ++ evs := rfl

theorem record_tasks (σ : Sys) (s' : SocketState) (evs : List Event) :
    (record σ s' evs).tasks = σ.tasks := by
  show (applyEvents σ evs).tasks = σ.tasks
  exact applyEvents_tasks σ evs

theorem record_attempts (σ : Sys) (s' : SocketState) (evs : List Event) :
    (record σ s' evs).attempts = σ.attempts := by
  show (applyEvents σ evs).attempts = σ.attempts
  exact applyEvents_attempts σ evs

theorem record_idCounter (σ : Sys) (s' : SocketState) (evs : List Event) :
    (record σ s' evs).idCounter = σ.idCounter := by
  show (applyEvents σ evs).idCounter = σ.idCounter
  exact applyEvents_idCounter σ evs

theorem record_nextP (σ : Sys) (s' : SocketState) (evs : List Event) :
    (record σ s' evs).nextP = σ.nextP := by
  show (applyEvents σ evs).nextP = σ.nextP
  exact applyEvents_nextP σ evs

theorem record_settledOk_sub (σ : Sys) (s' : SocketState) (evs : List Event) (p : Nat)
    (hp : p ∈ (record σ s' evs).settledOk) :
    p ∈ σ.settledOk ∨ ∃ v, Event.resolveP p v ∈ evs :=
  applyEvents_settledOk_sub σ evs p hp

theorem record_settledErr_sub (σ : Sys) (s' : SocketState) (evs : List Event) (p : Nat)
    (hp : p ∈ (record σ s' evs).settledErr) :
    p ∈ σ.settledErr ∨ Event.rejectP p ∈ evs :=
  applyEvents_settledErr_sub σ evs p hp

theorem record_sentIds_sub (σ : Sys) (s' : SocketState) (evs : List Event) (k : String)
    (hk : k ∈ (record σ s' evs).sentIds) :
    k ∈ σ.sentIds ∨ ∃ w f, Event.wsSendFrame w f ∈ evs ∧ frameId f = some k :=
  applyEvents_sentIds_sub σ evs k hk

/-! ## Per-handler characterizations -/

theorem closeListener_state (s : SocketState) :
    (closeListener s).1.queue = [] ∧ (closeListener s).1.liveQueue = []
    ∧ (closeListener s).1.unprocessedLiveResponses = []
    ∧ (closeListener s).1.ws = s.ws
    ∧ (closeListener s).1.resolveClosed = s.resolveClosed
    ∧ (closeListener s).1.ready = s.ready := by
  unfold closeListener
  by_cases h : s.status = .CLOSED <;> simp [h]

theorem closeListener_events (s : SocketState) :
    ∀ e ∈ (closeListener s).2,
      (∃ p, s.resolveClosed = some p ∧ e = .resolveP p .undefined)
      ∨ (∃ cb, e = .invokeCb cb socketClosedMessage)
      ∨ e = .scheduleOpen 2500 ∨ e = .hookClose := by
  intro e he
  have hsplit : (closeListener s).2
      = ((match s.resolveClosed with
          | some p => [Event.resolveP p .undefined]
          | none => [])
        ++ (s.liveQueue.map
            (fun q => q.2.map (fun cb => Event.invokeCb cb socketClosedMessage))).flatten)
        ++ (if s.status ≠ .CLOSED then [Event.scheduleOpen 2500, Event.hookClose]
            else []) := by
    unfold closeListener
    by_cases h : s.status = .CLOSED <;> simp [h]
  rw [hsplit] at he
  rcases List.mem_append.mp he with he | he
  · rcases List.mem_append.mp he with he | he
    · cases hrc : s.resolveClosed with
      | none => rw [hrc] at he; exact absurd he (List.not_mem_nil e)
      | some p =>
        rw [hrc] at he
        rcases List.mem_singleton.mp he with rfl
        exact .inl ⟨p, rfl, rfl⟩
    · exact .inr (.inl (mem_invokeFlatten he))
  · by_cases h : s.status = .CLOSED
    · rw [if_neg (by simp [h])] at he
      exact absurd he (List.not_mem_nil e)
    · rw [if_pos (by simp [h])] at he
      rcases List.mem_cons.mp he with rfl | he
      · exact .inr (.inr (.inl rfl))
      · rcases List.mem_singleton.mp he with rfl
        exact .inr (.inr (.inr rfl))

theorem handleLiveBatch_ok_inv (s : SocketState) (result : JSValue) (s' : SocketState)
    (evs : List Event) (h : handleLiveBatch s result = .ok (s', evs)) :
    s'.queue = s.queue ∧ s'.liveQueue = s.liveQueue ∧ s'.ws = s.ws
    ∧ s'.resolveClosed = s.resolveClosed ∧ s'.ready = s.ready ∧ s'.status = s.status
    ∧ (∀ e ∈ evs, ∃ cb d, e = .invokeCb cb d) := by
  unfold handleLiveBatch at h
  cases hid : getField result "id" with
  | error e => rw [hid] at h; exact Except.noConfusion h
  | ok idv =>
    simp only [hid] at h
    cases hlq : rlookup s.liveQueue (jsToString idv) with
    | some cbs =>
      simp only [hlq] at h
      injection h with h2
      injection h2 with h3 h4
      subst h3
      refine ⟨rfl, rfl, rfl, rfl, rfl, rfl, ?_⟩
      intro e he
      rw [← h4] at he
      rw [List.mem_map] at he
      obtain ⟨cb, _, rfl⟩ := he
      exact ⟨cb, _, rfl⟩
    | none =>
      simp only [hlq] at h
      injection h with h2
      injection h2 with h3 h4
      subst h3
      refine ⟨rfl, rfl, rfl, rfl, rfl, rfl, ?_⟩
      intro e he
      rw [← h4] at he
      exact absurd he (by simp)

theorem messageListener_ok_inv (s : SocketState) (res : JSValue) (s' : SocketState)
    (evs : List Event) (h : messageListener s res = .ok (s', evs)) :
    (∀ kv ∈ s'.queue, kv ∈ s.queue)
    ∧ s'.ws = s.ws ∧ s'.resolveClosed = s.resolveClosed ∧ s'.ready = s.ready
    ∧ (∀ e ∈ evs, (∃ cb d, e = .invokeCb cb d)
        ∨ (∃ k p, replyKey res = some k ∧ rlookup s.queue k = some p ∧ e = .resolveP p res)) := by
  unfold messageListener at h
  cases hlv : isLiveNotification res with
  | error e => rw [hlv] at h; exact Except.noConfusion h
  | ok b =>
    cases b with
    | true =>
      simp only [hlv] at h
      cases hres : getField res "result" with
      | error e => rw [hres] at h; exact Except.noConfusion h
      | ok result =>
        simp only [hres] at h
        obtain ⟨hq, _, hws, hrc, hrd, _, hev⟩ := handleLiveBatch_ok_inv s result s' evs h
        exact ⟨fun kv hkv => hq ▸ hkv, hws, hrc, hrd,
          fun e he => .inl (hev e he)⟩
    | false =>
      simp only [hlv] at h
      cases hid : getField res "id" with
      | error e => rw [hid] at h; exact Except.noConfusion h
      | ok idv =>
        simp only [hid] at h
        cases ht : jsTruthy idv with
        | false =>
          simp only [ht, Bool.false_eq_true, if_false] at h
          injection h with h2
          injection h2 with h3 h4
          subst h3
          refine ⟨fun kv hkv => hkv, rfl, rfl, rfl, ?_⟩
          intro e he
          rw [← h4] at he
          exact absurd he (by simp)
        | true =>
          simp only [ht, if_true] at h
          cases hlk : rlookup s.queue (jsToString idv) with
          | some p =>
            simp only [hlk] at h
            injection h with h2
            injection h2 with h3 h4
            subst h3
            refine ⟨?_, rfl, rfl, rfl, ?_⟩
            · intro kv hkv
              exact mem_rdel hkv
            · intro e he
              rw [← h4] at he
              rcases List.mem_singleton.mp he with rfl
              refine .inr ⟨jsToString idv, p, ?_, hlk, rfl⟩
              unfold replyKey
              rw [hlv, hid]
              simp [ht]
          | none =>
            simp only [hlk] at h
            injection h with h2
            injection h2 with h3 h4
            subst h3
            refine ⟨fun kv hkv => hkv, rfl, rfl, rfl, ?_⟩
            intro e he
            rw [← h4] at he
            exact absurd he (by simp)

theorem listenLive_state (s : SocketState) (q : String) (cb : Nat) :
    (listenLive s q cb).1.queue = s.queue
    ∧ (listenLive s q cb).1.ws = s.ws
    ∧ (listenLive s q cb).1.resolveClosed = s.resolveClosed
    ∧ (listenLive s q cb).1.ready = s.ready
    ∧ (∀ e ∈ (listenLive s q cb).2, ∃ d, e = .invokeCb cb d) := by
  refine ⟨rfl, rfl, rfl, rfl, ?_⟩
  intro e he
  unfold listenLive at he
  simp only [List.mem_map] at he
  obtain ⟨d, _, rfl⟩ := he
  exact ⟨d, rfl⟩

theorem killPhase1_state (s : SocketState) (q : String) :
    (killPhase1 s q).1.queue = s.queue
    ∧ (killPhase1 s q).1.unprocessedLiveResponses = s.unprocessedLiveResponses
    ∧ (killPhase1 s q).1.ws = s.ws
    ∧ (killPhase1 s q).1.resolveClosed = s.resolveClosed
    ∧ (killPhase1 s q).1.ready = s.ready
    ∧ (∀ e ∈ (killPhase1 s q).2, ∃ cb, e = .invokeCb cb queryKilledMessage) := by
  unfold killPhase1
  cases hlq : rlookup s.liveQueue q with
  | some cbs =>
    refine ⟨rfl, rfl, rfl, rfl, rfl, ?_⟩
    intro e he
    simp only [List.mem_map] at he
    obtain ⟨cb, _, rfl⟩ := he
    exact ⟨cb, rfl⟩
  | none =>
    refine ⟨rfl, rfl, rfl, rfl, rfl, ?_⟩
    intro e he
    exact absurd he (by simp)

theorem killPhase2_state (s : SocketState) (q : String) :
    (killPhase2 s q).queue = s.queue ∧ (killPhase2 s q).liveQueue = s.liveQueue
    ∧ (killPhase2 s q).ws = s.ws ∧ (killPhase2 s q).resolveClosed = s.resolveClosed
    ∧ (killPhase2 s q).ready = s.ready := by
  unfold killPhase2
  by_cases h : (rlookup s.unprocessedLiveResponses q).isSome <;> simp [h]

theorem sendBody_state (s : SocketState) (m : String) (ps : List JSValue) (id : String)
    (p : Nat) :
    (sendBody s m ps id p).1.queue = rset s.queue id p
    ∧ (sendBody s m ps id p).1.liveQueue = s.liveQueue
    ∧ (sendBody s m ps id p).1.unprocessedLiveResponses = s.unprocessedLiveResponses
    ∧ (sendBody s m ps id p).1.ws = s.ws
    ∧ (sendBody s m ps id p).1.resolveClosed = s.resolveClosed
    ∧ (sendBody s m ps id p).1.ready = s.ready
    ∧ (∀ e ∈ (sendBody s m ps id p).2, ∃ w, s.ws = some w
        ∧ e = .wsSendFrame w (.obj [("id", .str id), ("method", .str m),
            ("params", .arr ps)])) := by
  refine ⟨rfl, rfl, rfl, rfl, rfl, rfl, ?_⟩
  intro e he
  unfold sendBody at he
  cases hws : s.ws with
  | some w =>
    simp only [hws, List.mem_singleton] at he
    exact ⟨w, rfl, he⟩
  | none =>
    simp only [hws] at he
    exact absurd he (by simp)

theorem closeSync_state (s : SocketState) (r cp : Nat) :
    (closeSync s r cp).1.status = .CLOSED
    ∧ (closeSync s r cp).1.resolveClosed = some cp
    ∧ (closeSync s r cp).1.queue = s.queue
    ∧ (closeSync s r cp).1.liveQueue = s.liveQueue
    ∧ (closeSync s r cp).1.unprocessedLiveResponses = s.unprocessedLiveResponses
    ∧ (closeSync s r cp).1.ws = s.ws
    ∧ (closeSync s r cp).1.ready = s.ready
    ∧ (∀ e ∈ (closeSync s r cp).2,
        (∃ w, e = .wsCloseCall w r (socketClosureReason r)) ∨ e = .hookClose) := by
  refine ⟨rfl, rfl, rfl, rfl, rfl, rfl, rfl, ?_⟩
  intro e he
  unfold closeSync at he
  cases hws : s.ws with
  | some w =>
    simp only [hws, List.cons_append, List.nil_append, List.mem_cons,
      List.mem_singleton] at he
    rcases he with he | he
    · exact .inl ⟨w, he⟩
    · rcases he with he | he
      · exact .inr he
      · exact absurd he (by simp)
  | none =>
    simp only [hws, List.nil_append, List.mem_singleton] at he
    exact .inr he

theorem openSync_state (s : SocketState) (cp rp w : Nat) :
    (openSync s cp rp w).1.status = .CLOSED
    ∧ (openSync s cp rp w).1.resolveClosed = some cp
    ∧ (openSync s cp rp w).1.queue = s.queue
    ∧ (openSync s cp rp w).1.ws = some w
    ∧ (openSync s cp rp w).1.ready = some rp
    ∧ (∀ e ∈ (openSync s cp rp w).2,
        (∃ w2, e = .wsCloseCall w2 1000 (socketClosureReason 1000)) ∨ e = .hookClose) := by
  refine ⟨rfl, rfl, rfl, rfl, rfl, ?_⟩
  intro e he
  exact (closeSync_state s 1000 cp).2.2.2.2.2.2.2 e he

theorem openListener_events (s : SocketState) (b : Bool) (rp : Nat) :
    ∀ e ∈ (openListener s b rp).2.1, e = .resolveP rp .undefined ∨ e = .hookConnect := by
  intro e he
  cases b with
  | true =>
    replace he : e ∈ [Event.hookConnect] := he
    exact .inr (List.mem_singleton.mp he)
  | false =>
    replace he : e ∈ [Event.resolveP rp .undefined, Event.hookConnect] := he
    rcases List.mem_cons.mp he with rfl | he
    · exact .inl rfl
    · exact .inr (List.mem_singleton.mp he)

theorem errorListener_events (s : SocketState) (b : Bool) (rp : Nat) :
    ∀ e ∈ (errorListener s b rp).2.1, e = .rejectP rp ∨ e = .hookError := by
  intro e he
  cases b with
  | true =>
    replace he : e ∈ ([] : List Event) := he
    exact absurd he (List.not_mem_nil e)
  | false =>
    replace he : e ∈ [Event.rejectP rp, Event.hookError] := he
    rcases List.mem_cons.mp he with rfl | he
    · exact .inl rfl
    · exact .inr (List.mem_singleton.mp he)

/-! ## Preservation of well-formedness -/

theorem taskBound_mono {n m : Nat} (h : n ≤ m) : ∀ t, taskBound n t → taskBound m t := by
  intro t ht
  cases t with
  | sendT m2 ps w kf =>
    cases w with
    | none => trivial
    | some r => exact lt_of_lt_of_le ht h
  | killCleanupT p q => exact lt_of_lt_of_le ht h

theorem mem_setResolved {atts : List Attempt} {w : Nat} {b : Bool} {a' : Attempt}
    (h : a' ∈ atts.map (fun x => if x.wsId == w then { x with resolved := b } else x)) :
    ∃ a ∈ atts, a'.readyP = a.readyP := by
  rw [List.mem_map] at h
  obtain ⟨a, ha, rfl⟩ := h
  by_cases hw : (a.wsId == w) = true
  · simp only [hw, if_true]
    exact ⟨a, ha, rfl⟩
  · simp only [hw, if_false, Bool.false_eq_true]
    exact ⟨a, ha, rfl⟩

theorem mem_eraseIdx {α : Type} {l : List α} {i : Nat} {x : α}
    (h : x ∈ l.eraseIdx i) : x ∈ l := by
  induction l generalizing i with
  | nil => simpa [List.eraseIdx] using h
  | cons a t ih =>
    cases i with
    | zero => exact List.mem_cons_of_mem a (by simpa [List.eraseIdx] using h)
    | succ j =>
      rcases List.mem_cons.mp (by simpa [List.eraseIdx] using h : x ∈ a :: t.eraseIdx j)
        with h2 | h2
      · rw [h2]; exact List.mem_cons_self a t
      · exact List.mem_cons_of_mem a (ih h2)

theorem WfP_openCall (σ : Sys) (hwf : WfP σ) : WfP (openCall σ) := by
  obtain ⟨h1, h2, h3, h4, h5, h6, h7, h8⟩ := hwf
  have hsock : (openCall σ).sock = (openSync σ.sock σ.nextP (σ.nextP + 1) σ.nextWs).1 := rfl
  have hos := openSync_state σ.sock σ.nextP (σ.nextP + 1) σ.nextWs
  have htasks : (openCall σ).tasks = σ.tasks :=
    record_tasks σ (openSync σ.sock σ.nextP (σ.nextP + 1) σ.nextWs).1
      (openSync σ.sock σ.nextP (σ.nextP + 1) σ.nextWs).2
  have hcnt : (openCall σ).idCounter = σ.idCounter :=
    record_idCounter σ (openSync σ.sock σ.nextP (σ.nextP + 1) σ.nextWs).1
      (openSync σ.sock σ.nextP (σ.nextP + 1) σ.nextWs).2
  have hnp : (openCall σ).nextP = σ.nextP + 2 := rfl
  have hatt : (openCall σ).attempts = σ.attempts ++ [⟨σ.nextWs, σ.nextP + 1, false⟩] := by
    show (record σ _ _).attempts ++ _ = _
    rw [record_attempts]
  have hok : ∀ p ∈ (openCall σ).settledOk, p ∈ σ.settledOk := by
    intro p hp
    rcases record_settledOk_sub σ (openSync σ.sock σ.nextP (σ.nextP + 1) σ.nextWs).1
      (openSync σ.sock σ.nextP (σ.nextP + 1) σ.nextWs).2 p hp with h | ⟨v, hv⟩
    · exact h
    · rcases hos.2.2.2.2.2 _ hv with ⟨w2, hw⟩ | hw
      · exact Event.noConfusion hw
      · exact Event.noConfusion hw
  have herr : ∀ p ∈ (openCall σ).settledErr, p ∈ σ.settledErr := by
    intro p hp
    rcases record_settledErr_sub σ (openSync σ.sock σ.nextP (σ.nextP + 1) σ.nextWs).1
      (openSync σ.sock σ.nextP (σ.nextP + 1) σ.nextWs).2 p hp with h | hv
    · exact h
    · rcases hos.2.2.2.2.2 _ hv with ⟨w2, hw⟩ | hw
      · exact Event.noConfusion hw
      · exact Event.noConfusion hw
  have hsent : ∀ k ∈ (openCall σ).sentIds, k ∈ σ.sentIds := by
    intro k hk
    rcases record_sentIds_sub σ (openSync σ.sock σ.nextP (σ.nextP + 1) σ.nextWs).1
      (openSync σ.sock σ.nextP (σ.nextP + 1) σ.nextWs).2 k hk with h | ⟨w2, f, hwf2, _⟩
    · exact h
    · rcases hos.2.2.2.2.2 _ hwf2 with ⟨w3, hw⟩ | hw
      · exact Event.noConfusion hw
      · exact Event.noConfusion hw
  refine ⟨?_, ?_, ?_, ?_, ?_, ?_, ?_, ?_⟩
  · intro kv hkv
    rw [hsock, hos.2.2.1] at hkv
    rw [hcnt, hnp]
    refine ⟨(h1 kv hkv).1, ?_⟩
    have := (h1 kv hkv).2
    omega
  · intro k hk
    rw [hcnt]
    exact h2 k (hsent k hk)
  · intro a ha
    rw [hatt] at ha
    rw [hnp]
    rcases List.mem_append.mp ha with ha | ha
    · have := h3 a ha
      omega
    · rcases List.mem_singleton.mp ha with rfl
      show σ.nextP + 1 < σ.nextP + 2
      omega
  · intro p hp
    rw [hsock, hos.2.1] at hp
    injection hp with hp2
    rw [hnp, ← hp2]
    omega
  · intro p hp
    rw [hsock, hos.2.2.2.2.1] at hp
    injection hp with hp2
    rw [hnp, ← hp2]
    omega
  · intro t ht
    rw [htasks] at ht
    rw [hnp]
    exact taskBound_mono (by omega) t (h6 t ht)
  · intro p hp
    rw [hnp]
    have := h7 p (hok p hp)
    omega
  · intro p hp
    rw [hnp]
    have := h8 p (herr p hp)
    omega

theorem WfP_removeTask (σ : Sys) (i : Nat) (hwf : WfP σ) : WfP (removeTask σ i) := by
  obtain ⟨h1, h2, h3, h4, h5, h6, h7, h8⟩ := hwf
  exact ⟨h1, h2, h3, h4, h5, fun t ht => h6 t (mem_eraseIdx ht), h7, h8⟩

theorem WfP_killCleanup (σ : Sys) (q : String) (hwf : WfP σ) :
    WfP { σ with sock := killPhase2 σ.sock q } := by
  obtain ⟨h1, h2, h3, h4, h5, h6, h7, h8⟩ := hwf
  have hk := killPhase2_state σ.sock q
  refine ⟨?_, h2, h3, ?_, ?_, h6, h7, h8⟩
  · intro kv hkv
    replace hkv : kv ∈ (killPhase2 σ.sock q).queue := hkv
    rw [hk.1] at hkv
    exact h1 kv hkv
  · intro p hp
    replace hp : (killPhase2 σ.sock q).resolveClosed = some p := hp
    rw [hk.2.2.2.1] at hp
    exact h4 p hp
  · intro p hp
    replace hp : (killPhase2 σ.sock q).ready = some p := hp
    rw [hk.2.2.2.2] at hp
    exact h5 p hp

theorem WfP_runSend (σ : Sys) (m : String) (ps : List JSValue) (kf : Option String)
    (hwf : WfP σ) : WfP (runSend σ m ps kf) := by
  obtain ⟨h1, h2, h3, h4, h5, h6, h7, h8⟩ := hwf
  have hsb := sendBody_state σ.sock m ps (Nat.repr (σ.idCounter + 1)) σ.nextP
  have hsock : (runSend σ m ps kf).sock
      = (sendBody σ.sock m ps (Nat.repr (σ.idCounter + 1)) σ.nextP).1 := by
    cases kf <;> rfl
  have hcnt : (runSend σ m ps kf).idCounter = σ.idCounter + 1 := by
    cases kf <;> rfl
  have hnp : (runSend σ m ps kf).nextP = σ.nextP + 1 := by
    cases kf <;> rfl
  have hatt : (runSend σ m ps kf).attempts = σ.attempts := by
    cases kf <;>
      exact record_attempts σ (sendBody σ.sock m ps (Nat.repr (σ.idCounter + 1)) σ.nextP).1
        (sendBody σ.sock m ps (Nat.repr (σ.idCounter + 1)) σ.nextP).2
  have hok : ∀ p ∈ (runSend σ m ps kf).settledOk, p ∈ σ.settledOk := by
    intro p hp
    have hp2 : p ∈ (record σ (sendBody σ.sock m ps (Nat.repr (σ.idCounter + 1)) σ.nextP).1
        (sendBody σ.sock m ps (Nat.repr (σ.idCounter + 1)) σ.nextP).2).settledOk := by
      cases kf <;> exact hp
    rcases record_settledOk_sub _ _ _ p hp2 with h | ⟨v, hv⟩
    · exact h
    · obtain ⟨w, _, hw⟩ := hsb.2.2.2.2.2.2 _ hv
      exact Event.noConfusion hw
  have herr : ∀ p ∈ (runSend σ m ps kf).settledErr, p ∈ σ.settledErr := by
    intro p hp
    have hp2 : p ∈ (record σ (sendBody σ.sock m ps (Nat.repr (σ.idCounter + 1)) σ.nextP).1
        (sendBody σ.sock m ps (Nat.repr (σ.idCounter + 1)) σ.nextP).2).settledErr := by
      cases kf <;> exact hp
    rcases record_settledErr_sub _ _ _ p hp2 with h | hv
    · exact h
    · obtain ⟨w, _, hw⟩ := hsb.2.2.2.2.2.2 _ hv
      exact Event.noConfusion hw
  have hsent : ∀ k ∈ (runSend σ m ps kf).sentIds,
      k ∈ σ.sentIds ∨ k = Nat.repr (σ.idCounter + 1) := by
    intro k hk
    have hk2 : k ∈ (record σ (sendBody σ.sock m ps (Nat.repr (σ.idCounter + 1)) σ.nextP).1
        (sendBody σ.sock m ps (Nat.repr (σ.idCounter + 1)) σ.nextP).2).sentIds := by
      cases kf <;> exact hk
    rcases record_sentIds_sub _ _ _ k hk2 with h | ⟨w, f, hwf2, hfid⟩
    · exact .inl h
    · obtain ⟨w2, _, hw⟩ := hsb.2.2.2.2.2.2 _ hwf2
      right
      injection hw with hww hwf3
      rw [hwf3] at hfid
      rw [show frameId (JSValue.obj [("id", .str (Nat.repr (σ.idCounter + 1))),
          ("method", .str m), ("params", .arr ps)])
        = some (Nat.repr (σ.idCounter + 1)) from rfl] at hfid
      injection hfid with h9
      exact h9.symm
  refine ⟨?_, ?_, ?_, ?_, ?_, ?_, ?_, ?_⟩
  · intro kv hkv
    rw [hsock, hsb.1] at hkv
    rw [hcnt, hnp]
    rcases mem_rset hkv with h | h
    · refine ⟨?_, ?_⟩
      · obtain ⟨j, hj, he⟩ := (h1 kv h).1
        exact ⟨j, by omega, he⟩
      · have := (h1 kv h).2
        omega
    · rw [h]
      exact ⟨⟨σ.idCounter, by omega, rfl⟩, by omega⟩
  · intro k hk
    rw [hcnt]
    rcases hsent k hk with h | h
    · obtain ⟨j, hj, he⟩ := h2 k h
      exact ⟨j, by omega, he⟩
    · exact ⟨σ.idCounter, by omega, h.symm⟩
  · intro a ha
    rw [hatt] at ha
    rw [hnp]
    have := h3 a ha
    omega
  · intro p hp
    rw [hsock, hsb.2.2.2.2.1] at hp
    rw [hnp]
    have := h4 p hp
    omega
  · intro p hp
    rw [hsock, hsb.2.2.2.2.2.1] at hp
    rw [hnp]
    have := h5 p hp
    omega
  · intro t ht
    rw [hnp]
    cases kf with
    | none =>
      have ht2 : t ∈ σ.tasks := by
        have : t ∈ (record σ (sendBody σ.sock m ps (Nat.repr (σ.idCounter + 1)) σ.nextP).1
            (sendBody σ.sock m ps (Nat.repr (σ.idCounter + 1)) σ.nextP).2).tasks := ht
        rwa [record_tasks] at this
      exact taskBound_mono (by omega) t (h6 t ht2)
    | some q =>
      have ht2 : t ∈ (record σ (sendBody σ.sock m ps (Nat.repr (σ.idCounter + 1)) σ.nextP).1
          (sendBody σ.sock m ps (Nat.repr (σ.idCounter + 1)) σ.nextP).2).tasks
          ++ [STask.killCleanupT σ.nextP q] := ht
      rw [record_tasks] at ht2
      rcases List.mem_append.mp ht2 with h | h
      · exact taskBound_mono (by omega) t (h6 t h)
      · rcases List.mem_singleton.mp h with rfl
        show σ.nextP < σ.nextP + 1
        omega
  · intro p hp
    rw [hnp]
    have := h7 p (hok p hp)
    omega
  · intro p hp
    rw [hnp]
    have := h8 p (herr p hp)
    omega

theorem step_uClose_fields (σ σ' : Sys) (r : Nat) (h : step σ (.uClose r) = some σ') :
    σ'.sock = (closeSync σ.sock r σ.nextP).1
    ∧ σ'.attempts = σ.attempts ∧ σ'.tasks = σ.tasks
    ∧ σ'.idCounter = σ.idCounter ∧ σ'.nextP = σ.nextP + 1
    ∧ σ'.trace = σ.trace ++ (closeSync σ.sock r σ.nextP).2
    ∧ (∀ p ∈ σ'.settledOk, p ∈ σ.settledOk)
    ∧ (∀ p ∈ σ'.settledErr, p ∈ σ.settledErr)
    ∧ (∀ k ∈ σ'.sentIds, k ∈ σ.sentIds) := by
  have hσ : σ' = { record σ (closeSync σ.sock r σ.nextP).1 (closeSync σ.sock r σ.nextP).2
      with nextP := σ.nextP + 1 } := by
    rw [show step σ (.uClose r) = some { record σ (closeSync σ.sock r σ.nextP).1
      (closeSync σ.sock r σ.nextP).2 with nextP := σ.nextP + 1 } from rfl] at h
    injection h with h3
    exact h3.symm
  have hev := (closeSync_state σ.sock r σ.nextP).2.2.2.2.2.2.2
  refine ⟨?_, ?_, ?_, ?_, ?_, ?_, ?_, ?_, ?_⟩
  · rw [hσ]; rfl
  · rw [hσ]; exact record_attempts σ (closeSync σ.sock r σ.nextP).1 (closeSync σ.sock r σ.nextP).2
  · rw [hσ]; exact record_tasks σ (closeSync σ.sock r σ.nextP).1 (closeSync σ.sock r σ.nextP).2
  · rw [hσ]; exact record_idCounter σ (closeSync σ.sock r σ.nextP).1 (closeSync σ.sock r σ.nextP).2
  · rw [hσ]
  · rw [hσ]; exact record_trace σ (closeSync σ.sock r σ.nextP).1 (closeSync σ.sock r σ.nextP).2
  · intro p hp
    rw [hσ] at hp
    rcases record_settledOk_sub σ (closeSync σ.sock r σ.nextP).1
      (closeSync σ.sock r σ.nextP).2 p hp with h2 | ⟨v, hv⟩
    · exact h2
    · rcases hev _ hv with ⟨w2, hw⟩ | hw
      · exact Event.noConfusion hw
      · exact Event.noConfusion hw
  · intro p hp
    rw [hσ] at hp
    rcases record_settledErr_sub σ (closeSync σ.sock r σ.nextP).1
      (closeSync σ.sock r σ.nextP).2 p hp with h2 | hv
    · exact h2
    · rcases hev _ hv with ⟨w2, hw⟩ | hw
      · exact Event.noConfusion hw
      · exact Event.noConfusion hw
  · intro k hk
    rw [hσ] at hk
    rcases record_sentIds_sub σ (closeSync σ.sock r σ.nextP).1
      (closeSync σ.sock r σ.nextP).2 k hk with h2 | ⟨w2, f, hv, _⟩
    · exact h2
    · rcases hev _ hv with ⟨w3, hw⟩ | hw
      · exact Event.noConfusion hw
      · exact Event.noConfusion hw

theorem step_uListenLive_fields (σ σ' : Sys) (q : String) (cb : Nat)
    (h : step σ (.uListenLive q cb) = some σ') :
    σ'.sock = (listenLive σ.sock q cb).1
    ∧ σ'.attempts = σ.attempts ∧ σ'.tasks = σ.tasks
    ∧ σ'.idCounter = σ.idCounter ∧ σ'.nextP = σ.nextP
    ∧ σ'.trace = σ.trace ++ (listenLive σ.sock q cb).2
    ∧ (∀ p ∈ σ'.settledOk, p ∈ σ.settledOk)
    ∧ (∀ p ∈ σ'.settledErr, p ∈ σ.settledErr)
    ∧ (∀ k ∈ σ'.sentIds, k ∈ σ.sentIds) := by
  have hσ : σ' = record σ (listenLive σ.sock q cb).1 (listenLive σ.sock q cb).2 := by
    rw [show step σ (.uListenLive q cb)
      = some (record σ (listenLive σ.sock q cb).1 (listenLive σ.sock q cb).2) from rfl] at h
    injection h with h3
    exact h3.symm
  have hev := (listenLive_state σ.sock q cb).2.2.2.2
  refine ⟨?_, ?_, ?_, ?_, ?_, ?_, ?_, ?_, ?_⟩
  · rw [hσ]; rfl
  · rw [hσ]; exact record_attempts σ (listenLive σ.sock q cb).1 (listenLive σ.sock q cb).2
  · rw [hσ]; exact record_tasks σ (listenLive σ.sock q cb).1 (listenLive σ.sock q cb).2
  · rw [hσ]; exact record_idCounter σ (listenLive σ.sock q cb).1 (listenLive σ.sock q cb).2
  · rw [hσ]; exact record_nextP σ (listenLive σ.sock q cb).1 (listenLive σ.sock q cb).2
  · rw [hσ]; exact record_trace σ (listenLive σ.sock q cb).1 (listenLive σ.sock q cb).2
  · intro p hp
    rw [hσ] at hp
    rcases record_settledOk_sub σ (listenLive σ.sock q cb).1
      (listenLive σ.sock q cb).2 p hp with h2 | ⟨v, hv⟩
    · exact h2
    · obtain ⟨d, hd⟩ := hev _ hv
      exact Event.noConfusion hd
  · intro p hp
    rw [hσ] at hp
    rcases record_settledErr_sub σ (listenLive σ.sock q cb).1
      (listenLive σ.sock q cb).2 p hp with h2 | hv
    · exact h2
    · obtain ⟨d, hd⟩ := hev _ hv
      exact Event.noConfusion hd
  · intro k hk
    rw [hσ] at hk
    rcases record_sentIds_sub σ (listenLive σ.sock q cb).1
      (listenLive σ.sock q cb).2 k hk with h2 | ⟨w2, f, hv, _⟩
    · exact h2
    · obtain ⟨d, hd⟩ := hev _ hv
      exact Event.noConfusion hd

theorem step_uKill_fields (σ σ' : Sys) (q : String) (h : step σ (.uKill q) = some σ') :
    σ'.sock = (killPhase1 σ.sock q).1
    ∧ σ'.attempts = σ.attempts
    ∧ σ'.tasks = σ.tasks ++ [.sendT "kill" [.str q] σ.sock.ready (some q)]
    ∧ σ'.idCounter = σ.idCounter ∧ σ'.nextP = σ.nextP
    ∧ σ'.trace = σ.trace ++ (killPhase1 σ.sock q).2
    ∧ (∀ p ∈ σ'.settledOk, p ∈ σ.settledOk)
    ∧ (∀ p ∈ σ'.settledErr, p ∈ σ.settledErr)
    ∧ (∀ k ∈ σ'.sentIds, k ∈ σ.sentIds) := by
  have hσ : σ' = { record σ (killPhase1 σ.sock q).1 (killPhase1 σ.sock q).2 with
      tasks := (record σ (killPhase1 σ.sock q).1 (killPhase1 σ.sock q).2).tasks
        ++ [.sendT "kill" [.str q] σ.sock.ready (some q)] } := by
    rw [show step σ (.uKill q) = some { record σ (killPhase1 σ.sock q).1
        (killPhase1 σ.sock q).2 with
      tasks := (record σ (killPhase1 σ.sock q).1 (killPhase1 σ.sock q).2).tasks
        ++ [.sendT "kill" [.str q] σ.sock.ready (some q)] } from rfl] at h
    injection h with h3
    exact h3.symm
  have hev := (killPhase1_state σ.sock q).2.2.2.2.2
  refine ⟨?_, ?_, ?_, ?_, ?_, ?_, ?_, ?_, ?_⟩
  · rw [hσ]; rfl
  · rw [hσ]; exact record_attempts σ (killPhase1 σ.sock q).1 (killPhase1 σ.sock q).2
  · rw [hσ]
    show (record σ (killPhase1 σ.sock q).1 (killPhase1 σ.sock q).2).tasks ++ _ = _
    rw [record_tasks]
  · rw [hσ]; exact record_idCounter σ (killPhase1 σ.sock q).1 (killPhase1 σ.sock q).2
  · rw [hσ]; exact record_nextP σ (killPhase1 σ.sock q).1 (killPhase1 σ.sock q).2
  · rw [hσ]; exact record_trace σ (killPhase1 σ.sock q).1 (killPhase1 σ.sock q).2
  · intro p hp
    rw [hσ] at hp
    rcases record_settledOk_sub σ (killPhase1 σ.sock q).1
      (killPhase1 σ.sock q).2 p hp with h2 | ⟨v, hv⟩
    · exact h2
    · obtain ⟨cb, hd⟩ := hev _ hv
      exact Event.noConfusion hd
  · intro p hp
    rw [hσ] at hp
    rcases record_settledErr_sub σ (killPhase1 σ.sock q).1
      (killPhase1 σ.sock q).2 p hp with h2 | hv
    · exact h2
    · obtain ⟨cb, hd⟩ := hev _ hv
      exact Event.noConfusion hd
  · intro k hk
    rw [hσ] at hk
    rcases record_sentIds_sub σ (killPhase1 σ.sock q).1
      (killPhase1 σ.sock q).2 k hk with h2 | ⟨w2, f, hv, _⟩
    · exact h2
    · obtain ⟨cb, hd⟩ := hev _ hv
      exact Event.noConfusion hd

theorem step_wsOpen_fields (σ σ' : Sys) (w : Nat) (a : Attempt)
    (hf : σ.attempts.find? (fun b => b.wsId == w) = some a)
    (h : step σ (.wsOpenEv w) = some σ') :
    σ'.sock = { σ.sock with status := .OPEN }
    ∧ (∀ b ∈ σ'.attempts, ∃ a2 ∈ σ.attempts, b.readyP = a2.readyP)
    ∧ σ'.tasks = σ.tasks
    ∧ σ'.idCounter = σ.idCounter ∧ σ'.nextP = σ.nextP
    ∧ (∀ p ∈ σ'.settledOk, p ∈ σ.settledOk ∨ p = a.readyP)
    ∧ (∀ p ∈ σ'.settledErr, p ∈ σ.settledErr)
    ∧ (∀ k ∈ σ'.sentIds, k ∈ σ.sentIds) := by
  have hσ : σ' = { record σ (openListener σ.sock a.resolved a.readyP).1
      (openListener σ.sock a.resolved a.readyP).2.1 with
      attempts := (record σ (openListener σ.sock a.resolved a.readyP).1
        (openListener σ.sock a.resolved a.readyP).2.1).attempts.map
        (fun b => if b.wsId == w then
          { b with resolved := (openListener σ.sock a.resolved a.readyP).2.2 } else b) } := by
    rw [show step σ (.wsOpenEv w) = some { record σ
        (openListener σ.sock a.resolved a.readyP).1
        (openListener σ.sock a.resolved a.readyP).2.1 with
      attempts := (record σ (openListener σ.sock a.resolved a.readyP).1
        (openListener σ.sock a.resolved a.readyP).2.1).attempts.map
        (fun b => if b.wsId == w then
          { b with resolved := (openListener σ.sock a.resolved a.readyP).2.2 } else b) }
      from by simp [step, hf]] at h
    injection h with h3
    exact h3.symm
  refine ⟨?_, ?_, ?_, ?_, ?_, ?_, ?_, ?_⟩
  · rw [hσ]; rfl
  · intro b hb
    rw [hσ] at hb
    replace hb : b ∈ (record σ (openListener σ.sock a.resolved a.readyP).1
      (openListener σ.sock a.resolved a.readyP).2.1).attempts.map
        (fun x => if x.wsId == w then
          { x with resolved := (openListener σ.sock a.resolved a.readyP).2.2 } else x) := hb
    rw [record_attempts] at hb
    exact mem_setResolved hb
  · rw [hσ]; exact record_tasks σ (openListener σ.sock a.resolved a.readyP).1 (openListener σ.sock a.resolved a.readyP).2.1
  · rw [hσ]; exact record_idCounter σ (openListener σ.sock a.resolved a.readyP).1 (openListener σ.sock a.resolved a.readyP).2.1
  · rw [hσ]; exact record_nextP σ (openListener σ.sock a.resolved a.readyP).1 (openListener σ.sock a.resolved a.readyP).2.1
  · intro p hp
    rw [hσ] at hp
    rcases record_settledOk_sub σ (openListener σ.sock a.resolved a.readyP).1
      (openListener σ.sock a.resolved a.readyP).2.1 p hp with h2 | ⟨v, hv⟩
    · exact .inl h2
    · rcases openListener_events σ.sock a.resolved a.readyP _ hv with hd | hd
      · injection hd with hd2 hd3
        exact .inr hd2
      · exact Event.noConfusion hd
  · intro p hp
    rw [hσ] at hp
    rcases record_settledErr_sub σ (openListener σ.sock a.resolved a.readyP).1
      (openListener σ.sock a.resolved a.readyP).2.1 p hp with h2 | hv
    · exact h2
    · rcases openListener_events σ.sock a.resolved a.readyP _ hv with hd | hd
      · exact Event.noConfusion hd
      · exact Event.noConfusion hd
  · intro k hk
    rw [hσ] at hk
    rcases record_sentIds_sub σ (openListener σ.sock a.resolved a.readyP).1
      (openListener σ.sock a.resolved a.readyP).2.1 k hk with h2 | ⟨w2, f, hv, _⟩
    · exact h2
    · rcases openListener_events σ.sock a.resolved a.readyP _ hv with hd | hd
      · exact Event.noConfusion hd
      · exact Event.noConfusion hd

theorem step_wsError_fields (σ σ' : Sys) (w : Nat) (a : Attempt)
    (hf : σ.attempts.find? (fun b => b.wsId == w) = some a)
    (h : step σ (.wsErrorEv w) = some σ') :
    σ'.sock = { σ.sock with status := .CLOSED }
    ∧ (∀ b ∈ σ'.attempts, ∃ a2 ∈ σ.attempts, b.readyP = a2.readyP)
    ∧ σ'.tasks = σ.tasks
    ∧ σ'.idCounter = σ.idCounter ∧ σ'.nextP = σ.nextP
    ∧ (∀ p ∈ σ'.settledOk, p ∈ σ.settledOk)
    ∧ (∀ p ∈ σ'.settledErr, p ∈ σ.settledErr ∨ p = a.readyP)
    ∧ (∀ k ∈ σ'.sentIds, k ∈ σ.sentIds) := by
  have hσ : σ' = { record σ (errorListener σ.sock a.resolved a.readyP).1
      (errorListener σ.sock a.resolved a.readyP).2.1 with
      attempts := (record σ (errorListener σ.sock a.resolved a.readyP).1
        (errorListener σ.sock a.resolved a.readyP).2.1).attempts.map
        (fun b => if b.wsId == w then
          { b with resolved := (errorListener σ.sock a.resolved a.readyP).2.2 } else b) } := by
    rw [show step σ (.wsErrorEv w) = some { record σ
        (errorListener σ.sock a.resolved a.readyP).1
        (errorListener σ.sock a.resolved a.readyP).2.1 with
      attempts := (record σ (errorListener σ.sock a.resolved a.readyP).1
        (errorListener σ.sock a.resolved a.readyP).2.1).attempts.map
        (fun b => if b.wsId == w then
          { b with resolved := (errorListener σ.sock a.resolved a.readyP).2.2 } else b) }
      from by simp [step, hf]] at h
    injection h with h3
    exact h3.symm
  refine ⟨?_, ?_, ?_, ?_, ?_, ?_, ?_, ?_⟩
  · rw [hσ]; rfl
  · intro b hb
    rw [hσ] at hb
    replace hb : b ∈ (record σ (errorListener σ.sock a.resolved a.readyP).1
      (errorListener σ.sock a.resolved a.readyP).2.1).attempts.map
        (fun x => if x.wsId == w then
          { x with resolved := (errorListener σ.sock a.resolved a.readyP).2.2 } else x) := hb
    rw [record_attempts] at hb
    exact mem_setResolved hb
  · rw [hσ]; exact record_tasks σ (errorListener σ.sock a.resolved a.readyP).1 (errorListener σ.sock a.resolved a.readyP).2.1
  · rw [hσ]; exact record_idCounter σ (errorListener σ.sock a.resolved a.readyP).1 (errorListener σ.sock a.resolved a.readyP).2.1
  · rw [hσ]; exact record_nextP σ (errorListener σ.sock a.resolved a.readyP).1 (errorListener σ.sock a.resolved a.readyP).2.1
  · intro p hp
    rw [hσ] at hp
    rcases record_settledOk_sub σ (errorListener σ.sock a.resolved a.readyP).1
      (errorListener σ.sock a.resolved a.readyP).2.1 p hp with h2 | ⟨v, hv⟩
    · exact h2
    · rcases errorListener_events σ.sock a.resolved a.readyP _ hv with hd | hd
      · exact Event.noConfusion hd
      · exact Event.noConfusion hd
  · intro p hp
    rw [hσ] at hp
    rcases record_settledErr_sub σ (errorListener σ.sock a.resolved a.readyP).1
      (errorListener σ.sock a.resolved a.readyP).2.1 p hp with h2 | hv
    · exact .inl h2
    · rcases errorListener_events σ.sock a.resolved a.readyP _ hv with hd | hd
      · injection hd with hd2
        exact .inr hd2
      · exact Event.noConfusion hd
  · intro k hk
    rw [hσ] at hk
    rcases record_sentIds_sub σ (errorListener σ.sock a.resolved a.readyP).1
      (errorListener σ.sock a.resolved a.readyP).2.1 k hk with h2 | ⟨w2, f, hv, _⟩
    · exact h2
    · rcases errorListener_events σ.sock a.resolved a.readyP _ hv with hd | hd
      · exact Event.noConfusion hd
      · exact Event.noConfusion hd

theorem step_wsClose_fields (σ σ' : Sys) (w : Nat)
    (h : step σ (.wsCloseEv w) = some σ') :
    σ'.sock = (closeListener σ.sock).1
    ∧ σ'.attempts = σ.attempts ∧ σ'.tasks = σ.tasks
    ∧ σ'.idCounter = σ.idCounter ∧ σ'.nextP = σ.nextP
    ∧ σ'.trace = σ.trace ++ (closeListener σ.sock).2
    ∧ (∀ p ∈ σ'.settledOk, p ∈ σ.settledOk ∨ σ.sock.resolveClosed = some p)
    ∧ (∀ p ∈ σ'.settledErr, p ∈ σ.settledErr)
    ∧ (∀ k ∈ σ'.sentIds, k ∈ σ.sentIds) := by
  by_cases hf : (σ.attempts.find? (fun a => a.wsId == w)).isSome
  · have hσ : σ' = record σ (closeListener σ.sock).1 (closeListener σ.sock).2 := by
      rw [show step σ (.wsCloseEv w)
        = some (record σ (closeListener σ.sock).1 (closeListener σ.sock).2) from by
          simp [step, hf]] at h
      injection h with h3
      exact h3.symm
    refine ⟨?_, ?_, ?_, ?_, ?_, ?_, ?_, ?_, ?_⟩
    · rw [hσ]; rfl
    · rw [hσ]; exact record_attempts σ (closeListener σ.sock).1 (closeListener σ.sock).2
    · rw [hσ]; exact record_tasks σ (closeListener σ.sock).1 (closeListener σ.sock).2
    · rw [hσ]; exact record_idCounter σ (closeListener σ.sock).1 (closeListener σ.sock).2
    · rw [hσ]; exact record_nextP σ (closeListener σ.sock).1 (closeListener σ.sock).2
    · rw [hσ]; exact record_trace σ (closeListener σ.sock).1 (closeListener σ.sock).2
    · intro p hp
      rw [hσ] at hp
      rcases record_settledOk_sub σ (closeListener σ.sock).1
        (closeListener σ.sock).2 p hp with h2 | ⟨v, hv⟩
      · exact .inl h2
      · rcases closeListener_events σ.sock _ hv with ⟨p2, hrc, hd⟩ | ⟨cb, hd⟩ | hd | hd
        · injection hd with hd2 hd3
          rw [← hd2] at hrc
          exact .inr hrc
        · exact Event.noConfusion hd
        · exact Event.noConfusion hd
        · exact Event.noConfusion hd
    · intro p hp
      rw [hσ] at hp
      rcases record_settledErr_sub σ (closeListener σ.sock).1
        (closeListener σ.sock).2 p hp with h2 | hv
      · exact h2
      · rcases closeListener_events σ.sock _ hv with ⟨p2, _, hd⟩ | ⟨cb, hd⟩ | hd | hd
        · exact Event.noConfusion hd
        · exact Event.noConfusion hd
        · exact Event.noConfusion hd
        · exact Event.noConfusion hd
    · intro k hk
      rw [hσ] at hk
      rcases record_sentIds_sub σ (closeListener σ.sock).1
        (closeListener σ.sock).2 k hk with h2 | ⟨w2, f, hv, _⟩
      · exact h2
      · rcases closeListener_events σ.sock _ hv with ⟨p2, _, hd⟩ | ⟨cb, hd⟩ | hd | hd
        · exact Event.noConfusion hd
        · exact Event.noConfusion hd
        · exact Event.noConfusion hd
        · exact Event.noConfusion hd
  · rw [show step σ (.wsCloseEv w) = none from by simp [step, hf]] at h
    exact Option.noConfusion h

theorem step_wsMessage_ok_fields (σ σ' : Sys) (w : Nat) (res : JSValue)
    (r2 : SocketState × List Event) (hml : messageListener σ.sock res = .ok r2)
    (h : step σ (.wsMessageEv w res) = some σ') :
    σ'.sock = r2.1
    ∧ σ'.attempts = σ.attempts ∧ σ'.tasks = σ.tasks
    ∧ σ'.idCounter = σ.idCounter ∧ σ'.nextP = σ.nextP
    ∧ σ'.trace = σ.trace ++ r2.2
    ∧ (∀ p ∈ σ'.settledOk, p ∈ σ.settledOk
        ∨ ∃ k, replyKey res = some k ∧ rlookup σ.sock.queue k = some p)
    ∧ (∀ p ∈ σ'.settledErr, p ∈ σ.settledErr)
    ∧ (∀ k ∈ σ'.sentIds, k ∈ σ.sentIds) := by
  by_cases hf : (σ.attempts.find? (fun a => a.wsId == w)).isSome
  · have hσ : σ' = record σ r2.1 r2.2 := by
      rw [show step σ (.wsMessageEv w res) = some (record σ r2.1 r2.2) from by
        simp [step, hf, hml]] at h
      injection h with h3
      exact h3.symm
    have hmi := messageListener_ok_inv σ.sock res r2.1 r2.2 hml
    refine ⟨?_, ?_, ?_, ?_, ?_, ?_, ?_, ?_, ?_⟩
    · rw [hσ]; rfl
    · rw [hσ]; exact record_attempts σ r2.1 r2.2
    · rw [hσ]; exact record_tasks σ r2.1 r2.2
    · rw [hσ]; exact record_idCounter σ r2.1 r2.2
    · rw [hσ]; exact record_nextP σ r2.1 r2.2
    · rw [hσ]; exact record_trace σ r2.1 r2.2
    · intro p hp
      rw [hσ] at hp
      rcases record_settledOk_sub σ r2.1 r2.2 p hp with h2 | ⟨v, hv⟩
      · exact .inl h2
      · rcases hmi.2.2.2.2 _ hv with ⟨cb, d, hd⟩ | ⟨k2, p2, hrk, hlk, hd⟩
        · exact Event.noConfusion hd
        · injection hd with hd2 hd3
          rw [← hd2] at hlk
          exact .inr ⟨k2, hrk, hlk⟩
    · intro p hp
      rw [hσ] at hp
      rcases record_settledErr_sub σ r2.1 r2.2 p hp with h2 | hv
      · exact h2
      · rcases hmi.2.2.2.2 _ hv with ⟨cb, d, hd⟩ | ⟨k2, p2, _, _, hd⟩
        · exact Event.noConfusion hd
        · exact Event.noConfusion hd
    · intro k hk
      rw [hσ] at hk
      rcases record_sentIds_sub σ r2.1 r2.2 k hk with h2 | ⟨w2, f, hv, _⟩
      · exact h2
      · rcases hmi.2.2.2.2 _ hv with ⟨cb, d, hd⟩ | ⟨k2, p2, _, _, hd⟩
        · exact Event.noConfusion hd
        · exact Event.noConfusion hd
  · rw [show step σ (.wsMessageEv w res) = none from by simp [step, hf]] at h
    exact Option.noConfusion h

theorem step_wsMessage_err_fields (σ σ' : Sys) (w : Nat) (res : JSValue) (msg : String)
    (hml : messageListener σ.sock res = .error msg)
    (h : step σ (.wsMessageEv w res) = some σ') :
    σ'.sock = σ.sock
    ∧ σ'.attempts = σ.attempts ∧ σ'.tasks = σ.tasks
    ∧ σ'.idCounter = σ.idCounter ∧ σ'.nextP = σ.nextP
    ∧ (∀ p ∈ σ'.settledOk, p ∈ σ.settledOk)
    ∧ (∀ p ∈ σ'.settledErr, p ∈ σ.settledErr)
    ∧ (∀ k ∈ σ'.sentIds, k ∈ σ.sentIds) := by
  by_cases hf : (σ.attempts.find? (fun a => a.wsId == w)).isSome
  · have hσ : σ' = record σ σ.sock [.uncaughtError msg] := by
      rw [show step σ (.wsMessageEv w res)
        = some (record σ σ.sock [.uncaughtError msg]) from by
          simp [step, hf, hml]] at h
      injection h with h3
      exact h3.symm
    refine ⟨?_, ?_, ?_, ?_, ?_, ?_, ?_, ?_⟩
    · rw [hσ]; rfl
    · rw [hσ]; exact record_attempts σ σ.sock [Event.uncaughtError msg]
    · rw [hσ]; exact record_tasks σ σ.sock [Event.uncaughtError msg]
    · rw [hσ]; exact record_idCounter σ σ.sock [Event.uncaughtError msg]
    · rw [hσ]; exact record_nextP σ σ.sock [Event.uncaughtError msg]
    · intro p hp
      rw [hσ] at hp
      rcases record_settledOk_sub σ σ.sock [.uncaughtError msg] p hp with h2 | ⟨v, hv⟩
      · exact h2
      · rcases List.mem_singleton.mp hv with h9
        exact Event.noConfusion h9
    · intro p hp
      rw [hσ] at hp
      rcases record_settledErr_sub σ σ.sock [.uncaughtError msg] p hp with h2 | hv
      · exact h2
      · rcases List.mem_singleton.mp hv with h9
        exact Event.noConfusion h9
    · intro k hk
      rw [hσ] at hk
      rcases record_sentIds_sub σ σ.sock [.uncaughtError msg] k hk with h2 | ⟨w2, f, hv, _⟩
      · exact h2
      · rcases List.mem_singleton.mp hv with h9
        exact Event.noConfusion h9
  · rw [show step σ (.wsMessageEv w res) = none from by simp [step, hf]] at h
    exact Option.noConfusion h

theorem runSend_fields (σ : Sys) (m : String) (ps : List JSValue) (kf : Option String) :
    (runSend σ m ps kf).sock
      = (sendBody σ.sock m ps (Nat.repr (σ.idCounter + 1)) σ.nextP).1
    ∧ (runSend σ m ps kf).attempts = σ.attempts
    ∧ (runSend σ m ps kf).idCounter = σ.idCounter + 1
    ∧ (runSend σ m ps kf).nextP = σ.nextP + 1
    ∧ (runSend σ m ps kf).trace
      = σ.trace ++ (sendBody σ.sock m ps (Nat.repr (σ.idCounter + 1)) σ.nextP).2
    ∧ (∀ p ∈ (runSend σ m ps kf).settledOk, p ∈ σ.settledOk)
    ∧ (∀ p ∈ (runSend σ m ps kf).settledErr, p ∈ σ.settledErr)
    ∧ (∀ k ∈ (runSend σ m ps kf).sentIds,
        k ∈ σ.sentIds ∨ k = Nat.repr (σ.idCounter + 1))
    ∧ (∀ t ∈ (runSend σ m ps kf).tasks,
        t ∈ σ.tasks ∨ ∃ q, kf = some q ∧ t = .killCleanupT σ.nextP q) := by
  have hsb := sendBody_state σ.sock m ps (Nat.repr (σ.idCounter + 1)) σ.nextP
  refine ⟨?_, ?_, ?_, ?_, ?_, ?_, ?_, ?_, ?_⟩
  · cases kf <;> rfl
  · cases kf <;>
      exact record_attempts σ (sendBody σ.sock m ps (Nat.repr (σ.idCounter + 1)) σ.nextP).1
        (sendBody σ.sock m ps (Nat.repr (σ.idCounter + 1)) σ.nextP).2
  · cases kf <;> rfl
  · cases kf <;> rfl
  · cases kf <;>
      exact record_trace σ (sendBody σ.sock m ps (Nat.repr (σ.idCounter + 1)) σ.nextP).1
        (sendBody σ.sock m ps (Nat.repr (σ.idCounter + 1)) σ.nextP).2
  · intro p hp
    have hp2 : p ∈ (record σ (sendBody σ.sock m ps (Nat.repr (σ.idCounter + 1)) σ.nextP).1
        (sendBody σ.sock m ps (Nat.repr (σ.idCounter + 1)) σ.nextP).2).settledOk := by
      cases kf <;> exact hp
    rcases record_settledOk_sub _ _ _ p hp2 with h | ⟨v, hv⟩
    · exact h
    · obtain ⟨w, _, hw⟩ := hsb.2.2.2.2.2.2 _ hv
      exact Event.noConfusion hw
  · intro p hp
    have hp2 : p ∈ (record σ (sendBody σ.sock m ps (Nat.repr (σ.idCounter + 1)) σ.nextP).1
        (sendBody σ.sock m ps (Nat.repr (σ.idCounter + 1)) σ.nextP).2).settledErr := by
      cases kf <;> exact hp
    rcases record_settledErr_sub _ _ _ p hp2 with h | hv
    · exact h
    · obtain ⟨w, _, hw⟩ := hsb.2.2.2.2.2.2 _ hv
      exact Event.noConfusion hw
  · intro k hk
    have hk2 : k ∈ (record σ (sendBody σ.sock m ps (Nat.repr (σ.idCounter + 1)) σ.nextP).1
        (sendBody σ.sock m ps (Nat.repr (σ.idCounter + 1)) σ.nextP).2).sentIds := by
      cases kf <;> exact hk
    rcases record_sentIds_sub _ _ _ k hk2 with h | ⟨w, f, hwf2, hfid⟩
    · exact .inl h
    · obtain ⟨w2, _, hw⟩ := hsb.2.2.2.2.2.2 _ hwf2
      right
      injection hw with hww hwf3
      rw [hwf3] at hfid
      rw [show frameId (JSValue.obj [("id", .str (Nat.repr (σ.idCounter + 1))),
          ("method", .str m), ("params", .arr ps)])
        = some (Nat.repr (σ.idCounter + 1)) from rfl] at hfid
      injection hfid with h9
      exact h9.symm
  · intro t ht
    cases kf with
    | none =>
      left
      have ht2 : t ∈ (record σ (sendBody σ.sock m ps (Nat.repr (σ.idCounter + 1)) σ.nextP).1
          (sendBody σ.sock m ps (Nat.repr (σ.idCounter + 1)) σ.nextP).2).tasks := ht
      rwa [record_tasks] at ht2
    | some q =>
      have ht2 : t ∈ (record σ (sendBody σ.sock m ps (Nat.repr (σ.idCounter + 1)) σ.nextP).1
          (sendBody σ.sock m ps (Nat.repr (σ.idCounter + 1)) σ.nextP).2).tasks
          ++ [STask.killCleanupT σ.nextP q] := ht
      rw [record_tasks] at ht2
      rcases List.mem_append.mp ht2 with h | h
      · exact .inl h
      · exact .inr ⟨q, rfl, List.mem_singleton.mp h⟩

theorem WfP_step (σ σ' : Sys) (l : Label) (hwf : WfP σ) (hstep : step σ l = some σ') :
    WfP σ' := by
  cases l with
  | uOpen =>
    rw [show step σ .uOpen = some (openCall σ) from rfl] at hstep
    injection hstep with h
    subst h
    exact WfP_openCall σ hwf
  | timerFire =>
    by_cases hpt : σ.pendingTimers > 0
    · rw [show step σ .timerFire
        = some { openCall σ with pendingTimers := σ.pendingTimers - 1 } from by
          simp [step, hpt]] at hstep
      injection hstep with h
      subst h
      exact WfP_openCall σ hwf
    · rw [show step σ .timerFire = none from by simp [step, hpt]] at hstep
      exact Option.noConfusion hstep
  | uClose r =>
    obtain ⟨hq, hatt, htk, hic, hnp, _, hok, herr, hsent⟩ :=
      step_uClose_fields σ σ' r hstep
    obtain ⟨h1, h2, h3, h4, h5, h6, h7, h8⟩ := hwf
    have hcs := closeSync_state σ.sock r σ.nextP
    refine ⟨?_, ?_, ?_, ?_, ?_, ?_, ?_, ?_⟩
    · intro kv hkv
      rw [hq, hcs.2.2.1] at hkv
      rw [hic, hnp]
      obtain ⟨hj, hb⟩ := h1 kv hkv
      exact ⟨hj, by omega⟩
    · intro k hk
      rw [hic]
      exact h2 k (hsent k hk)
    · intro a ha
      rw [hatt] at ha
      rw [hnp]
      have := h3 a ha
      omega
    · intro p hp
      rw [hq, hcs.2.1] at hp
      injection hp with hp2
      rw [hnp, ← hp2]
      omega
    · intro p hp
      rw [hq, hcs.2.2.2.2.2.2.1] at hp
      rw [hnp]
      have := h5 p hp
      omega
    · intro t ht
      rw [htk] at ht
      rw [hnp]
      exact taskBound_mono (by omega) t (h6 t ht)
    · intro p hp
      rw [hnp]
      have := h7 p (hok p hp)
      omega
    · intro p hp
      rw [hnp]
      have := h8 p (herr p hp)
      omega
  | uSend m ps =>
    rw [show step σ (.uSend m ps)
      = some { σ with tasks := σ.tasks ++ [.sendT m ps σ.sock.ready none] } from rfl]
      at hstep
    injection hstep with h
    subst h
    obtain ⟨h1, h2, h3, h4, h5, h6, h7, h8⟩ := hwf
    refine ⟨h1, h2, h3, h4, h5, ?_, h7, h8⟩
    intro t ht
    replace ht : t ∈ σ.tasks ++ [.sendT m ps σ.sock.ready none] := ht
    rcases List.mem_append.mp ht with h | h
    · exact h6 t h
    · rcases List.mem_singleton.mp h with rfl
      show taskBound σ.nextP (.sendT m ps σ.sock.ready none)
      cases hrd : σ.sock.ready with
      | none => trivial
      | some rp => exact h5 rp hrd
  | uListenLive q cb =>
    obtain ⟨hq, hatt, htk, hic, hnp, _, hok, herr, hsent⟩ :=
      step_uListenLive_fields σ σ' q cb hstep
    obtain ⟨h1, h2, h3, h4, h5, h6, h7, h8⟩ := hwf
    have hls := listenLive_state σ.sock q cb
    refine ⟨?_, ?_, ?_, ?_, ?_, ?_, ?_, ?_⟩
    · intro kv hkv
      rw [hq, hls.1] at hkv
      rw [hic, hnp]
      exact h1 kv hkv
    · intro k hk
      rw [hic]
      exact h2 k (hsent k hk)
    · intro a ha
      rw [hatt] at ha
      rw [hnp]
      exact h3 a ha
    · intro p hp
      rw [hq, hls.2.2.1] at hp
      rw [hnp]
      exact h4 p hp
    · intro p hp
      rw [hq, hls.2.2.2.1] at hp
      rw [hnp]
      exact h5 p hp
    · intro t ht
      rw [htk] at ht
      rw [hnp]
      exact h6 t ht
    · intro p hp
      rw [hnp]
      exact h7 p (hok p hp)
    · intro p hp
      rw [hnp]
      exact h8 p (herr p hp)
  | uKill q =>
    obtain ⟨hq, hatt, htk, hic, hnp, _, hok, herr, hsent⟩ :=
      step_uKill_fields σ σ' q hstep
    obtain ⟨h1, h2, h3, h4, h5, h6, h7, h8⟩ := hwf
    have hkp := killPhase1_state σ.sock q
    refine ⟨?_, ?_, ?_, ?_, ?_, ?_, ?_, ?_⟩
    · intro kv hkv
      rw [hq, hkp.1] at hkv
      rw [hic, hnp]
      exact h1 kv hkv
    · intro k hk
      rw [hic]
      exact h2 k (hsent k hk)
    · intro a ha
      rw [hatt] at ha
      rw [hnp]
      exact h3 a ha
    · intro p hp
      rw [hq, hkp.2.2.2.1] at hp
      rw [hnp]
      exact h4 p hp
    · intro p hp
      rw [hq, hkp.2.2.2.2.1] at hp
      rw [hnp]
      exact h5 p hp
    · intro t ht
      rw [htk] at ht
      rw [hnp]
      rcases List.mem_append.mp ht with h | h
      · exact h6 t h
      · rcases List.mem_singleton.mp h with rfl
        show taskBound σ.nextP (.sendT "kill" [.str q] σ.sock.ready (some q))
        cases hrd : σ.sock.ready with
        | none => trivial
        | some rp => exact h5 rp hrd
    · intro p hp
      rw [hnp]
      exact h7 p (hok p hp)
    · intro p hp
      rw [hnp]
      exact h8 p (herr p hp)
  | wsOpenEv w =>
    cases hf : σ.attempts.find? (fun a => a.wsId == w) with
    | none =>
      rw [show step σ (.wsOpenEv w) = none from by simp [step, hf]] at hstep
      exact Option.noConfusion hstep
    | some a =>
      obtain ⟨hq, hatt, htk, hic, hnp, hok, herr, hsent⟩ :=
        step_wsOpen_fields σ σ' w a hf hstep
      obtain ⟨h1, h2, h3, h4, h5, h6, h7, h8⟩ := hwf
      have hpa : a.readyP < σ.nextP := h3 a (List.mem_of_find?_eq_some hf)
      refine ⟨?_, ?_, ?_, ?_, ?_, ?_, ?_, ?_⟩
      · intro kv hkv
        rw [hq] at hkv
        rw [hic, hnp]
        exact h1 kv hkv
      · intro k hk
        rw [hic]
        exact h2 k (hsent k hk)
      · intro b hb
        obtain ⟨a2, ha2, he⟩ := hatt b hb
        rw [hnp, he]
        exact h3 a2 ha2
      · intro p hp
        rw [hq] at hp
        rw [hnp]
        exact h4 p hp
      · intro p hp
        rw [hq] at hp
        rw [hnp]
        exact h5 p hp
      · intro t ht
        rw [htk] at ht
        rw [hnp]
        exact h6 t ht
      · intro p hp
        rw [hnp]
        rcases hok p hp with h | h
        · exact h7 p h
        · rw [h]
          exact hpa
      · intro p hp
        rw [hnp]
        exact h8 p (herr p hp)
  | wsErrorEv w =>
    cases hf : σ.attempts.find? (fun a => a.wsId == w) with
    | none =>
      rw [show step σ (.wsErrorEv w) = none from by simp [step, hf]] at hstep
      exact Option.noConfusion hstep
    | some a =>
      obtain ⟨hq, hatt, htk, hic, hnp, hok, herr, hsent⟩ :=
        step_wsError_fields σ σ' w a hf hstep
      obtain ⟨h1, h2, h3, h4, h5, h6, h7, h8⟩ := hwf
      have hpa : a.readyP < σ.nextP := h3 a (List.mem_of_find?_eq_some hf)
      refine ⟨?_, ?_, ?_, ?_, ?_, ?_, ?_, ?_⟩
      · intro kv hkv
        rw [hq] at hkv
        rw [hic, hnp]
        exact h1 kv hkv
      · intro k hk
        rw [hic]
        exact h2 k (hsent k hk)
      · intro b hb
        obtain ⟨a2, ha2, he⟩ := hatt b hb
        rw [hnp, he]
        exact h3 a2 ha2
      · intro p hp
        rw [hq] at hp
        rw [hnp]
        exact h4 p hp
      · intro p hp
        rw [hq] at hp
        rw [hnp]
        exact h5 p hp
      · intro t ht
        rw [htk] at ht
        rw [hnp]
        exact h6 t ht
      · intro p hp
        rw [hnp]
        exact h7 p (hok p hp)
      · intro p hp
        rw [hnp]
        rcases herr p hp with h | h
        · exact h8 p h
        · rw [h]
          exact hpa
  | wsCloseEv w =>
    obtain ⟨hq, hatt, htk, hic, hnp, _, hok, herr, hsent⟩ :=
      step_wsClose_fields σ σ' w hstep
    obtain ⟨h1, h2, h3, h4, h5, h6, h7, h8⟩ := hwf
    have hcl := closeListener_state σ.sock
    refine ⟨?_, ?_, ?_, ?_, ?_, ?_, ?_, ?_⟩
    · intro kv hkv
      rw [hq, hcl.1] at hkv
      exact absurd hkv (List.not_mem_nil kv)
    · intro k hk
      rw [hic]
      exact h2 k (hsent k hk)
    · intro a ha
      rw [hatt] at ha
      rw [hnp]
      exact h3 a ha
    · intro p hp
      rw [hq, hcl.2.2.2.2.1] at hp
      rw [hnp]
      exact h4 p hp
    · intro p hp
      rw [hq, hcl.2.2.2.2.2] at hp
      rw [hnp]
      exact h5 p hp
    · intro t ht
      rw [htk] at ht
      rw [hnp]
      exact h6 t ht
    · intro p hp
      rw [hnp]
      rcases hok p hp with h | h
      · exact h7 p h
      · exact h4 p h
    · intro p hp
      rw [hnp]
      exact h8 p (herr p hp)
  | wsMessageEv w res =>
    cases hml : messageListener σ.sock res with
    | error msg =>
      obtain ⟨hq, hatt, htk, hic, hnp, hok, herr, hsent⟩ :=
        step_wsMessage_err_fields σ σ' w res msg hml hstep
      obtain ⟨h1, h2, h3, h4, h5, h6, h7, h8⟩ := hwf
      refine ⟨?_, ?_, ?_, ?_, ?_, ?_, ?_, ?_⟩
      · intro kv hkv
        rw [hq] at hkv
        rw [hic, hnp]
        exact h1 kv hkv
      · intro k hk
        rw [hic]
        exact h2 k (hsent k hk)
      · intro a ha
        rw [hatt] at ha
        rw [hnp]
        exact h3 a ha
      · intro p hp
        rw [hq] at hp
        rw [hnp]
        exact h4 p hp
      · intro p hp
        rw [hq] at hp
        rw [hnp]
        exact h5 p hp
      · intro t ht
        rw [htk] at ht
        rw [hnp]
        exact h6 t ht
      · intro p hp
        rw [hnp]
        exact h7 p (hok p hp)
      · intro p hp
        rw [hnp]
        exact h8 p (herr p hp)
    | ok r2 =>
      obtain ⟨hq, hatt, htk, hic, hnp, _, hok, herr, hsent⟩ :=
        step_wsMessage_ok_fields σ σ' w res r2 hml hstep
      obtain ⟨h1, h2, h3, h4, h5, h6, h7, h8⟩ := hwf
      have hmi := messageListener_ok_inv σ.sock res r2.1 r2.2 hml
      refine ⟨?_, ?_, ?_, ?_, ?_, ?_, ?_, ?_⟩
      · intro kv hkv
        rw [hq] at hkv
        rw [hic, hnp]
        exact h1 kv (hmi.1 kv hkv)
      · intro k hk
        rw [hic]
        exact h2 k (hsent k hk)
      · intro a ha
        rw [hatt] at ha
        rw [hnp]
        exact h3 a ha
      · intro p hp
        rw [hq, hmi.2.2.1] at hp
        rw [hnp]
        exact h4 p hp
      · intro p hp
        rw [hq, hmi.2.2.2.1] at hp
        rw [hnp]
        exact h5 p hp
      · intro t ht
        rw [htk] at ht
        rw [hnp]
        exact h6 t ht
      · intro p hp
        rw [hnp]
        rcases hok p hp with h | ⟨k2, _, hlk⟩
        · exact h7 p h
        · exact (h1 _ (rlookup_mem hlk)).2
      · intro p hp
        rw [hnp]
        exact h8 p (herr p hp)
  | runTask i =>
    cases hget : σ.tasks[i]? with
    | none =>
      rw [show step σ (.runTask i) = none from by simp [step, hget]] at hstep
      exact Option.noConfusion hstep
    | some t =>
      cases t with
      | sendT m ps waitOn kf =>
        cases waitOn with
        | none =>
          rw [show step σ (.runTask i)
            = some (runSend (removeTask σ i) m ps kf) from by simp [step, hget]] at hstep
          injection hstep with h
          subst h
          exact WfP_runSend _ m ps kf (WfP_removeTask σ i hwf)
        | some r =>
          by_cases hok : r ∈ σ.settledOk
          · rw [show step σ (.runTask i)
              = some (runSend (removeTask σ i) m ps kf) from by
                simp [step, hget, hok]] at hstep
            injection hstep with h
            subst h
            exact WfP_runSend _ m ps kf (WfP_removeTask σ i hwf)
          · by_cases herr : r ∈ σ.settledErr
            · rw [show step σ (.runTask i) = some (removeTask σ i) from by
                simp [step, hget, hok, herr]] at hstep
              injection hstep with h
              subst h
              exact WfP_removeTask σ i hwf
            · rw [show step σ (.runTask i) = none from by
                simp [step, hget, hok, herr]] at hstep
              exact Option.noConfusion hstep
      | killCleanupT p q =>
        by_cases hok : p ∈ σ.settledOk
        · rw [show step σ (.runTask i)
            = some { removeTask σ i with sock := killPhase2 (removeTask σ i).sock q }
            from by simp [step, hget, hok]] at hstep
          injection hstep with h
          subst h
          exact WfP_killCleanup (removeTask σ i) q (WfP_removeTask σ i hwf)
        · rw [show step σ (.runTask i) = none from by simp [step, hget, hok]] at hstep
          exact Option.noConfusion hstep


/-! ## Isolation of promises that nothing can resolve -/

theorem openCall_fields (σ : Sys) :
    (openCall σ).sock.queue = σ.sock.queue
    ∧ (openCall σ).sock.resolveClosed = some σ.nextP
    ∧ (openCall σ).sock.ready = some (σ.nextP + 1)
    ∧ (openCall σ).attempts = σ.attempts ++ [⟨σ.nextWs, σ.nextP + 1, false⟩]
    ∧ (openCall σ).tasks = σ.tasks
    ∧ (openCall σ).idCounter = σ.idCounter
    ∧ (openCall σ).nextP = σ.nextP + 2
    ∧ (∀ p ∈ (openCall σ).settledOk, p ∈ σ.settledOk)
    ∧ (∀ p ∈ (openCall σ).settledErr, p ∈ σ.settledErr)
    ∧ (∀ k ∈ (openCall σ).sentIds, k ∈ σ.sentIds) := by
  have hos := openSync_state σ.sock σ.nextP (σ.nextP + 1) σ.nextWs
  refine ⟨?_, ?_, ?_, ?_, ?_, ?_, ?_, ?_, ?_, ?_⟩
  · exact hos.2.2.1
  · exact hos.2.1
  · exact hos.2.2.2.2.1
  · show (record σ (openSync σ.sock σ.nextP (σ.nextP + 1) σ.nextWs).1
      (openSync σ.sock σ.nextP (σ.nextP + 1) σ.nextWs).2).attempts ++ _ = _
    rw [record_attempts]
  · exact record_tasks σ (openSync σ.sock σ.nextP (σ.nextP + 1) σ.nextWs).1
      (openSync σ.sock σ.nextP (σ.nextP + 1) σ.nextWs).2
  · exact record_idCounter σ (openSync σ.sock σ.nextP (σ.nextP + 1) σ.nextWs).1
      (openSync σ.sock σ.nextP (σ.nextP + 1) σ.nextWs).2
  · rfl
  · intro p hp
    rcases record_settledOk_sub σ (openSync σ.sock σ.nextP (σ.nextP + 1) σ.nextWs).1
      (openSync σ.sock σ.nextP (σ.nextP + 1) σ.nextWs).2 p hp with h | ⟨v, hv⟩
    · exact h
    · rcases hos.2.2.2.2.2 _ hv with ⟨w2, hw⟩ | hw
      · exact Event.noConfusion hw
      · exact Event.noConfusion hw
  · intro p hp
    rcases record_settledErr_sub σ (openSync σ.sock σ.nextP (σ.nextP + 1) σ.nextWs).1
      (openSync σ.sock σ.nextP (σ.nextP + 1) σ.nextWs).2 p hp with h | hv
    · exact h
    · rcases hos.2.2.2.2.2 _ hv with ⟨w2, hw⟩ | hw
      · exact Event.noConfusion hw
      · exact Event.noConfusion hw
  · intro k hk
    rcases record_sentIds_sub σ (openSync σ.sock σ.nextP (σ.nextP + 1) σ.nextWs).1
      (openSync σ.sock σ.nextP (σ.nextP + 1) σ.nextWs).2 k hk with h | ⟨w2, f, hv, _⟩
    · exact h
    · rcases hos.2.2.2.2.2 _ hv with ⟨w3, hw⟩ | hw
      · exact Event.noConfusion hw
      · exact Event.noConfusion hw

theorem step_wsClose_enabled (σ σ' : Sys) (w : Nat)
    (h : step σ (.wsCloseEv w) = some σ') :
    (σ.attempts.find? (fun a => a.wsId == w)).isSome = true := by
  by_cases hf : (σ.attempts.find? (fun a => a.wsId == w)).isSome
  · exact hf
  · rw [show step σ (.wsCloseEv w) = none from by simp [step, hf]] at h
    exact Option.noConfusion h

theorem closedIsolated_openCall (σ : Sys) (p : Nat) (hinv : closedIsolated σ p) :
    closedIsolated (openCall σ) p := by
  obtain ⟨i1, i2, i3, i4, i5, i6⟩ := hinv
  have hoc := openCall_fields σ
  refine ⟨?_, ?_, ?_, ?_, ?_, ?_⟩
  · intro hp
    exact i1 (hoc.2.2.2.2.2.2.2.1 p hp)
  · intro hp
    exact i2 (hoc.2.2.2.2.2.2.2.2.1 p hp)
  · rw [hoc.2.2.2.2.2.2.1]
    omega
  · intro hrc
    rw [hoc.2.1] at hrc
    injection hrc with hrc2
    omega
  · intro a ha
    rw [hoc.2.2.2.1] at ha
    rcases List.mem_append.mp ha with h | h
    · exact i5 a h
    · rcases List.mem_singleton.mp h with rfl
      show σ.nextP + 1 ≠ p
      omega
  · intro kv hkv
    rw [hoc.1] at hkv
    exact i6 kv hkv

theorem closedIsolated_step (σ σ' : Sys) (l : Label) (p : Nat)
    (hwf : WfP σ) (hinv : closedIsolated σ p) (hstep : step σ l = some σ') :
    closedIsolated σ' p := by
  obtain ⟨i1, i2, i3, i4, i5, i6⟩ := hinv
  cases l with
  | uOpen =>
    rw [show step σ .uOpen = some (openCall σ) from rfl] at hstep
    injection hstep with h
    subst h
    exact closedIsolated_openCall σ p ⟨i1, i2, i3, i4, i5, i6⟩
  | timerFire =>
    by_cases hpt : σ.pendingTimers > 0
    · rw [show step σ .timerFire
        = some { openCall σ with pendingTimers := σ.pendingTimers - 1 } from by
          simp [step, hpt]] at hstep
      injection hstep with h
      subst h
      exact closedIsolated_openCall σ p ⟨i1, i2, i3, i4, i5, i6⟩
    · rw [show step σ .timerFire = none from by simp [step, hpt]] at hstep
      exact Option.noConfusion hstep
  | uClose r =>
    obtain ⟨hq, hatt, htk, hic, hnp, _, hok, herr, hsent⟩ :=
      step_uClose_fields σ σ' r hstep
    have hcs := closeSync_state σ.sock r σ.nextP
    refine ⟨?_, ?_, ?_, ?_, ?_, ?_⟩
    · intro hp
      exact i1 (hok p hp)
    · intro hp
      exact i2 (herr p hp)
    · rw [hnp]
      omega
    · intro hrc
      rw [hq, hcs.2.1] at hrc
      injection hrc with hrc2
      omega
    · intro a ha
      rw [hatt] at ha
      exact i5 a ha
    · intro kv hkv
      rw [hq, hcs.2.2.1] at hkv
      exact i6 kv hkv
  | uSend m ps =>
    rw [show step σ (.uSend m ps)
      = some { σ with tasks := σ.tasks ++ [.sendT m ps σ.sock.ready none] } from rfl]
      at hstep
    injection hstep with h
    subst h
    exact ⟨i1, i2, i3, i4, i5, i6⟩
  | uListenLive q cb =>
    obtain ⟨hq, hatt, htk, hic, hnp, _, hok, herr, hsent⟩ :=
      step_uListenLive_fields σ σ' q cb hstep
    have hls := listenLive_state σ.sock q cb
    refine ⟨?_, ?_, ?_, ?_, ?_, ?_⟩
    · intro hp
      exact i1 (hok p hp)
    · intro hp
      exact i2 (herr p hp)
    · rw [hnp]
      exact i3
    · intro hrc
      rw [hq, hls.2.2.1] at hrc
      rw [hatt]
      exact i4 hrc
    · intro a ha
      rw [hatt] at ha
      exact i5 a ha
    · intro kv hkv
      rw [hq, hls.1] at hkv
      exact i6 kv hkv
  | uKill q =>
    obtain ⟨hq, hatt, htk, hic, hnp, _, hok, herr, hsent⟩ :=
      step_uKill_fields σ σ' q hstep
    have hkp := killPhase1_state σ.sock q
    refine ⟨?_, ?_, ?_, ?_, ?_, ?_⟩
    · intro hp
      exact i1 (hok p hp)
    · intro hp
      exact i2 (herr p hp)
    · rw [hnp]
      exact i3
    · intro hrc
      rw [hq, hkp.2.2.2.1] at hrc
      rw [hatt]
      exact i4 hrc
    · intro a ha
      rw [hatt] at ha
      exact i5 a ha
    · intro kv hkv
      rw [hq, hkp.1] at hkv
      exact i6 kv hkv
  | wsOpenEv w =>
    cases hf : σ.attempts.find? (fun a => a.wsId == w) with
    | none =>
      rw [show step σ (.wsOpenEv w) = none from by simp [step, hf]] at hstep
      exact Option.noConfusion hstep
    | some a =>
      obtain ⟨hq, hatt, htk, hic, hnp, hok, herr, hsent⟩ :=
        step_wsOpen_fields σ σ' w a hf hstep
      have hane : a.readyP ≠ p := i5 a (List.mem_of_find?_eq_some hf)
      refine ⟨?_, ?_, ?_, ?_, ?_, ?_⟩
      · intro hp
        rcases hok p hp with h | h
        · exact i1 h
        · exact hane h.symm
      · intro hp
        exact i2 (herr p hp)
      · rw [hnp]
        exact i3
      · intro hrc
        rw [hq] at hrc
        have hnil := i4 hrc
        rw [hnil] at hf
        exact Option.noConfusion hf
      · intro b hb
        obtain ⟨a2, ha2, he⟩ := hatt b hb
        rw [he]
        exact i5 a2 ha2
      · intro kv hkv
        rw [hq] at hkv
        exact i6 kv hkv
  | wsErrorEv w =>
    cases hf : σ.attempts.find? (fun a => a.wsId == w) with
    | none =>
      rw [show step σ (.wsErrorEv w) = none from by simp [step, hf]] at hstep
      exact Option.noConfusion hstep
    | some a =>
      obtain ⟨hq, hatt, htk, hic, hnp, hok, herr, hsent⟩ :=
        step_wsError_fields σ σ' w a hf hstep
      have hane : a.readyP ≠ p := i5 a (List.mem_of_find?_eq_some hf)
      refine ⟨?_, ?_, ?_, ?_, ?_, ?_⟩
      · intro hp
        exact i1 (hok p hp)
      · intro hp
        rcases herr p hp with h | h
        · exact i2 h
        · exact hane h.symm
      · rw [hnp]
        exact i3
      · intro hrc
        rw [hq] at hrc
        have hnil := i4 hrc
        rw [hnil] at hf
        exact Option.noConfusion hf
      · intro b hb
        obtain ⟨a2, ha2, he⟩ := hatt b hb
        rw [he]
        exact i5 a2 ha2
      · intro kv hkv
        rw [hq] at hkv
        exact i6 kv hkv
  | wsCloseEv w =>
    have hen := step_wsClose_enabled σ σ' w hstep
    obtain ⟨hq, hatt, htk, hic, hnp, _, hok, herr, hsent⟩ :=
      step_wsClose_fields σ σ' w hstep
    have hcl := closeListener_state σ.sock
    refine ⟨?_, ?_, ?_, ?_, ?_, ?_⟩
    · intro hp
      rcases hok p hp with h | h
      · exact i1 h
      · have hnil := i4 h
        rw [hnil] at hen
        exact Bool.noConfusion hen
    · intro hp
      exact i2 (herr p hp)
    · rw [hnp]
      exact i3
    · intro hrc
      rw [hq, hcl.2.2.2.2.1] at hrc
      rw [hatt]
      exact i4 hrc
    · intro a ha
      rw [hatt] at ha
      exact i5 a ha
    · intro kv hkv
      rw [hq, hcl.1] at hkv
      exact absurd hkv (List.not_mem_nil kv)
  | wsMessageEv w res =>
    cases hml : messageListener σ.sock res with
    | error msg =>
      obtain ⟨hq, hatt, htk, hic, hnp, hok, herr, hsent⟩ :=
        step_wsMessage_err_fields σ σ' w res msg hml hstep
      refine ⟨?_, ?_, ?_, ?_, ?_, ?_⟩
      · intro hp
        exact i1 (hok p hp)
      · intro hp
        exact i2 (herr p hp)
      · rw [hnp]
        exact i3
      · intro hrc
        rw [hq] at hrc
        rw [hatt]
        exact i4 hrc
      · intro a ha
        rw [hatt] at ha
        exact i5 a ha
      · intro kv hkv
        rw [hq] at hkv
        exact i6 kv hkv
    | ok r2 =>
      obtain ⟨hq, hatt, htk, hic, hnp, _, hok, herr, hsent⟩ :=
        step_wsMessage_ok_fields σ σ' w res r2 hml hstep
      have hmi := messageListener_ok_inv σ.sock res r2.1 r2.2 hml
      refine ⟨?_, ?_, ?_, ?_, ?_, ?_⟩
      · intro hp
        rcases hok p hp with h | ⟨k2, _, hlk⟩
        · exact i1 h
        · exact i6 _ (rlookup_mem hlk) rfl
      · intro hp
        exact i2 (herr p hp)
      · rw [hnp]
        exact i3
      · intro hrc
        rw [hq, hmi.2.2.1] at hrc
        rw [hatt]
        exact i4 hrc
      · intro a ha
        rw [hatt] at ha
        exact i5 a ha
      · intro kv hkv
        rw [hq] at hkv
        exact i6 kv (hmi.1 kv hkv)
  | runTask i =>
    cases hget : σ.tasks[i]? with
    | none =>
      rw [show step σ (.runTask i) = none from by simp [step, hget]] at hstep
      exact Option.noConfusion hstep
    | some t =>
      have hrsend : ∀ m ps kf, σ' = runSend (removeTask σ i) m ps kf → closedIsolated σ' p := by
        intro m ps kf hσ
        subst hσ
        have hrf := runSend_fields (removeTask σ i) m ps kf
        have hsb := sendBody_state (removeTask σ i).sock m ps
          (Nat.repr ((removeTask σ i).idCounter + 1)) (removeTask σ i).nextP
        refine ⟨?_, ?_, ?_, ?_, ?_, ?_⟩
        · intro hp
          exact i1 (hrf.2.2.2.2.2.1 p hp)
        · intro hp
          exact i2 (hrf.2.2.2.2.2.2.1 p hp)
        · rw [hrf.2.2.2.1]
          show p < σ.nextP + 1
          omega
        · intro hrc
          rw [hrf.1, hsb.2.2.2.2.1] at hrc
          rw [hrf.2.1]
          exact i4 hrc
        · intro a ha
          rw [hrf.2.1] at ha
          exact i5 a ha
        · intro kv hkv
          rw [hrf.1, hsb.1] at hkv
          rcases mem_rset hkv with h | h
          · exact i6 kv h
          · rw [h]
            show σ.nextP ≠ p
            omega
      cases t with
      | sendT m ps waitOn kf =>
        cases waitOn with
        | none =>
          rw [show step σ (.runTask i)
            = some (runSend (removeTask σ i) m ps kf) from by simp [step, hget]] at hstep
          injection hstep with h
          exact hrsend m ps kf h.symm
        | some r =>
          by_cases hok2 : r ∈ σ.settledOk
          · rw [show step σ (.runTask i)
              = some (runSend (removeTask σ i) m ps kf) from by
                simp [step, hget, hok2]] at hstep
            injection hstep with h
            exact hrsend m ps kf h.symm
          · by_cases herr2 : r ∈ σ.settledErr
            · rw [show step σ (.runTask i) = some (removeTask σ i) from by
                simp [step, hget, hok2, herr2]] at hstep
              injection hstep with h
              subst h
              exact ⟨i1, i2, i3, i4, i5, i6⟩
            · rw [show step σ (.runTask i) = none from by
                simp [step, hget, hok2, herr2]] at hstep
              exact Option.noConfusion hstep
      | killCleanupT p2 q =>
        by_cases hok2 : p2 ∈ σ.settledOk
        · rw [show step σ (.runTask i)
            = some { removeTask σ i with sock := killPhase2 (removeTask σ i).sock q }
            from by simp [step, hget, hok2]] at hstep
          injection hstep with h
          subst h
          have hk := killPhase2_state σ.sock q
          refine ⟨i1, i2, i3, ?_, i5, ?_⟩
          · intro hrc
            replace hrc : (killPhase2 σ.sock q).resolveClosed = some p := hrc
            rw [hk.2.2.2.1] at hrc
            exact i4 hrc
          · intro kv hkv
            replace hkv : kv ∈ (killPhase2 σ.sock q).queue := hkv
            rw [hk.1] at hkv
            exact i6 kv hkv
        · rw [show step σ (.runTask i) = none from by simp [step, hget, hok2]] at hstep
          exact Option.noConfusion hstep

theorem closedIsolated_run (σ : Sys) (p : Nat) (ls : List Label) (σ' : Sys)
    (hwf : WfP σ) (hinv : closedIsolated σ p) (hrun : run σ ls = some σ') :
    closedIsolated σ' p := by
  induction ls generalizing σ with
  | nil =>
    rw [run] at hrun
    injection hrun with h
    subst h
    exact hinv
  | cons l t ih =>
    rw [run] at hrun
    cases hs : step σ l with
    | none => rw [hs] at hrun; exact Option.noConfusion hrun
    | some σ1 =>
      rw [hs] at hrun
      exact ih σ1 (WfP_step σ σ1 l hwf hs) (closedIsolated_step σ σ1 l p hwf hinv hs) hrun

theorem getElemQ_concat {α : Type} (l : List α) (x : α) : (l ++ [x])[l.length]? = some x := by
  induction l with
  | nil => rfl
  | cons a t ih => simpa using ih

theorem eraseIdx_concat {α : Type} (l : List α) (x : α) :
    (l ++ [x]).eraseIdx l.length = l := by
  induction l with
  | nil => rfl
  | cons a t ih => simp [List.eraseIdx_cons_succ, ih]

theorem sendIsolated_openCall (σ : Sys) (ourId : String) (p : Nat)
    (hinv : sendIsolated σ ourId p) : sendIsolated (openCall σ) ourId p := by
  obtain ⟨i1, i2, i3, i4, i5, i6, i7, i8⟩ := hinv
  have hoc := openCall_fields σ
  refine ⟨?_, ?_, ?_, ?_, ?_, ?_, ?_, ?_⟩
  · intro hp
    exact i1 (hoc.2.2.2.2.2.2.2.1 p hp)
  · intro hp
    exact i2 (hoc.2.2.2.2.2.2.2.2.1 p hp)
  · rw [hoc.2.2.2.2.2.2.1]
    omega
  · intro cp hcp
    rw [hoc.2.1] at hcp
    injection hcp with h2
    omega
  · intro a ha
    rw [hoc.2.2.2.1] at ha
    rcases List.mem_append.mp ha with h | h
    · exact i5 a h
    · rcases List.mem_singleton.mp h with rfl
      show σ.nextP + 1 ≠ p
      omega
  · intro kv hkv
    rw [hoc.1] at hkv
    exact i6 kv hkv
  · intro hmem
    exact i7 (hoc.2.2.2.2.2.2.2.2.2 ourId hmem)
  · intro n hn
    exact i8 n (by rw [hoc.2.2.2.2.2.1] at hn; exact hn)

theorem sendIsolated_step (σ σ' : Sys) (l : Label) (ourId : String) (p : Nat)
    (hwf : WfP σ) (hinv : sendIsolated σ ourId p) (hecho : echoOk σ l = true)
    (hstep : step σ l = some σ') : sendIsolated σ' ourId p := by
  obtain ⟨i1, i2, i3, i4, i5, i6, i7, i8⟩ := hinv
  cases l with
  | uOpen =>
    rw [show step σ .uOpen = some (openCall σ) from rfl] at hstep
    injection hstep with h
    subst h
    exact sendIsolated_openCall σ ourId p ⟨i1, i2, i3, i4, i5, i6, i7, i8⟩
  | timerFire =>
    by_cases hpt : σ.pendingTimers > 0
    · rw [show step σ .timerFire
        = some { openCall σ with pendingTimers := σ.pendingTimers - 1 } from by
          simp [step, hpt]] at hstep
      injection hstep with h
      subst h
      exact sendIsolated_openCall σ ourId p ⟨i1, i2, i3, i4, i5, i6, i7, i8⟩
    · rw [show step σ .timerFire = none from by simp [step, hpt]] at hstep
      exact Option.noConfusion hstep
  | uClose r =>
    obtain ⟨hq, hatt, htk, hic, hnp, _, hok, herr, hsent⟩ :=
      step_uClose_fields σ σ' r hstep
    have hcs := closeSync_state σ.sock r σ.nextP
    refine ⟨?_, ?_, ?_, ?_, ?_, ?_, ?_, ?_⟩
    · intro hp
      exact i1 (hok p hp)
    · intro hp
      exact i2 (herr p hp)
    · rw [hnp]
      omega
    · intro cp hcp
      rw [hq, hcs.2.1] at hcp
      injection hcp with h2
      omega
    · intro a ha
      rw [hatt] at ha
      exact i5 a ha
    · intro kv hkv
      rw [hq, hcs.2.2.1] at hkv
      exact i6 kv hkv
    · intro hmem
      exact i7 (hsent ourId hmem)
    · intro n hn
      exact i8 n (by rw [hic] at hn; exact hn)
  | uSend m2 ps2 =>
    rw [show step σ (.uSend m2 ps2)
      = some { σ with tasks := σ.tasks ++ [.sendT m2 ps2 σ.sock.ready none] } from rfl]
      at hstep
    injection hstep with h
    subst h
    exact ⟨i1, i2, i3, i4, i5, i6, i7, i8⟩
  | uListenLive q cb =>
    obtain ⟨hq, hatt, htk, hic, hnp, _, hok, herr, hsent⟩ :=
      step_uListenLive_fields σ σ' q cb hstep
    have hls := listenLive_state σ.sock q cb
    refine ⟨?_, ?_, ?_, ?_, ?_, ?_, ?_, ?_⟩
    · intro hp
      exact i1 (hok p hp)
    · intro hp
      exact i2 (herr p hp)
    · rw [hnp]
      exact i3
    · intro cp hcp
      rw [hq, hls.2.2.1] at hcp
      exact i4 cp hcp
    · intro a ha
      rw [hatt] at ha
      exact i5 a ha
    · intro kv hkv
      rw [hq, hls.1] at hkv
      exact i6 kv hkv
    · intro hmem
      exact i7 (hsent ourId hmem)
    · intro n hn
      exact i8 n (by rw [hic] at hn; exact hn)
  | uKill q =>
    obtain ⟨hq, hatt, htk, hic, hnp, _, hok, herr, hsent⟩ :=
      step_uKill_fields σ σ' q hstep
    have hkp := killPhase1_state σ.sock q
    refine ⟨?_, ?_, ?_, ?_, ?_, ?_, ?_, ?_⟩
    · intro hp
      exact i1 (hok p hp)
    · intro hp
      exact i2 (herr p hp)
    · rw [hnp]
      exact i3
    · intro cp hcp
      rw [hq, hkp.2.2.2.1] at hcp
      exact i4 cp hcp
    · intro a ha
      rw [hatt] at ha
      exact i5 a ha
    · intro kv hkv
      rw [hq, hkp.1] at hkv
      exact i6 kv hkv
    · intro hmem
      exact i7 (hsent ourId hmem)
    · intro n hn
      exact i8 n (by rw [hic] at hn; exact hn)
  | wsOpenEv w =>
    cases hf : σ.attempts.find? (fun a => a.wsId == w) with
    | none =>
      rw [show step σ (.wsOpenEv w) = none from by simp [step, hf]] at hstep
      exact Option.noConfusion hstep
    | some a =>
      obtain ⟨hq, hatt, htk, hic, hnp, hok, herr, hsent⟩ :=
        step_wsOpen_fields σ σ' w a hf hstep
      have hane : a.readyP ≠ p := i5 a (List.mem_of_find?_eq_some hf)
      refine ⟨?_, ?_, ?_, ?_, ?_, ?_, ?_, ?_⟩
      · intro hp
        rcases hok p hp with h | h
        · exact i1 h
        · exact hane h.symm
      · intro hp
        exact i2 (herr p hp)
      · rw [hnp]
        exact i3
      · intro cp hcp
        rw [hq] at hcp
        exact i4 cp hcp
      · intro b hb
        obtain ⟨a2, ha2, he⟩ := hatt b hb
        rw [he]
        exact i5 a2 ha2
      · intro kv hkv
        rw [hq] at hkv
        exact i6 kv hkv
      · intro hmem
        exact i7 (hsent ourId hmem)
      · intro n hn
        exact i8 n (by rw [hic] at hn; exact hn)
  | wsErrorEv w =>
    cases hf : σ.attempts.find? (fun a => a.wsId == w) with
    | none =>
      rw [show step σ (.wsErrorEv w) = none from by simp [step, hf]] at hstep
      exact Option.noConfusion hstep
    | some a =>
      obtain ⟨hq, hatt, htk, hic, hnp, hok, herr, hsent⟩ :=
        step_wsError_fields σ σ' w a hf hstep
      have hane : a.readyP ≠ p := i5 a (List.mem_of_find?_eq_some hf)
      refine ⟨?_, ?_, ?_, ?_, ?_, ?_, ?_, ?_⟩
      · intro hp
        exact i1 (hok p hp)
      · intro hp
        rcases herr p hp with h | h
        · exact i2 h
        · exact hane h.symm
      · rw [hnp]
        exact i3
      · intro cp hcp
        rw [hq] at hcp
        exact i4 cp hcp
      · intro b hb
        obtain ⟨a2, ha2, he⟩ := hatt b hb
        rw [he]
        exact i5 a2 ha2
      · intro kv hkv
        rw [hq] at hkv
        exact i6 kv hkv
      · intro hmem
        exact i7 (hsent ourId hmem)
      · intro n hn
        exact i8 n (by rw [hic] at hn; exact hn)
  | wsCloseEv w =>
    obtain ⟨hq, hatt, htk, hic, hnp, _, hok, herr, hsent⟩ :=
      step_wsClose_fields σ σ' w hstep
    have hcl := closeListener_state σ.sock
    refine ⟨?_, ?_, ?_, ?_, ?_, ?_, ?_, ?_⟩
    · intro hp
      rcases hok p hp with h | h
      · exact i1 h
      · exact absurd rfl (i4 p h)
    · intro hp
      exact i2 (herr p hp)
    · rw [hnp]
      exact i3
    · intro cp hcp
      rw [hq, hcl.2.2.2.2.1] at hcp
      exact i4 cp hcp
    · intro a ha
      rw [hatt] at ha
      exact i5 a ha
    · intro kv hkv
      rw [hq, hcl.1] at hkv
      exact absurd hkv (List.not_mem_nil kv)
    · intro hmem
      exact i7 (hsent ourId hmem)
    · intro n hn
      exact i8 n (by rw [hic] at hn; exact hn)
  | wsMessageEv w res =>
    cases hml : messageListener σ.sock res with
    | error msg =>
      obtain ⟨hq, hatt, htk, hic, hnp, hok, herr, hsent⟩ :=
        step_wsMessage_err_fields σ σ' w res msg hml hstep
      refine ⟨?_, ?_, ?_, ?_, ?_, ?_, ?_, ?_⟩
      · intro hp
        exact i1 (hok p hp)
      · intro hp
        exact i2 (herr p hp)
      · rw [hnp]
        exact i3
      · intro cp hcp
        rw [hq] at hcp
        exact i4 cp hcp
      · intro a ha
        rw [hatt] at ha
        exact i5 a ha
      · intro kv hkv
        rw [hq] at hkv
        exact i6 kv hkv
      · intro hmem
        exact i7 (hsent ourId hmem)
      · intro n hn
        exact i8 n (by rw [hic] at hn; exact hn)
    | ok r2 =>
      obtain ⟨hq, hatt, htk, hic, hnp, _, hok, herr, hsent⟩ :=
        step_wsMessage_ok_fields σ σ' w res r2 hml hstep
      have hmi := messageListener_ok_inv σ.sock res r2.1 r2.2 hml
      refine ⟨?_, ?_, ?_, ?_, ?_, ?_, ?_, ?_⟩
      · intro hp
        rcases hok p hp with h | ⟨k2, hrk, hlk⟩
        · exact i1 h
        · have hk2 : k2 = ourId := i6 (k2, p) (rlookup_mem hlk) rfl
          simp only [echoOk, hrk] at hecho
          have hks : k2 ∈ σ.sentIds := by simpa using hecho
          rw [hk2] at hks
          exact i7 hks
      · intro hp
        exact i2 (herr p hp)
      · rw [hnp]
        exact i3
      · intro cp hcp
        rw [hq, hmi.2.2.1] at hcp
        exact i4 cp hcp
      · intro a ha
        rw [hatt] at ha
        exact i5 a ha
      · intro kv hkv
        rw [hq] at hkv
        exact i6 kv (hmi.1 kv hkv)
      · intro hmem
        exact i7 (hsent ourId hmem)
      · intro n hn
        exact i8 n (by rw [hic] at hn; exact hn)
  | runTask i =>
    cases hget : σ.tasks[i]? with
    | none =>
      rw [show step σ (.runTask i) = none from by simp [step, hget]] at hstep
      exact Option.noConfusion hstep
    | some t =>
      have hrsend : ∀ m2 ps2 kf, σ' = runSend (removeTask σ i) m2 ps2 kf →
          sendIsolated σ' ourId p := by
        intro m2 ps2 kf hσ
        subst hσ
        have hrf := runSend_fields (removeTask σ i) m2 ps2 kf
        have hsb := sendBody_state (removeTask σ i).sock m2 ps2
          (Nat.repr ((removeTask σ i).idCounter + 1)) (removeTask σ i).nextP
        refine ⟨?_, ?_, ?_, ?_, ?_, ?_, ?_, ?_⟩
        · intro hp
          exact i1 (hrf.2.2.2.2.2.1 p hp)
        · intro hp
          exact i2 (hrf.2.2.2.2.2.2.1 p hp)
        · rw [hrf.2.2.2.1]
          show p < σ.nextP + 1
          omega
        · intro cp hcp
          rw [hrf.1, hsb.2.2.2.2.1] at hcp
          exact i4 cp hcp
        · intro a ha
          rw [hrf.2.1] at ha
          exact i5 a ha
        · intro kv hkv
          rw [hrf.1, hsb.1] at hkv
          rcases mem_rset hkv with h | h
          · exact i6 kv h
          · intro hkp
            rw [h] at hkp
            exact absurd hkp (by show σ.nextP ≠ p; omega)
        · intro hmem
          rcases hrf.2.2.2.2.2.2.2.1 ourId hmem with h | h
          · exact i7 h
          · exact i8 (σ.idCounter + 1) (by omega) h.symm
        · intro n hn
          rw [hrf.2.2.1] at hn
          have hn2 : n > σ.idCounter + 1 := hn
          exact i8 n (by omega)
      cases t with
      | sendT m2 ps2 waitOn kf =>
        cases waitOn with
        | none =>
          rw [show step σ (.runTask i)
            = some (runSend (removeTask σ i) m2 ps2 kf) from by simp [step, hget]] at hstep
          injection hstep with h
          exact hrsend m2 ps2 kf h.symm
        | some r =>
          by_cases hok2 : r ∈ σ.settledOk
          · rw [show step σ (.runTask i)
              = some (runSend (removeTask σ i) m2 ps2 kf) from by
                simp [step, hget, hok2]] at hstep
            injection hstep with h
            exact hrsend m2 ps2 kf h.symm
          · by_cases herr2 : r ∈ σ.settledErr
            · rw [show step σ (.runTask i) = some (removeTask σ i) from by
                simp [step, hget, hok2, herr2]] at hstep
              injection hstep with h
              subst h
              exact ⟨i1, i2, i3, i4, i5, i6, i7, i8⟩
            · rw [show step σ (.runTask i) = none from by
                simp [step, hget, hok2, herr2]] at hstep
              exact Option.noConfusion hstep
      | killCleanupT p2 q =>
        by_cases hok2 : p2 ∈ σ.settledOk
        · rw [show step σ (.runTask i)
            = some { removeTask σ i with sock := killPhase2 (removeTask σ i).sock q }
            from by simp [step, hget, hok2]] at hstep
          injection hstep with h
          subst h
          have hk := killPhase2_state σ.sock q
          refine ⟨i1, i2, i3, ?_, i5, ?_, i7, i8⟩
          · intro cp hcp
            replace hcp : (killPhase2 σ.sock q).resolveClosed = some cp := hcp
            rw [hk.2.2.2.1] at hcp
            exact i4 cp hcp
          · intro kv hkv
            replace hkv : kv ∈ (killPhase2 σ.sock q).queue := hkv
            rw [hk.1] at hkv
            exact i6 kv hkv
        · rw [show step σ (.runTask i) = none from by simp [step, hget, hok2]] at hstep
          exact Option.noConfusion hstep

theorem sendIsolated_echoRun (σ : Sys) (ourId : String) (p : Nat) (ls : List Label)
    (σ' : Sys) (hwf : WfP σ) (hinv : sendIsolated σ ourId p)
    (hrun : echoRun σ ls = some σ') : sendIsolated σ' ourId p := by
  induction ls generalizing σ with
  | nil =>
    rw [echoRun] at hrun
    injection hrun with h
    subst h
    exact hinv
  | cons l t ih =>
    rw [echoRun] at hrun
    by_cases he : echoOk σ l = true
    · rw [if_pos he] at hrun
      cases hs : step σ l with
      | none => rw [hs] at hrun; exact Option.noConfusion hrun
      | some σ1 =>
        rw [hs] at hrun
        exact ih σ1 (WfP_step σ σ1 l hwf hs)
          (sendIsolated_step σ σ1 l ourId p hwf hinv he hs) hrun
    · rw [if_neg he] at hrun
      exact Option.noConfusion hrun

/-- C3: spec-modelled identifier generator.  For a suspended `send(m, ps)`
body waiting on the readiness signal of the current `open()` attempt: it
resumes only once that signal has settled; on resumption it registers exactly
one single-shot continuation under the freshly generated identifier (fresh: no
pending entry already uses it), writes the serialized `(id, method, params)`
frame to the current transport, and the registered entry is consumed — the
reply promise resolved with the full frame and the entry removed — exactly by
an inbound frame carrying that same identifier, while replies addressed to any
other identifier leave the entry untouched. -/
theorem send_correlates_by_identifier (σ σ' : Sys) (i : Nat) (m : String)
    (ps : List JSValue) (r : Nat)
    (hwf : wf σ = true)
    (htask : σ.tasks[i]? = some (.sendT m ps (some r) none)) :
    (r ∉ σ.settledOk → r ∉ σ.settledErr → step σ (.runTask i) = none)
    ∧ (r ∈ σ.settledOk → step σ (.runTask i) = some σ' →
        σ'.sock.queue = rset σ.sock.queue (Nat.repr (σ.idCounter + 1)) σ.nextP
        ∧ rlookup σ.sock.queue (Nat.repr (σ.idCounter + 1)) = none
        ∧ rlookup σ'.sock.queue (Nat.repr (σ.idCounter + 1)) = some σ.nextP
        ∧ (∀ w, σ.sock.ws = some w → σ'.trace = σ.trace
            ++ [.wsSendFrame w (.obj [("id", .str (Nat.repr (σ.idCounter + 1))),
                ("method", .str m), ("params", .arr ps)])])
        ∧ (∀ res, replyKey res = some (Nat.repr (σ.idCounter + 1)) →
            messageListener σ'.sock res
              = .ok ({ σ'.sock with
                  queue := rdel σ'.sock.queue (Nat.repr (σ.idCounter + 1)) },
                [Event.resolveP σ.nextP res]))
        ∧ (∀ res k2 s2 evs, replyKey res = some k2
            → k2 ≠ Nat.repr (σ.idCounter + 1)
            → messageListener σ'.sock res = .ok (s2, evs)
            → rlookup s2.queue (Nat.repr (σ.idCounter + 1)) = some σ.nextP)) := by
  have hP := (wf_iff σ).mp hwf
  constructor
  · intro h1 h2
    simp [step, htask, h1, h2]
  · intro hr hstep
    have hσ : σ' = runSend (removeTask σ i) m ps none := by
      rw [show step σ (.runTask i)
        = some (runSend (removeTask σ i) m ps none) from by
          simp [step, htask, hr]] at hstep
      injection hstep with h
      exact h.symm
    have hrf := runSend_fields (removeTask σ i) m ps none
    have hqueue : σ'.sock.queue
        = rset σ.sock.queue (Nat.repr (σ.idCounter + 1)) σ.nextP := by
      rw [hσ, hrf.1]
      rfl
    have hfresh : rlookup σ.sock.queue (Nat.repr (σ.idCounter + 1)) = none := by
      cases hl : rlookup σ.sock.queue (Nat.repr (σ.idCounter + 1)) with
      | none => rfl
      | some v =>
        exfalso
        obtain ⟨⟨j, hj, hje⟩, _⟩ := hP.1 _ (rlookup_mem hl)
        have h3 : j + 1 = σ.idCounter + 1 := natRepr_injective hje
        omega
    have hreg : rlookup σ'.sock.queue (Nat.repr (σ.idCounter + 1)) = some σ.nextP := by
      rw [hqueue]
      exact rlookup_rset_self σ.sock.queue (Nat.repr (σ.idCounter + 1)) σ.nextP
    refine ⟨hqueue, hfresh, hreg, ?_, ?_, ?_⟩
    · intro w hw
      have hw2 : (removeTask σ i).sock.ws = some w := hw
      have hsbEq : (sendBody (removeTask σ i).sock m ps
          (Nat.repr ((removeTask σ i).idCounter + 1)) (removeTask σ i).nextP).2
          = [Event.wsSendFrame w (.obj [("id", .str (Nat.repr (σ.idCounter + 1))),
              ("method", .str m), ("params", .arr ps)])] := by
        simp [sendBody, removeTask, hw2, hw]
      rw [hσ, hrf.2.2.2.2.1, hsbEq]
      rfl
    · intro res hres
      have hml := messageListener_reply σ'.sock res (Nat.repr (σ.idCounter + 1)) hres
      rw [hreg] at hml
      exact hml
    · intro res k2 s2 evs hres hk2 hml2
      have hml := messageListener_reply σ'.sock res k2 hres
      rw [hml2] at hml
      cases hl : rlookup σ'.sock.queue k2 with
      | some p =>
        simp only [hl] at hml
        injection hml with h
        have hs2 : s2 = { σ'.sock with queue := rdel σ'.sock.queue k2 } :=
          congrArg Prod.fst h
        rw [hs2]
        show rlookup (rdel σ'.sock.queue k2) (Nat.repr (σ.idCounter + 1))
          = some σ.nextP
        rw [rlookup_rdel_ne σ'.sock.queue k2 (Nat.repr (σ.idCounter + 1))
          (Ne.symm hk2)]
        exact hreg
      | none =>
        simp only [hl] at hml
        injection hml with h
        have hs2 : s2 = σ'.sock := congrArg Prod.fst h
        rw [hs2]
        exact hreg

theorem send_correlates_by_identifier_witness :
    wf sysReadySend = true
    ∧ sysReadySend.tasks[0]? = some (.sendT "ping" [] (some 5) none)
    ∧ 5 ∈ sysReadySend.settledOk
    ∧ rlookup sysReadySendRun.sock.queue (Nat.repr (sysReadySend.idCounter + 1))
        = some sysReadySend.nextP :=
  ⟨by decide, rfl, by decide,
   ((send_correlates_by_identifier sysReadySend sysReadySendRun 0 "ping" [] 5
     (by decide) rfl).2 (by decide) rfl).2.2.1⟩

theorem killPhase2_buffer (s : SocketState) (q : String) :
    rlookup (killPhase2 s q).unprocessedLiveResponses q = none := by
  cases h : rlookup s.unprocessedLiveResponses q with
  | none => simp [killPhase2, h]
  | some b => simp [killPhase2, h, rlookup_rdel_self]

/-- C7: for a `kill(q)` call with listeners registered under `q`: every such
listener is delivered a terminal `CLOSE`/`QUERY_KILLED` event and the listener
list for `q` is removed, while the kill request for `q` is only enqueued as a
suspended `send` task (so every frame write for it lands after the local
notifications in the trace); the kill continuation runs only once the kill
reply promise has resolved and then the early-arrival buffer entry for `q` is
gone; and in the resulting state a notification for `q` is buffered rather
than delivered. -/
theorem kill_notifies_locally_then_requests (σ σ' : Sys) (q : String) (cbs : List Nat)
    (hlq : rlookup σ.sock.liveQueue q = some cbs)
    (hstep : step σ (.uKill q) = some σ') :
    σ'.trace = σ.trace ++ cbs.map (fun cb => Event.invokeCb cb queryKilledMessage)
    ∧ rlookup σ'.sock.liveQueue q = none
    ∧ σ'.tasks = σ.tasks ++ [.sendT "kill" [.str q] σ.sock.ready (some q)]
    ∧ (∀ σ2 σ3 p i, σ2.tasks[i]? = some (.killCleanupT p q) →
        step σ2 (.runTask i) = some σ3 →
        p ∈ σ2.settledOk ∧ rlookup σ3.sock.unprocessedLiveResponses q = none)
    ∧ (∀ result idv, getField result "id" = .ok idv → jsToString idv = q →
        handleLiveBatch σ'.sock result
          = .ok (bufferAppend σ'.sock q (jsOmitField result "id"), [])) := by
  obtain ⟨hsock, hatt, htk, hic, hnp, htr, hok, herr, hsent⟩ :=
    step_uKill_fields σ σ' q hstep
  have hev : (killPhase1 σ.sock q).2
      = cbs.map (fun cb => Event.invokeCb cb queryKilledMessage) := by
    simp only [killPhase1, hlq]
  have hlq1 : (killPhase1 σ.sock q).1.liveQueue = rdel σ.sock.liveQueue q := by
    simp only [killPhase1, hlq]
  have hlqn : rlookup σ'.sock.liveQueue q = none := by
    rw [hsock, hlq1]
    exact rlookup_rdel_self σ.sock.liveQueue q
  refine ⟨?_, hlqn, htk, ?_, ?_⟩
  · rw [htr, hev]
  · intro σ2 σ3 p i hget hs
    by_cases hpm : p ∈ σ2.settledOk
    · refine ⟨hpm, ?_⟩
      rw [show step σ2 (.runTask i)
        = some { removeTask σ2 i with sock := killPhase2 (removeTask σ2 i).sock q }
        from by simp [step, hget, hpm]] at hs
      injection hs with h
      rw [← h]
      exact killPhase2_buffer (removeTask σ2 i).sock q
    · rw [show step σ2 (.runTask i) = none from by simp [step, hget, hpm]] at hs
      exact Option.noConfusion hs
  · intro result idv hid hjs
    simp [handleLiveBatch, hid, hjs, hlqn, bufferAppend]

theorem kill_notifies_locally_then_requests_witness :
    rlookup sysOneListener.sock.liveQueue "q1" = some [3]
    ∧ (sysOneListenerKilled.trace = sysOneListener.trace
        ++ [3].map (fun cb => Event.invokeCb cb queryKilledMessage)
       ∧ rlookup sysOneListenerKilled.sock.liveQueue "q1" = none
       ∧ sysOneListenerKilled.tasks = sysOneListener.tasks
           ++ [.sendT "kill" [.str "q1"] sysOneListener.sock.ready (some "q1")]
       ∧ (∀ σ2 σ3 p i, σ2.tasks[i]? = some (.killCleanupT p "q1") →
           step σ2 (.runTask i) = some σ3 →
           p ∈ σ2.settledOk ∧ rlookup σ3.sock.unprocessedLiveResponses "q1" = none)
       ∧ (∀ result idv, getField result "id" = .ok idv → jsToString idv = "q1" →
           handleLiveBatch sysOneListenerKilled.sock result
             = .ok (bufferAppend sysOneListenerKilled.sock "q1"
                 (jsOmitField result "id"), []))) :=
  ⟨rfl, kill_notifies_locally_then_requests sysOneListener sysOneListenerKilled
    "q1" [3] rfl rfl⟩

/-- C9: spec-modelled identifier generator.  For a `send(method, params)` call
made before `open()` has ever been called (`ready` absent, no transport): the
awaited readiness signal is absent so the body resumes with nothing to await,
a continuation is still registered in the pending-request map under the fresh
identifier, no frame is written to any transport (the trace is unchanged), and
under the echo assumption — the remote side only replies to identifiers
actually written to a transport — the returned future never settles, so the
map entry is never consumed. -/
theorem send_before_open_never_settles (σ σ1 σ2 : Sys) (m : String) (ps : List JSValue)
    (hwf : wf σ = true) (hready : σ.sock.ready = none) (hws : σ.sock.ws = none)
    (h1 : step σ (.uSend m ps) = some σ1)
    (h2 : step σ1 (.runTask σ.tasks.length) = some σ2) :
    σ1.tasks = σ.tasks ++ [.sendT m ps none none]
    ∧ rlookup σ2.sock.queue (Nat.repr (σ.idCounter + 1)) = some σ.nextP
    ∧ σ2.trace = σ.trace
    ∧ neverResolvesEcho σ2 σ.nextP := by
  have hP := (wf_iff σ).mp hwf
  have hP1 : WfP σ1 := WfP_step σ σ1 (.uSend m ps) hP h1
  have hP2 : WfP σ2 := WfP_step σ1 σ2 (.runTask σ.tasks.length) hP1 h2
  have hσ1 : σ1 = { σ with tasks := σ.tasks ++ [.sendT m ps none none] } := by
    rw [show step σ (.uSend m ps)
      = some { σ with tasks := σ.tasks ++ [.sendT m ps σ.sock.ready none] } from rfl,
      hready] at h1
    injection h1 with h
    exact h.symm
  have hget : σ1.tasks[σ.tasks.length]? = some (.sendT m ps none none) := by
    rw [hσ1]
    exact getElemQ_concat σ.tasks _
  have hσ2 : σ2 = runSend (removeTask σ1 σ.tasks.length) m ps none := by
    rw [show step σ1 (.runTask σ.tasks.length)
      = some (runSend (removeTask σ1 σ.tasks.length) m ps none) from by
        simp [step, hget]] at h2
    injection h2 with h
    exact h.symm
  have hA : (removeTask σ1 σ.tasks.length).sock = σ.sock := by rw [hσ1]; rfl
  have hB : (removeTask σ1 σ.tasks.length).idCounter = σ.idCounter := by rw [hσ1]; rfl
  have hC : (removeTask σ1 σ.tasks.length).nextP = σ.nextP := by rw [hσ1]; rfl
  have hD : (removeTask σ1 σ.tasks.length).trace = σ.trace := by rw [hσ1]; rfl
  have hE : (removeTask σ1 σ.tasks.length).settledOk = σ.settledOk := by rw [hσ1]; rfl
  have hF : (removeTask σ1 σ.tasks.length).settledErr = σ.settledErr := by rw [hσ1]; rfl
  have hG : (removeTask σ1 σ.tasks.length).sentIds = σ.sentIds := by rw [hσ1]; rfl
  have hH : (removeTask σ1 σ.tasks.length).attempts = σ.attempts := by rw [hσ1]; rfl
  have hrf := runSend_fields (removeTask σ1 σ.tasks.length) m ps none
  have hsq := sendBody_state (removeTask σ1 σ.tasks.length).sock m ps
    (Nat.repr ((removeTask σ1 σ.tasks.length).idCounter + 1))
    (removeTask σ1 σ.tasks.length).nextP
  have hsb2 : (sendBody (removeTask σ1 σ.tasks.length).sock m ps
      (Nat.repr ((removeTask σ1 σ.tasks.length).idCounter + 1))
      (removeTask σ1 σ.tasks.length).nextP).2 = [] := by
    simp [sendBody, hA, hws]
  have hqueue : σ2.sock.queue = rset σ.sock.queue (Nat.repr (σ.idCounter + 1)) σ.nextP := by
    rw [hσ2, hrf.1, hsq.1, hA, hB, hC]
  refine ⟨?_, ?_, ?_, ?_⟩
  · rw [hσ1]
  · rw [hqueue]
    exact rlookup_rset_self σ.sock.queue (Nat.repr (σ.idCounter + 1)) σ.nextP
  · rw [hσ2, hrf.2.2.2.2.1, hD, hsb2]
    simp
  · have hiso : sendIsolated σ2 (Nat.repr (σ.idCounter + 1)) σ.nextP := by
      refine ⟨?_, ?_, ?_, ?_, ?_, ?_, ?_, ?_⟩
      · intro hp
        rw [hσ2] at hp
        have h3 := hrf.2.2.2.2.2.1 σ.nextP hp
        rw [hE] at h3
        exact absurd (hP.2.2.2.2.2.2.1 σ.nextP h3) (lt_irrefl _)
      · intro hp
        rw [hσ2] at hp
        have h3 := hrf.2.2.2.2.2.2.1 σ.nextP hp
        rw [hF] at h3
        exact absurd (hP.2.2.2.2.2.2.2 σ.nextP h3) (lt_irrefl _)
      · rw [hσ2, hrf.2.2.2.1, hC]
        omega
      · intro cp hcp
        rw [hσ2, hrf.1, hsq.2.2.2.2.1, hA] at hcp
        have h3 := hP.2.2.2.1 cp hcp
        omega
      · intro a ha
        rw [hσ2, hrf.2.1, hH] at ha
        have h3 := hP.2.2.1 a ha
        omega
      · intro kv hkv
        rw [hσ2] at hkv
        rw [show (runSend (removeTask σ1 σ.tasks.length) m ps none).sock.queue
          = rset σ.sock.queue (Nat.repr (σ.idCounter + 1)) σ.nextP from by
            rw [hrf.1, hsq.1, hA, hB, hC]] at hkv
        rcases mem_rset hkv with h | h
        · intro hp2
          have h3 := (hP.1 kv h).2
          omega
        · intro _
          rw [h]
      · intro hmem
        rw [hσ2] at hmem
        have hmem2 : Nat.repr (σ.idCounter + 1)
            ∈ (record (removeTask σ1 σ.tasks.length)
                (sendBody (removeTask σ1 σ.tasks.length).sock m ps
                  (Nat.repr ((removeTask σ1 σ.tasks.length).idCounter + 1))
                  (removeTask σ1 σ.tasks.length).nextP).1
                (sendBody (removeTask σ1 σ.tasks.length).sock m ps
                  (Nat.repr ((removeTask σ1 σ.tasks.length).idCounter + 1))
                  (removeTask σ1 σ.tasks.length).nextP).2).sentIds := hmem
        rcases record_sentIds_sub (removeTask σ1 σ.tasks.length) _ _ _ hmem2
          with h | ⟨w2, f, hv, _⟩
        · rw [hG] at h
          obtain ⟨j, hj, hje⟩ := hP.2.1 _ h
          have h3 : j + 1 = σ.idCounter + 1 := natRepr_injective hje
          omega
        · rw [hsb2] at hv
          exact absurd hv (List.not_mem_nil _)
      · intro n hn
        rw [hσ2, hrf.2.2.1, hB] at hn
        exact natRepr_ne_of_ne (by omega)
    intro ls σ3 hrun
    exact (sendIsolated_echoRun σ2 (Nat.repr (σ.idCounter + 1)) σ.nextP ls σ3
      hP2 hiso hrun).1

theorem send_before_open_never_settles_witness :
    wf initialSys = true ∧ initialSys.sock.ready = none ∧ initialSys.sock.ws = none
    ∧ (sysEarlySend.tasks = initialSys.tasks ++ [.sendT "ping" [] none none]
       ∧ rlookup sysEarlySendRun.sock.queue (Nat.repr (initialSys.idCounter + 1))
           = some initialSys.nextP
       ∧ sysEarlySendRun.trace = initialSys.trace
       ∧ neverResolvesEcho sysEarlySendRun initialSys.nextP) :=
  ⟨by decide, rfl, rfl,
   send_before_open_never_settles initialSys sysEarlySend sysEarlySendRun "ping" []
     (by decide) rfl rfl rfl rfl⟩

/-- C8: for a `close(reason)` call made when no transport exists (and no
attempt ever created one), the close instruction to the transport is indeed a
no-op (the handler emits only the close-hook event, no `wsCloseCall`) and the
close-hook still fires; but the future the call awaits — the fresh `closed`
promise, resolvable only by the transport-close handler — is NEVER resolved
in any reachable extension, so contrary to the claim the call never
returns. -/
theorem close_without_transport (σ σ' : Sys) (r : Nat)
    (hwf : wf σ = true) (hws : σ.sock.ws = none) (hatt : σ.attempts = [])
    (hstep : step σ (.uClose r) = some σ') :
    σ'.trace = σ.trace ++ [Event.hookClose]
    ∧ σ'.sock.resolveClosed = some σ.nextP
    ∧ neverResolves σ' σ.nextP := by
  obtain ⟨hsock, hat, htk, hic, hnp, htr, hok, herr, hsent⟩ :=
    step_uClose_fields σ σ' r hstep
  have hP := (wf_iff σ).mp hwf
  have hev : (closeSync σ.sock r σ.nextP).2 = [Event.hookClose] := by
    simp [closeSync, hws]
  have hcs := closeSync_state σ.sock r σ.nextP
  refine ⟨?_, ?_, ?_⟩
  · rw [htr, hev]
  · rw [hsock]
    exact hcs.2.1
  · have hinv : closedIsolated σ' σ.nextP := by
      refine ⟨?_, ?_, ?_, ?_, ?_, ?_⟩
      · intro hp
        exact absurd (hP.2.2.2.2.2.2.1 _ (hok _ hp)) (lt_irrefl _)
      · intro hp
        exact absurd (hP.2.2.2.2.2.2.2 _ (herr _ hp)) (lt_irrefl _)
      · rw [hnp]
        omega
      · intro _
        rw [hat, hatt]
      · intro a ha
        rw [hat, hatt] at ha
        exact absurd ha (List.not_mem_nil a)
      · intro kv hkv
        rw [hsock, hcs.2.2.1] at hkv
        have hb := (hP.1 kv hkv).2
        omega
    have hwf2 : WfP σ' := WfP_step σ σ' (.uClose r) hP hstep
    intro ls σ2 hrun
    exact (closedIsolated_run σ' σ.nextP ls σ2 hwf2 hinv hrun).1

theorem close_without_transport_witness :
    wf initialSys = true ∧ initialSys.sock.ws = none ∧ initialSys.attempts = []
    ∧ (sysAfterBareClose.trace = initialSys.trace ++ [Event.hookClose]
       ∧ sysAfterBareClose.sock.resolveClosed = some initialSys.nextP
       ∧ neverResolves sysAfterBareClose initialSys.nextP) :=
  ⟨by decide, rfl, rfl,
   close_without_transport initialSys sysAfterBareClose 1000 (by decide) rfl rfl rfl⟩

/-- C8 counterexample: after `close(1000)` on the never-opened socket the
awaited `closed` promise is promise `0`, and promise `0` is never resolved in
any reachable extension — refuting the claim that the call "still returns". -/
theorem close_without_transport_never_returns :
    sysAfterBareClose.sock.resolveClosed = some 0
    ∧ neverResolves sysAfterBareClose 0 := by
  refine ⟨rfl, ?_⟩
  have hP : WfP sysAfterBareClose := (wf_iff sysAfterBareClose).mp (by decide)
  have hinv : closedIsolated sysAfterBareClose 0 := by
    have hq : sysAfterBareClose.sock.queue = [] := rfl
    have hat : sysAfterBareClose.attempts = [] := rfl
    refine ⟨by decide, by decide, by decide, fun _ => hat, ?_, ?_⟩
    · intro a ha
      rw [hat] at ha
      exact absurd ha (List.not_mem_nil a)
    · intro kv hkv
      rw [hq] at hkv
      exact absurd hkv (List.not_mem_nil kv)
  intro ls σ2 hrun
  exact (closedIsolated_run sysAfterBareClose 0 ls σ2 hP hinv hrun).1

end SurrealSocket
